import Mathlib

/-!
# RiftFN: signature-based memory resolution

A shallow embedding of the pattern parser, the pattern matcher with its
displacement resolution, the signature decoder, the resolution pipeline
(`src/src/pattern_scan.cpp`, `src/src/hooks.cpp`, `src/src/version_config.cpp`),
the object locator with the property resolver (`src/src/ue4_sdk.cpp`) and the
string splitter (`src/src/string_utils.cpp`),
followed by the properties established about them.

Conventions: addresses are natural numbers taken modulo `2^64`; a byte is a
natural number below `256`; a C `int` is an `Int` in `[-2^31, 2^31)`.
-/

namespace Rift

/-! ## Machine integers and process memory -/

/-- Process memory: the value stored at each address (reduced to a byte on read). -/
abbrev Memory := Nat → Nat

/-- Read of one `unsigned char` at an address (addresses wrap at `2^64`). -/
def readU8 (mem : Memory) (addr : Nat) : Nat :=
  mem (addr % 2 ^ 64) % 256

/-- Read of a little-endian `unsigned int` (4 bytes) at an address. -/
def readU32 (mem : Memory) (addr : Nat) : Nat :=
  readU8 mem addr + 256 * readU8 mem (addr + 1) + 65536 * readU8 mem (addr + 2)
    + 16777216 * readU8 mem (addr + 3)

/-- Reinterpretation of a 32-bit pattern as a signed `int`. -/
def toInt32 (v : Nat) : Int :=
  if v % 2 ^ 32 < 2 ^ 31 then ((v % 2 ^ 32 : Nat) : Int) else ((v % 2 ^ 32 : Nat) : Int) - 2 ^ 32

/-- Read of a little-endian signed `int` (4 bytes) at an address. -/
def readI32 (mem : Memory) (addr : Nat) : Int :=
  toInt32 (readU32 mem addr)

/-- Reduction of an integer to an unsigned 64-bit value (`uintptr_t` arithmetic). -/
def wrap64 (x : Int) : Nat :=
  (x % 2 ^ 64).toNat

/-- Reinterpretation of a 64-bit pattern as a signed `__int64`. -/
def toInt64 (v : Nat) : Int :=
  if v % 2 ^ 64 < 2 ^ 63 then ((v % 2 ^ 64 : Nat) : Int) else ((v % 2 ^ 64 : Nat) : Int) - 2 ^ 64

/-! ## Pattern matcher (`PatternScan::FindPatternRaw`) -/

/-- The wildcard token, `-1` in the `std::vector<int>` produced by the parser. -/
def wildcard : Int := -1

/-- The field `e_lfanew` of the module header: the `int` at byte `+60`. -/
def e_lfanew (mem : Memory) (module : Nat) : Int :=
  readI32 mem (module + 60)

/-- The field `SizeOfImage` of the module header: the `unsigned int` at
`module + e_lfanew + 80`. -/
def sizeOfImage (mem : Memory) (module : Nat) : Nat :=
  readU32 mem (wrap64 ((module : Int) + e_lfanew mem module + 80))

/-- The byte of the image at an offset from the module base. -/
def imageByte (mem : Memory) (module : Nat) (off : Nat) : Nat :=
  readU8 mem (module + off)

/-- The two nested loops of `FindPatternRaw`, one inner-loop iteration per unit of
fuel. The state is the pair of 32-bit counters `scanOffset` and `matchIdx` (the
64-bit `j` always equals `matchIdx`). A failed comparison is the `break` followed by
`++scanOffset` and the range test; a successful one is `++matchIdx` followed by the
`goto found` test. `none` means the fuel ran out before the loops ended. -/
def scanLoop (mem : Memory) (base : Nat) (pattern : List Int) (patternSize scanRange : Nat) :
    Nat → Nat → Nat → Option Nat
  | 0, _, _ => none
  | fuel + 1, scanOffset, matchIdx =>
    let patByte := pattern.getD matchIdx 0
    if readU8 mem (base + (matchIdx + scanOffset) % 2 ^ 32) ≠ (patByte % 256).toNat
        ∧ patByte ≠ -1 then
      let scanOffset1 := (scanOffset + 1) % 2 ^ 32
      if scanOffset1 ≥ scanRange then some 0
      else scanLoop mem base pattern patternSize scanRange fuel scanOffset1 0
    else
      let matchIdx1 := (matchIdx + 1) % 2 ^ 32
      if matchIdx1 ≥ patternSize then some ((base + scanOffset) % 2 ^ 64)
      else scanLoop mem base pattern patternSize scanRange fuel scanOffset matchIdx1

/-- The function `PatternScan::FindPatternRaw(module, pattern)`: the address of the
first match, or `0`. The fuel bounds the number of inner-loop iterations. -/
def FindPatternRaw (fuel : Nat) (mem : Memory) (module : Nat) (pattern : List Int) :
    Option Nat :=
  if pattern.isEmpty then some 0
  else
    let patternSize := pattern.length
    let scanRange := wrap64 ((sizeOfImage mem module : Int) - (patternSize : Int))
    if scanRange = 0 then some 0
    else if patternSize ≠ 0 then scanLoop mem module pattern patternSize scanRange fuel 0 0
    else some (module % 2 ^ 64)

/-- Specification: a token matches a byte when it is the wildcard or a literal equal
to the byte. -/
def tokenMatches (t : Int) (b : Nat) : Prop :=
  t = wildcard ∨ t = (b : Int)

instance (t : Int) (b : Nat) : Decidable (tokenMatches t b) := by
  unfold tokenMatches
  infer_instance

/-- The comparison made by the inner loop: the token is the wildcard or its low byte
equals the byte read. -/
def codeMatches (t : Int) (b : Nat) : Prop :=
  t = -1 ∨ b = (t % 256).toNat

instance (t : Int) (b : Nat) : Decidable (codeMatches t b) := by
  unfold codeMatches
  infer_instance

/-- Specification: every token of the pattern matches the image byte at `o + j`. -/
def MatchesAt (mem : Memory) (module : Nat) (pattern : List Int) (o : Nat) : Prop :=
  ∀ j, j < pattern.length → tokenMatches (pattern.getD j 0) (imageByte mem module (o + j))

instance (mem : Memory) (module : Nat) (pattern : List Int) (o : Nat) :
    Decidable (MatchesAt mem module pattern o) := by
  unfold MatchesAt
  infer_instance

/-- Every token of the pattern passes the inner-loop comparison at the image byte
`o + j`. -/
def CodeMatchesAt (mem : Memory) (module : Nat) (pattern : List Int) (o : Nat) : Prop :=
  ∀ j, j < pattern.length → codeMatches (pattern.getD j 0) (imageByte mem module (o + j))

instance (mem : Memory) (module : Nat) (pattern : List Int) (o : Nat) :
    Decidable (CodeMatchesAt mem module pattern o) := by
  unfold CodeMatchesAt
  infer_instance

/-- A token of the data model: the wildcard or a literal byte value. -/
def ValidToken (t : Int) : Prop :=
  t = wildcard ∨ (0 ≤ t ∧ t ≤ 255)

instance (t : Int) : Decidable (ValidToken t) := by
  unfold ValidToken
  infer_instance

/-- The outcome of a scan over the offsets `[0, R)`: the address of the least offset
that passes the comparison, or `0` when there is none. -/
def ScanOutcome (mem : Memory) (base : Nat) (pattern : List Int) (R : Nat) (r : Nat) : Prop :=
  (∃ o, o < R ∧ CodeMatchesAt mem base pattern o
      ∧ (∀ o1, o1 < o → ¬ CodeMatchesAt mem base pattern o1) ∧ r = (base + o) % 2 ^ 64)
    ∨ (r = 0 ∧ ∀ o, o < R → ¬ CodeMatchesAt mem base pattern o)

/-- Image of 100 bytes (header field `e_lfanew` zero, `SizeOfImage` 100 at `+80`)
loaded at `0x10000`, all bytes zero but the size field and the last byte `0xAB`. -/
def tailImage : Memory := fun a =>
  if a = 0x10000 + 80 then 100 else if a = 0x10000 + 99 then 0xAB else 0

/-- Image of 256 bytes (`e_lfanew` 128, `SizeOfImage` 256 at `+208`) loaded at
`0x10000`. -/
def smallImage : Memory := fun a =>
  if a = 0x10000 + 60 then 128 else if a = 0x10000 + 209 then 1 else 0


/-! ## Pattern parser (`PatternScan::ParsePattern`) -/

/-- The C library predicate `isspace` in the "C" locale. -/
def isSpaceC (c : Char) : Bool :=
  c = ' ' || c = '\t' || c = '\n' || c = '\x0b' || c = '\x0c' || c = '\r'

/-- The value of a hexadecimal digit, `none` for any other character. -/
def hexDigitVal (c : Char) : Option Nat :=
  if '0' ≤ c ∧ c ≤ '9' then some (c.toNat - 48)
  else if 'a' ≤ c ∧ c ≤ 'f' then some (c.toNat - 87)
  else if 'A' ≤ c ∧ c ≤ 'F' then some (c.toNat - 55)
  else none

/-- The digit loop of `strtoul`: the accumulated value and the number of digits read. -/
def readHexDigits : List Char → Nat → Nat → Nat × Nat
  | [], acc, n => (acc, n)
  | c :: cs, acc, n =>
    match hexDigitVal c with
    | some d => readHexDigits cs (acc * 16 + d) (n + 1)
    | none => (acc, n)

/-- The C library call `strtoul(p, &next, 16)` on the characters from `p` up to the
terminating NUL, after the C standard, with a 32-bit `unsigned long`: leading white
space, an optional sign, an optional `0x`/`0X` (only when a hexadecimal digit follows),
then the longest run of hexadecimal digits. The result is the value and the number of
characters by which `next` lies beyond `p`; without any digit that is `(0, 0)`. A value
that does not fit is `ULONG_MAX`, and a minus sign negates in the unsigned type. -/
def strtoul16 (s : List Char) : Nat × Nat :=
  let ws := (s.takeWhile isSpaceC).length
  let s1 := s.drop ws
  let sg := if s1.head? = some '-' ∨ s1.head? = some '+' then 1 else 0
  let s2 := s1.drop sg
  let pre :=
    if s2.head? = some '0' ∧ (s2[1]? = some 'x' ∨ s2[1]? = some 'X')
        ∧ (s2[2]?.bind hexDigitVal).isSome then 2 else 0
  let r := readHexDigits (s2.drop pre) 0 0
  if r.2 = 0 then (0, 0)
  else if r.1 ≥ 2 ^ 32 then (2 ^ 32 - 1, ws + sg + pre + r.2)
  else if s1.head? = some '-' then ((2 ^ 32 - r.1) % 2 ^ 32, ws + sg + pre + r.2)
  else (r.1, ws + sg + pre + r.2)

/-- The loop of `ParsePattern`, on the characters from `p` up to the terminating NUL
(the empty list is `p >= end_ptr`). A `?` yields the wildcard and sets `next` one or
two characters on, anything else goes through `strtoul`; then `p = next + 1`. -/
def parseFrom (p : List Char) : List Int :=
  match p with
  | [] => []
  | c :: rest =>
    if c = '?' then
      let next := if rest.head? = some '?' then 2 else 1
      (-1) :: parseFrom (rest.drop next)
    else
      let r := strtoul16 (c :: rest)
      toInt32 r.1 :: parseFrom (rest.drop r.2)
termination_by p.length
decreasing_by
  all_goals simp_wf
  all_goals omega

/-- The function `PatternScan::ParsePattern(pattern)`. -/
def ParsePattern (pattern : String) : List Int :=
  parseFrom pattern.toList

/-! ## Displacement resolution (`PatternScan::FindPattern`, `ScanAndResolve`) -/

/-- The struct `PatternEntry` of `version_config.h`. -/
structure PatternEntry where
  name : String
  pattern : String
  offset_a : Int
  offset_b : Int

/-- The function `PatternScan::FindPattern(module, patternStr, offset_a, offset_b)`,
in `uintptr_t` arithmetic. -/
def FindPattern (fuel : Nat) (mem : Memory) (module : Nat) (patternStr : String)
    (offset_a offset_b : Int) : Option Nat :=
  (FindPatternRaw fuel mem module (ParsePattern patternStr)).map fun (addr : Nat) =>
    if addr = 0 then 0
    else
      let addr1 :=
        if offset_a ≠ 0 then
          wrap64 ((addr : Int) + offset_a + readI32 mem (wrap64 ((addr : Int) + offset_a)) + 4)
        else addr
      if offset_b ≠ 0 then wrap64 ((addr1 : Int) + offset_b) else addr1

/-- The function `ScanAndResolve(module, entry)` of `version_config.cpp`, in `__int64`
arithmetic (wrapping); `none` for `entry` is the null pointer. The message box shown on
a failed scan is not part of the returned value. -/
def ScanAndResolve (fuel : Nat) (mem : Memory) (module : Nat) (entry : Option PatternEntry) :
    Option Int :=
  match entry with
  | none => some 0
  | some e =>
    (FindPatternRaw fuel mem module (ParsePattern e.pattern)).map fun (addr : Nat) =>
      if addr = 0 then 0
      else
        let result := toInt64 addr
        let result1 :=
          if e.offset_a ≠ 0 then
            toInt64 (wrap64 (result + e.offset_a
              + readI32 mem (wrap64 (result + e.offset_a)) + 4))
          else result
        if e.offset_b ≠ 0 then toInt64 (wrap64 (result1 + e.offset_b)) else result1

/-- Image of `0x2000` bytes (`e_lfanew` 128, `SizeOfImage` at `+208`) loaded at
`0x140000000`, zero except for the header fields, the bytes
`40 53 48 83 EC 20` at offset 4096 and the 4-byte value `0x10` at offset 4106. -/
def demoImage : Memory := fun a =>
  if a = 0x140000000 + 60 then 128
  else if a = 0x140000000 + 209 then 0x20
  else if a = 0x140000000 + 4096 then 0x40
  else if a = 0x140000000 + 4097 then 0x53
  else if a = 0x140000000 + 4098 then 0x48
  else if a = 0x140000000 + 4099 then 0x83
  else if a = 0x140000000 + 4100 then 0xEC
  else if a = 0x140000000 + 4101 then 0x20
  else if a = 0x140000000 + 4106 then 0x10
  else 0

/-! ## The pattern grammar and its canonical rendering -/

/-- A hexadecimal digit character. -/
def isHexDigit (c : Char) : Bool :=
  (hexDigitVal c).isSome

/-- A textual token of the pattern grammar: `?`, `??`, or one or two hexadecimal
digits. -/
def IsPatternToken (t : List Char) : Prop :=
  t = ['?'] ∨ t = ['?', '?']
    ∨ ((t.length = 1 ∨ t.length = 2) ∧ ∀ c ∈ t, isHexDigit c = true)

instance (t : List Char) : Decidable (IsPatternToken t) := by
  unfold IsPatternToken
  infer_instance

/-- The base-16 value of a string of hexadecimal digits. -/
def hexValue (t : List Char) : Nat :=
  t.foldl (fun acc c => acc * 16 + (hexDigitVal c).getD 0) 0

/-- The token a textual token denotes: the wildcard for `?` and `??`, the base-16
value for a hexadecimal token. -/
def tokenValue (t : List Char) : Int :=
  if t.head? = some '?' then wildcard else (hexValue t : Int)

/-- The text made of the given textual tokens separated by exactly one space. -/
def joinTokens : List (List Char) → List Char
  | [] => []
  | [t] => t
  | t :: u :: rest => t ++ ' ' :: joinTokens (u :: rest)

/-- The character of a hexadecimal digit value, in the chosen letter case. -/
def hexDigitChar (upper : Bool) (d : Nat) : Char :=
  if d < 10 then Char.ofNat (48 + d)
  else if upper then Char.ofNat (55 + d)
  else Char.ofNat (87 + d)

/-- Canonical rendering of one token: `?` for the wildcard, two hexadecimal digits for
a byte. -/
def renderToken (upper : Bool) (t : Int) : List Char :=
  if t = wildcard then ['?']
  else [hexDigitChar upper (t.toNat / 16), hexDigitChar upper (t.toNat % 16)]

/-- Canonical rendering of a token sequence: the rendered tokens joined by single
spaces. -/
def render (upper : Bool) (ts : List Int) : List Char :=
  joinTokens (ts.map (renderToken upper))

/-! ## Signature decoder (`Hooks::DecryptPattern`) -/

/-- The bytes of a `char*` buffer, by index (each reduced to a byte on read). -/
abbrev Buffer := Nat → Nat

/-- Reduction of an integer to an unsigned 32-bit value. -/
def wrap32 (x : Int) : Nat :=
  (x % 2 ^ 32).toNat

/-- An `__m128i` register as four 32-bit lanes, `l0` the lowest. -/
structure M128 where
  l0 : Nat
  l1 : Nat
  l2 : Nat
  l3 : Nat
deriving DecidableEq, Repr

/-- The 32-bit lane `k` of a register (`k` in `0..3`). -/
def M128.lane (v : M128) (k : Nat) : Nat :=
  if k = 0 then v.l0 else if k = 1 then v.l1 else if k = 2 then v.l2 else v.l3

/-- The 16-bit word `k` of a register (`k` in `0..7`). -/
def M128.word (v : M128) (k : Nat) : Nat :=
  if k % 2 = 0 then v.lane (k / 2) % 65536 else v.lane (k / 2) / 65536 % 65536

/-- The register made of eight 16-bit words, `w0` the lowest. -/
def M128.ofWords (w0 w1 w2 w3 w4 w5 w6 w7 : Nat) : M128 :=
  ⟨w0 + 65536 * w1, w2 + 65536 * w3, w4 + 65536 * w5, w6 + 65536 * w7⟩

/-- The intrinsic `_mm_setr_epi32`: four lanes, the first argument lowest. -/
def _mm_setr_epi32 (e0 e1 e2 e3 : Int) : M128 :=
  ⟨wrap32 e0, wrap32 e1, wrap32 e2, wrap32 e3⟩

/-- The intrinsic `_mm_set1_epi32`: the same 32-bit value in the four lanes. -/
def _mm_set1_epi32 (a : Int) : M128 :=
  ⟨wrap32 a, wrap32 a, wrap32 a, wrap32 a⟩

/-- The intrinsic `_mm_set1_epi16`: the same 16-bit value in the eight words. -/
def _mm_set1_epi16 (a : Int) : M128 :=
  let w := (a % 65536).toNat
  M128.ofWords w w w w w w w w

/-- The intrinsic `_mm_cvtsi32_si128`: the value in lane 0, zero above. -/
def _mm_cvtsi32_si128 (a : Int) : M128 :=
  ⟨wrap32 a, 0, 0, 0⟩

/-- The intrinsic `_mm_cvtsi128_si32`: lane 0 as a signed `int`. -/
def _mm_cvtsi128_si32 (v : M128) : Int :=
  toInt32 v.l0

/-- The intrinsic `_mm_shuffle_epi32`: lane `k` is the lane of `a` selected by bits
`2k+1..2k` of the immediate. -/
def _mm_shuffle_epi32 (a : M128) (imm : Nat) : M128 :=
  ⟨a.lane (imm % 4), a.lane (imm / 4 % 4), a.lane (imm / 16 % 4), a.lane (imm / 64 % 4)⟩

/-- The intrinsic `_mm_shuffle_ps`: two lanes selected from `a`, then two from `b`. -/
def _mm_shuffle_ps (a b : M128) (imm : Nat) : M128 :=
  ⟨a.lane (imm % 4), a.lane (imm / 4 % 4), b.lane (imm / 16 % 4), b.lane (imm / 64 % 4)⟩

/-- The intrinsic `_mm_add_epi32`: lane-wise sum modulo `2^32`. -/
def _mm_add_epi32 (a b : M128) : M128 :=
  ⟨(a.l0 + b.l0) % 2 ^ 32, (a.l1 + b.l1) % 2 ^ 32, (a.l2 + b.l2) % 2 ^ 32,
    (a.l3 + b.l3) % 2 ^ 32⟩

/-- The intrinsic `_mm_sub_epi32`: lane-wise difference modulo `2^32`. -/
def _mm_sub_epi32 (a b : M128) : M128 :=
  ⟨wrap32 ((a.l0 : Int) - b.l0), wrap32 ((a.l1 : Int) - b.l1), wrap32 ((a.l2 : Int) - b.l2),
    wrap32 ((a.l3 : Int) - b.l3)⟩

/-- The intrinsic `_mm_mullo_epi32`: the low 32 bits of the lane-wise products. -/
def _mm_mullo_epi32 (a b : M128) : M128 :=
  ⟨(a.l0 * b.l0) % 2 ^ 32, (a.l1 * b.l1) % 2 ^ 32, (a.l2 * b.l2) % 2 ^ 32,
    (a.l3 * b.l3) % 2 ^ 32⟩

/-- The intrinsic `_mm_unpacklo_epi32`: lanes 0 and 1 of `a` and `b`, interleaved. -/
def _mm_unpacklo_epi32 (a b : M128) : M128 :=
  ⟨a.l0, b.l0, a.l1, b.l1⟩

/-- The intrinsic `_mm_unpackhi_epi32`: lanes 2 and 3 of `a` and `b`, interleaved. -/
def _mm_unpackhi_epi32 (a b : M128) : M128 :=
  ⟨a.l2, b.l2, a.l3, b.l3⟩

/-- The intrinsic `_mm_mul_epi32`: the signed 64-bit products of lanes 0 and of lanes 2. -/
def _mm_mul_epi32 (a b : M128) : M128 :=
  let p0 := wrap64 (toInt32 a.l0 * toInt32 b.l0)
  let p1 := wrap64 (toInt32 a.l2 * toInt32 b.l2)
  ⟨p0 % 2 ^ 32, p0 / 2 ^ 32, p1 % 2 ^ 32, p1 / 2 ^ 32⟩

/-- The shift count of `_mm_sra_epi32` and `_mm_srl_epi32`: the low 64 bits of the
count register. -/
def shiftCount (count : M128) : Nat :=
  count.l0 % 2 ^ 32 + 2 ^ 32 * (count.l1 % 2 ^ 32)

/-- The intrinsic `_mm_sra_epi32`: arithmetic right shift of each lane (a count above
31 fills the lane with the sign bit). -/
def _mm_sra_epi32 (a count : M128) : M128 :=
  let c := min (shiftCount count) 31
  ⟨wrap32 (toInt32 a.l0 / 2 ^ c), wrap32 (toInt32 a.l1 / 2 ^ c), wrap32 (toInt32 a.l2 / 2 ^ c),
    wrap32 (toInt32 a.l3 / 2 ^ c)⟩

/-- The intrinsic `_mm_srl_epi32`: logical right shift of each lane (zero for a count
above 31). -/
def _mm_srl_epi32 (a count : M128) : M128 :=
  let c := shiftCount count
  if c > 31 then ⟨0, 0, 0, 0⟩
  else ⟨a.l0 % 2 ^ 32 / 2 ^ c, a.l1 % 2 ^ 32 / 2 ^ c, a.l2 % 2 ^ 32 / 2 ^ c,
    a.l3 % 2 ^ 32 / 2 ^ c⟩

/-- The intrinsic `_mm_shufflelo_epi16`: the four low words selected by the immediate,
the four high words kept. -/
def _mm_shufflelo_epi16 (a : M128) (imm : Nat) : M128 :=
  M128.ofWords (a.word (imm % 4)) (a.word (imm / 4 % 4)) (a.word (imm / 16 % 4))
    (a.word (imm / 64 % 4)) (a.word 4) (a.word 5) (a.word 6) (a.word 7)

/-- The intrinsic `_mm_shufflehi_epi16`: the four high words selected (among the high
words) by the immediate, the four low words kept. -/
def _mm_shufflehi_epi16 (a : M128) (imm : Nat) : M128 :=
  M128.ofWords (a.word 0) (a.word 1) (a.word 2) (a.word 3) (a.word (4 + imm % 4))
    (a.word (4 + imm / 4 % 4)) (a.word (4 + imm / 16 % 4)) (a.word (4 + imm / 64 % 4))

/-- The intrinsic `_mm_and_si128`: bitwise AND. -/
def _mm_and_si128 (a b : M128) : M128 :=
  ⟨a.l0 &&& b.l0, a.l1 &&& b.l1, a.l2 &&& b.l2, a.l3 &&& b.l3⟩

/-- The intrinsic `_mm_xor_si128`: bitwise XOR. -/
def _mm_xor_si128 (a b : M128) : M128 :=
  ⟨a.l0 ^^^ b.l0, a.l1 ^^^ b.l1, a.l2 ^^^ b.l2, a.l3 ^^^ b.l3⟩

/-- Unsigned saturation of a signed 16-bit word to a byte. -/
def satU8 (w : Nat) : Nat :=
  if w % 65536 ≥ 32768 then 0 else if w % 65536 > 255 then 255 else w % 65536

/-- The intrinsic `_mm_packus_epi16`: the eight words of `a`, then the eight words of
`b`, each saturated to a byte. -/
def _mm_packus_epi16 (a b : M128) : M128 :=
  ⟨satU8 (a.word 0) + 256 * satU8 (a.word 1) + 65536 * satU8 (a.word 2)
      + 16777216 * satU8 (a.word 3),
    satU8 (a.word 4) + 256 * satU8 (a.word 5) + 65536 * satU8 (a.word 6)
      + 16777216 * satU8 (a.word 7),
    satU8 (b.word 0) + 256 * satU8 (b.word 1) + 65536 * satU8 (b.word 2)
      + 16777216 * satU8 (b.word 3),
    satU8 (b.word 4) + 256 * satU8 (b.word 5) + 65536 * satU8 (b.word 6)
      + 16777216 * satU8 (b.word 7)⟩

/-- Byte-wise sum (modulo 256) of two 32-bit lanes. -/
def addBytes32 (x y : Nat) : Nat :=
  (x % 256 + y % 256) % 256 + 256 * ((x / 256 % 256 + y / 256 % 256) % 256)
    + 65536 * ((x / 65536 % 256 + y / 65536 % 256) % 256)
    + 16777216 * ((x / 16777216 % 256 + y / 16777216 % 256) % 256)

/-- The intrinsic `_mm_add_epi8`: byte-wise sum modulo 256. -/
def _mm_add_epi8 (a b : M128) : M128 :=
  ⟨addBytes32 a.l0 b.l0, addBytes32 a.l1 b.l1, addBytes32 a.l2 b.l2, addBytes32 a.l3 b.l3⟩

/-- The load `*(int*)(buffer + p)`: four bytes, little-endian, as a signed `int`. -/
def loadInt (buffer : Buffer) (p : Nat) : Int :=
  toInt32 (buffer p % 256 + 256 * (buffer (p + 1) % 256) + 65536 * (buffer (p + 2) % 256)
    + 16777216 * (buffer (p + 3) % 256))

/-- The store `*(int*)(buffer + p) = v`: four bytes, little-endian. -/
def storeInt (buffer : Buffer) (p : Nat) (v : Int) : Buffer :=
  Function.update
    (Function.update
      (Function.update
        (Function.update buffer p (wrap32 v % 256))
        (p + 1) (wrap32 v / 256 % 256))
      (p + 2) (wrap32 v / 65536 % 256))
    (p + 3) (wrap32 v / 16777216 % 256)

/-- The four indices of one group: `_mm_shuffle_epi32(_mm_cvtsi32_si128(i), 0)` plus
`indices_base = _mm_setr_epi32(0, 1, 2, 3)`. -/
def groupIndices (i : Int) : M128 :=
  _mm_add_epi32 (_mm_shuffle_epi32 (_mm_cvtsi32_si128 i) 0) (_mm_setr_epi32 0 1 2 3)

/-- The remainder computation of one group: `idx % 51` by multiply-high with the magic
`0xA0A0A0A1`, add, arithmetic shift by 5, sign correction, multiply by 51 and
subtract. -/
def groupRemainder (idx : M128) : M128 :=
  let divisor_magic := _mm_set1_epi32 0xA0A0A0A1
  let modulus := _mm_set1_epi32 51
  let shift5 := _mm_cvtsi32_si128 5
  let shift31 := _mm_cvtsi32_si128 31
  let hi := _mm_shuffle_ps
    (_mm_mul_epi32 (_mm_unpacklo_epi32 idx idx) divisor_magic)
    (_mm_mul_epi32 (_mm_unpackhi_epi32 idx idx) divisor_magic)
    221
  let q := _mm_sra_epi32 (_mm_add_epi32 hi idx) shift5
  let q1 := _mm_add_epi32 (_mm_srl_epi32 q shift31) q
  _mm_sub_epi32 idx (_mm_mullo_epi32 q1 modulus)

/-- The key of one group: the remainders packed to bytes, plus `addVal = 0x34343434`. -/
def groupKey (rem : M128) : M128 :=
  let mask := _mm_set1_epi16 0x00FF
  let addVal : Int := 0x34343434
  let packed := _mm_and_si128
    (_mm_shuffle_epi32 (_mm_shufflehi_epi16 (_mm_shufflelo_epi16 rem 0xD8) 0xD8) 0xD8)
    mask
  _mm_add_epi8 (_mm_packus_epi16 packed packed) (_mm_cvtsi32_si128 addVal)

/-- The vectorised loop of `DecryptPattern`: while `i + 8 <= length`, two groups of four
bytes are decoded, at `ptr - 12` and `ptr - 8` after `ptr += 8` (`ptr` is kept as an
offset from `buffer`, initially 4). The counter `i` is an `int`: the sums `i + 8` and
`i + 4` are reduced to 32 bits, two's complement, as the compiled code computes them
(the overflow itself is undefined in C++). With that reduction the loop need not stop,
hence the fuel: `none` when it runs out. Returns the buffer and the final `i`. -/
def simdLoop (length : Int) : Nat → Buffer → Int → Nat → Option (Buffer × Int)
  | 0, _, _, _ => none
  | fuel + 1, buffer, i, ptr =>
    if toInt32 (wrap32 (i + 8)) ≤ length then
      let ptr1 := ptr + 8
      let idx := groupIndices i
      let idx2 := groupIndices (toInt32 (wrap32 (i + 4)))
      let i1 := toInt32 (wrap32 (i + 8))
      let key := groupKey (groupRemainder idx)
      let buffer1 := storeInt buffer (ptr1 - 12)
        (_mm_cvtsi128_si32 (_mm_xor_si128 key (_mm_cvtsi32_si128 (loadInt buffer (ptr1 - 12)))))
      let key2 := groupKey (groupRemainder idx2)
      let buffer2 := storeInt buffer1 (ptr1 - 8)
        (_mm_cvtsi128_si32 (_mm_xor_si128 key2 (_mm_cvtsi32_si128 (loadInt buffer1 (ptr1 - 8)))))
      simdLoop length fuel buffer2 i1 ptr1
    else some (buffer, i)

/-- The scalar loop of `DecryptPattern`: `buffer[i] ^= (char)((i % 51) + 52)` while
`i < length`. -/
def scalarLoop (length : Int) (buffer : Buffer) (i : Nat) : Buffer :=
  if (i : Int) < length then
    scalarLoop length
      (Function.update buffer i ((buffer i % 256 ^^^ (i % 51 + 52) % 256) % 256)) (i + 1)
  else buffer
termination_by (length - (i : Int)).toNat
decreasing_by
  simp_wf
  omega

/-- The function `Hooks::DecryptPattern(buffer, length)`; the second argument is the
global `Globals::dword_18004F028` (the vectorised path runs when it is at least 2), the
first the fuel of the vectorised loop: `none` when that loop does not return within
it. The scalar loop starts at the `i` the vectorised loop left, which is never negative
(`simdLoop_counter_nonneg`). -/
def DecryptPattern (fuel : Nat) (dword_18004F028 : Int) (buffer : Buffer) (length : Int) :
    Option Buffer :=
  let st := if dword_18004F028 ≥ 2 then simdLoop length fuel buffer 0 4 else some (buffer, 0)
  match st with
  | none => none
  | some (buffer1, i) => some (scalarLoop length buffer1 i.toNat)

/-- The 64-byte blob `encrypted_pattern_64` of `hooks.cpp`, as a buffer. -/
def encrypted_pattern_64 : Buffer := fun i =>
  [0x00, 0x0D, 0x16, 0x0F, 0x7A, 0x19, 0x79, 0x03,
   0x1C, 0x09, 0x06, 0x1F, 0x78, 0x03, 0x62, 0x77,
   0x73, 0x65, 0x75, 0x77, 0x68, 0x7D, 0x72, 0x6B,
   0x7F, 0x74, 0x6E, 0x7E, 0x64, 0x71, 0x11, 0x6B,
   0x74, 0x65, 0x10, 0x77, 0x60, 0x6C, 0x7A, 0x64,
   0x7C, 0x62, 0x7E, 0x60, 0x40, 0x5E, 0x42, 0x5B,
   0x54, 0x45, 0x24, 0x71, 0x15, 0x09, 0x17, 0x07,
   0x19, 0x05, 0x1B, 0x03, 0x1D, 0x0E, 0x0C, 0x40].getD i 0

/-- Specification of the decoder: byte `j` is XOR-ed with the key `(j mod 51) + 52`
for `j < n` (the byte reduced modulo 256 on read), and kept for `j >= n`. -/
def decodeTo (X : Buffer) (n : Nat) : Buffer := fun j =>
  if j < n then X j % 256 ^^^ (j % 51 + 52) else X j

/-- The first `n` elements of the buffer are bytes. -/
def IsBytes (X : Buffer) (n : Nat) : Prop :=
  ∀ i, i < n → X i < 256

instance (X : Buffer) (n : Nat) : Decidable (IsBytes X n) := by
  unfold IsBytes
  infer_instance

/-! ## Version registry (`VersionManager::InitVersionConfigs`) -/

deriving instance DecidableEq for PatternEntry

/-- The struct `VersionConfig` of `version_config.h`. -/
structure VersionConfig where
  version_min : Int
  version_max : Int
  patterns : List PatternEntry
deriving DecidableEq

/-- The array `g_InputKeyBlob1` of `version_config.cpp` (87 bytes). -/
def g_InputKeyBlob1 : List Nat :=
  [0x00, 0x0D, 0x16, 0x0F, 0x7A, 0x19, 0x79, 0x0F,
   0x1C, 0x09, 0x06, 0x1F, 0x78, 0x78, 0x62, 0x76,
   0x7C, 0x65, 0x76, 0x7F, 0x68, 0x7D, 0x72, 0x6B,
   0x74, 0x74, 0x6E, 0x79, 0x68, 0x71, 0x63, 0x63,
   0x74, 0x61, 0x6E, 0x77, 0x60, 0x60, 0x7A, 0x6C,
   0x6C, 0x7D, 0x6F, 0x67, 0x40, 0x55, 0x5A, 0x43,
   0x5C, 0x5C, 0x46, 0x03, 0x0D, 0x16, 0x05, 0x08,
   0x19, 0x0E, 0x0A, 0x1C, 0x08, 0x08, 0x1F, 0x74,
   0x79, 0x62, 0x7B, 0x75, 0x65, 0x03, 0x04, 0x68,
   0x0F, 0x7A, 0x6B, 0x7C, 0x7D, 0x6E, 0x7F, 0x60,
   0x71, 0x62, 0x63, 0x74, 0x61, 0x62, 0x57]

/-- The array `g_InputKeyBlob2` of `version_config.cpp` (75 bytes). -/
def g_InputKeyBlob2 : List Nat :=
  [0x00, 0x0D, 0x16, 0x0F, 0x7A, 0x19, 0x79, 0x0F,
   0x1C, 0x09, 0x06, 0x1F, 0x78, 0x78, 0x62, 0x76,
   0x7C, 0x65, 0x77, 0x77, 0x68, 0x7D, 0x72, 0x6B,
   0x74, 0x74, 0x6E, 0x78, 0x60, 0x71, 0x63, 0x6B,
   0x74, 0x61, 0x6E, 0x77, 0x60, 0x60, 0x7A, 0x6C,
   0x64, 0x7D, 0x6C, 0x6F, 0x40, 0x55, 0x53, 0x43,
   0x51, 0x53, 0x46, 0x00, 0x0D, 0x16, 0x0F, 0x09,
   0x19, 0x7F, 0x78, 0x1C, 0x7B, 0x0E, 0x1F, 0x70,
   0x71, 0x62, 0x73, 0x74, 0x65, 0x76, 0x77, 0x68,
   0x7D, 0x7E, 0x4B]

/-- The array `g_InputKeyBlob3` of `version_config.cpp` (82 bytes). -/
def g_InputKeyBlob3 : List Nat :=
  [0x00, 0x0D, 0x16, 0x0F, 0x7A, 0x19, 0x79, 0x0F,
   0x1C, 0x09, 0x06, 0x1F, 0x78, 0x78, 0x62, 0x76,
   0x7C, 0x65, 0x77, 0x77, 0x68, 0x7D, 0x72, 0x6B,
   0x74, 0x74, 0x6E, 0x78, 0x68, 0x71, 0x63, 0x6B,
   0x74, 0x60, 0x63, 0x77, 0x6C, 0x68, 0x7A, 0x6E,
   0x6A, 0x7D, 0x6A, 0x6E, 0x40, 0x54, 0x55, 0x43,
   0x50, 0x5D, 0x46, 0x0C, 0x71, 0x16, 0x01, 0x00,
   0x19, 0x05, 0x1B, 0x08, 0x05, 0x1E, 0x07, 0x71,
   0x61, 0x07, 0x00, 0x64, 0x7A, 0x66, 0x78, 0x68,
   0x76, 0x6A, 0x74, 0x6C, 0x79, 0x7A, 0x6F, 0x60,
   0x17, 0x52]

/-- The array `g_InputKeyBlob4` of `version_config.cpp` (78 bytes). -/
def g_InputKeyBlob4 : List Nat :=
  [0x00, 0x0D, 0x16, 0x0F, 0x7A, 0x19, 0x79, 0x0F,
   0x1C, 0x09, 0x06, 0x1F, 0x78, 0x78, 0x62, 0x76,
   0x7C, 0x65, 0x77, 0x77, 0x68, 0x7D, 0x72, 0x6B,
   0x74, 0x74, 0x6E, 0x70, 0x70, 0x60, 0x6A, 0x73,
   0x61, 0x60, 0x76, 0x62, 0x6F, 0x79, 0x6E, 0x6A,
   0x7C, 0x68, 0x69, 0x7F, 0x54, 0x59, 0x42, 0x5B,
   0x20, 0x45, 0x50, 0x0C, 0x15, 0x09, 0x17, 0x0C,
   0x01, 0x1A, 0x03, 0x0D, 0x1D, 0x7B, 0x7C, 0x60,
   0x7E, 0x62, 0x7C, 0x64, 0x7A, 0x66, 0x78, 0x68,
   0x7D, 0x7E, 0x6B, 0x7C, 0x0B, 0x4E]

/-- The loop of `DecryptInputKeyBlob`: `result[i] ^= (char)((i % 51) + 52)` from index
`i` on. -/
def xorBlobFrom : List Nat → Nat → List Nat
  | [], _ => []
  | b :: rest, i => (b % 256 ^^^ (i % 51 + 52) % 256) % 256 :: xorBlobFrom rest (i + 1)

/-- The function `DecryptInputKeyBlob(blob, size)`: the first `size` bytes are decoded,
and the returned string holds the characters before the first NUL (`result.c_str()`). -/
def DecryptInputKeyBlob (blob : List Nat) (size : Nat) : String :=
  String.mk (((xorBlobFrom (blob.take size) 0).takeWhile (fun b => b ≠ 0)).map Char.ofNat)

/-- The constant `PAT_GOBJECTS_V1` of `version_config.cpp`. -/
def PAT_GOBJECTS_V1 : String :=
  "48 8D 05 ? ? ? ? 48 89 01 33 C9 84 D2 41 8B 40 08 "
    ++ "49 89 48 10 0F 45 05 ? ? ? ? FF C0 49 89 48 10 41 89 40 08"

/-- The constant `PAT_GOBJECTS_V2` of `version_config.cpp`. -/
def PAT_GOBJECTS_V2 : String :=
  "48 8D 05 ? ? ? ? 33 F6 48 89 01 48 89 71 10"

/-- The constant `PAT_GOBJECTS_V3` of `version_config.cpp`. -/
def PAT_GOBJECTS_V3 : String :=
  "49 63 C8 48 8D 14 40 48 8B 05 ? ? ? ? 48 8B 0C C8 48 8D 04 D1"

/-- The constant `PAT_PROCESSEVENT_V1` of `version_config.cpp`. -/
def PAT_PROCESSEVENT_V1 : String :=
  "40 55 56 57 41 54 41 55 41 56 41 57 48 81 EC ? ? ? ? "
    ++ "48 8D 6C 24 ? 48 89 9D ? ? ? ? 48 8B 05 ? ? ? ? 48 33 C5 "
    ++ "48 89 85 ? ? ? ? 48 63 41 0C"

/-- The constant `PAT_PROCESSEVENT_V2` of `version_config.cpp`. -/
def PAT_PROCESSEVENT_V2 : String :=
  "75 ? 4C 8B C6 48 8B D5 48 8B CB E8 ? ? ? ? 48 8B 5C 24"

/-- The constant `PAT_PROCESSEVENT_V3` of `version_config.cpp`. -/
def PAT_PROCESSEVENT_V3 : String :=
  "40 55 56 57 41 54 41 55 41 56 41 57 48 81 EC ? ? ? ? "
    ++ "48 8D 6C 24 ? 48 89 9D ? ? ? ? 48 8B 05 ? ? ? ? 48 33 C5 "
    ++ "48 89 85 ? ? ? ? 8B 41 0C 45 33 F6 3B 05 ? ? ? ? "
    ++ "4D 8B F8 48 8B F2 4C 8B E1 41 B8 ? ? ? ? 7D 2A"

/-- The constant `PAT_PROCESSEVENT_V4` of `version_config.cpp`. -/
def PAT_PROCESSEVENT_V4 : String :=
  "E8 BF 0B 2A 02 0F B7 1B C1 EB 06 4C 89 36 4C 89 76 08"

/-- The constant `PAT_FNAMETOSTRING` of `version_config.cpp`. -/
def PAT_FNAMETOSTRING : String :=
  "C3 48 8B 42 18 48 8D 4C 24 30 48 8B D3 48 89 44 24 30 E8 ? ? ? ?"

/-- The constant `PAT_GWORLD_V1` of `version_config.cpp`. -/
def PAT_GWORLD_V1 : String :=
  "48 89 05 ? ? ? ? 48 8B 8F"

/-- The constant `PAT_GWORLD_V2` of `version_config.cpp`. -/
def PAT_GWORLD_V2 : String :=
  "48 8B 1D ? ? ? ? 48 85 DB 74 ? 41"

/-- The constant `PAT_GWORLD_V3` of `version_config.cpp`. -/
def PAT_GWORLD_V3 : String :=
  "48 89 05 ? ? ? ? 48 8B B3"

/-- The constant `PAT_GWORLD_V4` of `version_config.cpp`. -/
def PAT_GWORLD_V4 : String :=
  "48 8B 1D ? ? ? ? 48 85 DB 74 3B 41"

/-- The constant `PAT_GWORLD_V5` of `version_config.cpp`. -/
def PAT_GWORLD_V5 : String :=
  "B0 29 D5 AB D6 02 00 00"

/-- The function `VersionManager::InitVersionConfigs`: the contents of
`g_VersionConfigs` after the call, the nine profiles in `push_back` order. -/
def InitVersionConfigs : List VersionConfig :=
  let inputkey1 := DecryptInputKeyBlob g_InputKeyBlob1 87
  let inputkey2 := DecryptInputKeyBlob g_InputKeyBlob2 75
  let inputkey3 := DecryptInputKeyBlob g_InputKeyBlob3 82
  let inputkey4 := DecryptInputKeyBlob g_InputKeyBlob4 78
  [ { version_min := 3700114, version_max := 3785438,
      patterns := [
      { name := "GObjects", pattern := PAT_GOBJECTS_V1, offset_a := 3, offset_b := 0 },
      { name := "ProcessEvent", pattern := PAT_PROCESSEVENT_V1, offset_a := 0, offset_b := 0 },
      { name := "FNameToString", pattern := PAT_FNAMETOSTRING, offset_a := 19, offset_b := 0 },
      { name := "GWorld", pattern := PAT_GWORLD_V1, offset_a := 3, offset_b := 0 },
      { name := "InputKey", pattern := inputkey1, offset_a := 0, offset_b := 0 }] },
    { version_min := 3790078, version_max := 3876086,
      patterns := [
      { name := "GObjects", pattern := PAT_GOBJECTS_V1, offset_a := 3, offset_b := 0 },
      { name := "ProcessEvent", pattern := PAT_PROCESSEVENT_V1, offset_a := 0, offset_b := 0 },
      { name := "FNameToString", pattern := PAT_FNAMETOSTRING, offset_a := 19, offset_b := 0 },
      { name := "GWorld", pattern := PAT_GWORLD_V1, offset_a := 3, offset_b := 0 },
      { name := "InputKey", pattern := inputkey2, offset_a := 0, offset_b := 0 }] },
    { version_min := 3889387, version_max := 4166199,
      patterns := [
      { name := "GObjects", pattern := PAT_GOBJECTS_V1, offset_a := 3, offset_b := 0 },
      { name := "ProcessEvent", pattern := PAT_PROCESSEVENT_V1, offset_a := 0, offset_b := 0 },
      { name := "FNameToString", pattern := PAT_FNAMETOSTRING, offset_a := 19, offset_b := 0 },
      { name := "GWorld", pattern := PAT_GWORLD_V1, offset_a := 3, offset_b := 0 },
      { name := "InputKey", pattern := inputkey2, offset_a := 0, offset_b := 0 }] },
    { version_min := 4204761, version_max := 4461277,
      patterns := [
      { name := "GObjects", pattern := PAT_GOBJECTS_V2, offset_a := 3, offset_b := 0 },
      { name := "ProcessEvent", pattern := PAT_PROCESSEVENT_V2, offset_a := 12, offset_b := 0 },
      { name := "FNameToString", pattern := PAT_FNAMETOSTRING, offset_a := 19, offset_b := 0 },
      { name := "GWorld", pattern := PAT_GWORLD_V2, offset_a := 3, offset_b := 0 },
      { name := "InputKey", pattern := inputkey2, offset_a := 0, offset_b := 0 }] },
    { version_min := 4464155, version_max := 5285981,
      patterns := [
      { name := "GObjects", pattern := PAT_GOBJECTS_V3, offset_a := 10, offset_b := 0 },
      { name := "ProcessEvent", pattern := PAT_PROCESSEVENT_V3, offset_a := 0, offset_b := 0 },
      { name := "FNameToString", pattern := PAT_FNAMETOSTRING, offset_a := 19, offset_b := 0 },
      { name := "GWorld", pattern := PAT_GWORLD_V3, offset_a := 3, offset_b := 0 },
      { name := "InputKey", pattern := inputkey2, offset_a := 0, offset_b := 0 }] },
    { version_min := 5362200, version_max := 11586896,
      patterns := [
      { name := "GObjects", pattern := PAT_GOBJECTS_V3, offset_a := 10, offset_b := 0 },
      { name := "ProcessEvent", pattern := PAT_PROCESSEVENT_V3, offset_a := 0, offset_b := 0 },
      { name := "FNameToString", pattern := PAT_FNAMETOSTRING, offset_a := 19, offset_b := 0 },
      { name := "GWorld", pattern := PAT_GWORLD_V4, offset_a := 3, offset_b := 0 },
      { name := "InputKey", pattern := inputkey2, offset_a := 0, offset_b := 0 }] },
    { version_min := 11794982, version_max := 13498980,
      patterns := [
      { name := "GObjects", pattern := PAT_GOBJECTS_V3, offset_a := 10, offset_b := 0 },
      { name := "ProcessEvent", pattern := PAT_PROCESSEVENT_V3, offset_a := 0, offset_b := 0 },
      { name := "FNameToString", pattern := PAT_FNAMETOSTRING, offset_a := 19, offset_b := 0 },
      { name := "GWorld", pattern := PAT_GWORLD_V4, offset_a := 3, offset_b := 0 },
      { name := "InputKey", pattern := inputkey3, offset_a := 0, offset_b := 0 }] },
    { version_min := 13649278, version_max := 15570449,
      patterns := [
      { name := "GObjects", pattern := PAT_GOBJECTS_V3, offset_a := 10, offset_b := 0 },
      { name := "ProcessEvent", pattern := PAT_PROCESSEVENT_V3, offset_a := 0, offset_b := 0 },
      { name := "FNameToString", pattern := PAT_FNAMETOSTRING, offset_a := 19, offset_b := 0 },
      { name := "GWorld", pattern := PAT_GWORLD_V4, offset_a := 3, offset_b := 0 },
      { name := "InputKey", pattern := inputkey4, offset_a := 0, offset_b := 0 }] },
    { version_min := 15685441, version_max := 15727376,
      patterns := [
      { name := "ProcessEvent", pattern := PAT_PROCESSEVENT_V4, offset_a := 0, offset_b := 0 },
      { name := "FNameToString", pattern := PAT_FNAMETOSTRING, offset_a := 19, offset_b := 0 },
      { name := "GWorld", pattern := PAT_GWORLD_V5, offset_a := 0, offset_b := 0 },
      { name := "InputKey", pattern := inputkey4, offset_a := 0, offset_b := 0 },
      { name := "GObjects", pattern := PAT_GOBJECTS_V3, offset_a := 10, offset_b := 0 }] } ]

/-! ## Resolution pipeline (`VersionManager::InitializePatterns`) -/

/-- The range test of the lookup loop: `v0 >= cfg.version_min && v0 <= cfg.version_max`. -/
def covers (cfg : VersionConfig) (v0 : Int) : Prop :=
  v0 ≥ cfg.version_min ∧ v0 ≤ cfg.version_max

instance (cfg : VersionConfig) (v0 : Int) : Decidable (covers cfg v0) := by
  unfold covers
  infer_instance

/-- The lookup loop of `InitializePatterns` over `g_VersionConfigs`: the first profile
whose range holds `v0` (the `break`), or `none` for `config == nullptr`. -/
def findConfig : List VersionConfig → Int → Option VersionConfig
  | [], _ => none
  | cfg :: rest, v0 => if covers cfg v0 then some cfg else findConfig rest v0

/-- The loop of `FindPatternByName` over `config.patterns`: the first entry whose name
equals `name`. -/
def findEntry : List PatternEntry → String → Option PatternEntry
  | [], _ => none
  | entry :: rest, name => if entry.name = name then some entry else findEntry rest name

/-- The function `FindPatternByName(config, name)`; `none` is `nullptr`, returned after
the message box `Failed to find PatternLink`. -/
def FindPatternByName (config : VersionConfig) (name : String) : Option PatternEntry :=
  findEntry config.patterns name

/-- The five role names that `InitializePatterns` looks up, in the order of its
`FindPatternByName` calls. -/
def roleNames : List String :=
  ["GObjects", "ProcessEvent", "FNameToString", "GWorld", "InputKey"]

/-- The message box of `FindPatternByName`, shown exactly when it returns `nullptr`. -/
def missingBox (entry : Option PatternEntry) : List String :=
  if entry.isNone then ["Failed to find PatternLink"] else []

/-- The message box of `ScanAndResolve(module, entry)`: shown exactly when `entry` is
not null and `FindPatternRaw` returns 0. -/
def ScanAndResolve_box (fuel : Nat) (mem : Memory) (module : Nat)
    (entry : Option PatternEntry) : Option (List String) :=
  match entry with
  | none => some []
  | some e =>
    (FindPatternRaw fuel mem module (ParsePattern e.pattern)).map fun (addr : Nat) =>
      if addr = 0 then
        ["Rift cannot start due to a pattern mismatch. Please try another version."]
      else []

/-- The struct created by `operator new(0x10)` in the gated step: the type byte at
offset 0 and the table address at offset 8. -/
structure PatternLink where
  type : Nat
  base : Int
deriving DecidableEq

/-- The globals of namespace `Globals` that `InitializePatterns` reads or writes. The
pointer `qword_18004FDF0` is kept with its pointee: `none` is the null pointer. -/
structure Globals where
  dword_18004FDE0 : Int
  qword_18004FDD8 : Int
  qword_18004FDE8 : Int
  qword_18004FDC8 : Int
  qword_18004FDB0 : Int
  qword_18004FDA8 : Int
  qword_18004FDF0 : Option PatternLink
deriving DecidableEq

/-- The outcome of a call of `InitializePatterns`: the globals, the texts of the
message boxes shown, in order, and the returned `int`. -/
structure InitResult where
  globals : Globals
  messages : List String
  ret : Int
deriving DecidableEq

/-- The `do ... while` loop of the gated step, one iteration per unit of fuel: the
4-byte values at `scan - 2`, `scan - 1`, `scan` and `scan + 1` are compared with `-1`;
the result is `found` at the `break`, or at the loop exit once
`(__int64)&scan[limit] < 2048` fails after `scan += 4`. -/
def forwardScan (mem : Memory) (limit : Int) : Nat → Nat → Option Nat
  | 0, _ => none
  | fuel + 1, scan =>
    if readI32 mem (wrap64 ((scan : Int) - 2)) = -1 then some (wrap64 ((scan : Int) - 2))
    else if readI32 mem (wrap64 ((scan : Int) - 1)) = -1 then some (wrap64 ((scan : Int) - 1))
    else if readI32 mem scan = -1 then some (scan % 2 ^ 64)
    else if readI32 mem (wrap64 ((scan : Int) + 1)) = -1 then some (wrap64 ((scan : Int) + 1))
    else
      let scan1 := wrap64 ((scan : Int) + 4)
      if toInt64 (wrap64 ((scan1 : Int) + limit)) < 2048 then forwardScan mem limit fuel scan1
      else some (wrap64 ((scan : Int) + 1))

/-- The body shared by the three gated branches, which differ in the backoff and in the
type byte: the forward scan from `v89 + 2` with `limit = -2 - v89`, then
`qword_18004FDD8 = found - backoff` and the new `PatternLink`. -/
def adjustGObjects (fuel : Nat) (mem : Memory) (g : Globals) (v89 : Int) (backoff : Int)
    (type : Nat) : Option Globals :=
  (forwardScan mem (toInt64 (wrap64 (-2 - v89))) fuel (wrap64 (v89 + 2))).map
    fun (found : Nat) =>
      let base := toInt64 (wrap64 ((found : Int) - backoff))
      { g with qword_18004FDD8 := base, qword_18004FDF0 := some ⟨type, base⟩ }

/-- The version-gated step of `InitializePatterns`: the `if / else if / else if` chain on
`engineVer`. -/
def gatedStep (fuel : Nat) (mem : Memory) (g : Globals) (v89 : Int) : Option Globals :=
  let engineVer := g.dword_18004FDE0
  if wrap32 (engineVer - 4204761) ≤ 0x2679 then adjustGObjects fuel mem g v89 24 1
  else if wrap32 (engineVer - 4225813) ≤ 0x397C8 then adjustGObjects fuel mem g v89 32 2
  else if engineVer < 4464155 then adjustGObjects fuel mem g v89 16 2
  else some g

/-- The resolution loop of `InitializePatterns`: the five `ScanAndResolve` calls and the
globals they are stored in, with the message boxes shown on the way. -/
def resolveRoles (fuel : Nat) (mem : Memory) (gameModule : Nat) (config : VersionConfig)
    (g : Globals) : Option (Globals × List String) :=
  let gobjects_entry := FindPatternByName config "GObjects"
  let pe_entry := FindPatternByName config "ProcessEvent"
  let fnts_entry := FindPatternByName config "FNameToString"
  let gw_entry := FindPatternByName config "GWorld"
  let ik_entry := FindPatternByName config "InputKey"
  let m0 := missingBox gobjects_entry ++ missingBox pe_entry ++ missingBox fnts_entry
    ++ missingBox gw_entry ++ missingBox ik_entry
  (ScanAndResolve fuel mem gameModule gobjects_entry).bind fun gobjects =>
  (ScanAndResolve_box fuel mem gameModule gobjects_entry).bind fun m1 =>
  (ScanAndResolve fuel mem gameModule pe_entry).bind fun processEvent =>
  (ScanAndResolve_box fuel mem gameModule pe_entry).bind fun m2 =>
  (ScanAndResolve fuel mem gameModule fnts_entry).bind fun fnameToString =>
  (ScanAndResolve_box fuel mem gameModule fnts_entry).bind fun m3 =>
  (ScanAndResolve fuel mem gameModule gw_entry).bind fun gworld =>
  (ScanAndResolve_box fuel mem gameModule gw_entry).bind fun m4 =>
  (ScanAndResolve fuel mem gameModule ik_entry).bind fun inputkey =>
  (ScanAndResolve_box fuel mem gameModule ik_entry).bind fun m5 =>
    some ({ g with qword_18004FDD8 := gobjects, qword_18004FDE8 := processEvent,
                   qword_18004FDC8 := fnameToString, qword_18004FDB0 := gworld,
                   qword_18004FDA8 := inputkey },
      m0 ++ m1 ++ m2 ++ m3 ++ m4 ++ m5)

/-- The validation pass of `InitializePatterns`: one message box per null address. -/
def validationBoxes (g : Globals) : List String :=
  (if g.qword_18004FDD8 = 0 then ["An error has occured."] else [])
    ++ (if g.qword_18004FDE8 = 0 then ["An error has occured."] else [])
    ++ (if g.qword_18004FDC8 = 0 then ["An error has occured."] else [])
    ++ (if g.qword_18004FDB0 = 0 then ["An error has occured."] else [])
    ++ (if g.qword_18004FDA8 = 0 then ["An error has occured."] else [])

/-- The function `VersionManager::InitializePatterns`. The arguments besides the globals
are the fuel of the scans, the process memory, the handle returned by
`GetModuleHandleW(nullptr)`, the contents of `g_VersionConfigs` and the value returned
by `MessageBoxA`. -/
def InitializePatterns (fuel : Nat) (mem : Memory) (gameModule : Nat)
    (g_VersionConfigs : List VersionConfig) (boxResult : Int) (g : Globals) :
    Option InitResult :=
  let v0 := g.dword_18004FDE0
  let m0 := if v0 = 0 then ["EngineVersion is NULL"] else []
  match findConfig g_VersionConfigs v0 with
  | none => some ⟨g, m0 ++ ["Unsupported version!"], boxResult⟩
  | some config =>
    (resolveRoles fuel mem gameModule config g).bind fun r =>
      let v89 := r.1.qword_18004FDD8
      (gatedStep fuel mem r.1 v89).map fun g2 =>
        ⟨g2,
          m0 ++ r.2 ++ validationBoxes r.1
            ++ (if g2.qword_18004FDF0.isNone then ["An error has occured."] else []),
          toInt32 (wrap64 g2.qword_18004FDD8)⟩

/-- The ninth profile of the registry (`Config 9`), the one that lists its signatures
in an order of its own. -/
def profile9 : VersionConfig :=
  InitVersionConfigs.getD 8 ⟨0, 0, []⟩

/-- Profile 9 with its signature list rotated into the order of profiles 1-8
(`GObjects` first). -/
def profile9_reordered : VersionConfig :=
  { profile9 with patterns := profile9.patterns.drop 4 ++ profile9.patterns.take 4 }

/-- The 4-byte value, as a signed `int`, at byte offset `o` from the address `a`: what
the forward scan of the gated step compares with `-1`. -/
def gateValue (mem : Memory) (a : Int) (o : Nat) : Int :=
  readI32 mem (wrap64 (a + (o : Int)))

/-- The value `ScanAndResolve` computes from a match address `addr` for the entry `e`
(0 for no match): the body of the function after the call of `FindPatternRaw`. -/
def resolveFrom (mem : Memory) (e : PatternEntry) (addr : Nat) : Int :=
  if addr = 0 then 0
  else
    let result := toInt64 addr
    let result1 :=
      if e.offset_a ≠ 0 then
        toInt64 (wrap64 (result + e.offset_a
          + readI32 mem (wrap64 (result + e.offset_a)) + 4))
      else result
    if e.offset_b ≠ 0 then toInt64 (wrap64 (result1 + e.offset_b)) else result1

/-- The textual tokens of a pattern text: the runs between single spaces (`cur` holds
the current run, reversed). -/
def splitTokensAux : List Char → List Char → List (List Char)
  | [], cur => [cur.reverse]
  | c :: cs, cur =>
    if c = ' ' then cur.reverse :: splitTokensAux cs [] else splitTokensAux cs (c :: cur)

/-- The textual tokens of a pattern text; the empty text has none. -/
def splitTokens (s : List Char) : List (List Char) :=
  if s = [] then [] else splitTokensAux s []

/-- Image of 256 bytes (`e_lfanew` 128, `SizeOfImage` 256 at `+208`) loaded at
`0x10000`, zero except for the header fields and, at offset 96, the bytes
`48 89 05 10 00 00 00 48 8B B3`: a match of `PAT_GWORLD_V3` whose displacement
operand is `0x10`. -/
def resolveImage : Memory := fun a =>
  if a = 0x10000 + 60 then 128
  else if a = 0x10000 + 209 then 1
  else if a = 0x10000 + 96 then 0x48
  else if a = 0x10000 + 97 then 0x89
  else if a = 0x10000 + 98 then 0x05
  else if a = 0x10000 + 99 then 0x10
  else if a = 0x10000 + 103 then 0x48
  else if a = 0x10000 + 104 then 0x8B
  else if a = 0x10000 + 105 then 0xB3
  else 0

/-- The first profile of the registry (`Config 1`, versions 3700114 to 3785438). -/
def profile1 : VersionConfig :=
  InitVersionConfigs.getD 0 ⟨0, 0, []⟩

/-- The fifth profile of the registry (`Config 5`, versions 4464155 to 5285981). -/
def profile5 : VersionConfig :=
  InitVersionConfigs.getD 4 ⟨0, 0, []⟩

/-- The bytes of `fullImage` from offset 256 on: a match of each of the five signatures
of profile 5 (`PAT_GOBJECTS_V3`, `PAT_PROCESSEVENT_V3`, `PAT_FNAMETOSTRING`,
`PAT_GWORLD_V3` and the decoded `g_InputKeyBlob2`), one after the other, with every
wildcard position holding `00`. -/
def fullImageData : List Nat :=
  [0x49, 0x63, 0xC8, 0x48, 0x8D, 0x14, 0x40, 0x48, 0x8B, 0x05, 0x00, 0x00, 0x00, 0x00, 0x48,
   0x8B, 0x0C, 0xC8, 0x48, 0x8D, 0x04, 0xD1,
   0x40, 0x55, 0x56, 0x57, 0x41, 0x54, 0x41, 0x55, 0x41, 0x56, 0x41, 0x57, 0x48, 0x81, 0xEC,
   0x00, 0x00, 0x00, 0x00, 0x48, 0x8D, 0x6C, 0x24, 0x00, 0x48, 0x89, 0x9D, 0x00, 0x00, 0x00,
   0x00, 0x48, 0x8B, 0x05, 0x00, 0x00, 0x00, 0x00, 0x48, 0x33, 0xC5, 0x48, 0x89, 0x85, 0x00,
   0x00, 0x00, 0x00, 0x8B, 0x41, 0x0C, 0x45, 0x33, 0xF6, 0x3B, 0x05, 0x00, 0x00, 0x00, 0x00,
   0x4D, 0x8B, 0xF8, 0x48, 0x8B, 0xF2, 0x4C, 0x8B, 0xE1, 0x41, 0xB8, 0x00, 0x00, 0x00, 0x00,
   0x7D, 0x2A,
   0xC3, 0x48, 0x8B, 0x42, 0x18, 0x48, 0x8D, 0x4C, 0x24, 0x30, 0x48, 0x8B, 0xD3, 0x48, 0x89,
   0x44, 0x24, 0x30, 0xE8, 0x00, 0x00, 0x00, 0x00,
   0x48, 0x89, 0x05, 0x00, 0x00, 0x00, 0x00, 0x48, 0x8B, 0xB3,
   0x48, 0x8B, 0xC4, 0x48, 0x89, 0x58, 0x10, 0x48, 0x89, 0x70, 0x18, 0x48, 0x89, 0x78, 0x20,
   0x41, 0x56, 0x48, 0x81, 0xEC, 0xF0, 0x00, 0x00, 0x00, 0x44]

/-- Image of 1024 bytes (`e_lfanew` 128, `SizeOfImage` 1024 at `+208`) loaded at
`0x10000`, zero except for the header fields and the bytes `fullImageData` at
offset 256. -/
def fullImage : Memory := fun a =>
  if a = 0x10000 + 60 then 128
  else if a = 0x10000 + 209 then 4
  else if 0x10000 + 256 ≤ a then fullImageData.getD (a - (0x10000 + 256)) 0
  else 0

/-! ## Object locator and property resolver (`src/src/ue4_sdk.cpp`) -/

/-- Read of a little-endian 8-byte value at an address. -/
def readU64 (mem : Memory) (addr : Nat) : Nat :=
  readU32 mem addr + 4294967296 * readU32 mem (addr + 4)

/-- The read `*reinterpret_cast<__int64*>(p)` for an `__int64` value `p`. -/
def readI64 (mem : Memory) (p : Int) : Int :=
  toInt64 (readU64 mem (wrap64 p))

/-- The read `*reinterpret_cast<int*>(p)` for an `__int64` value `p`. -/
def readInt (mem : Memory) (p : Int) : Int :=
  readI32 mem (wrap64 p)

/-- The constant `FNAME_OFFSET`: the `FName` of a `UObject`. -/
def FNAME_OFFSET : Int := 24

/-- The constant `OUTER_OFFSET`: the `Outer` pointer of a `UObject`. -/
def OUTER_OFFSET : Int := 32

/-- The constant `TYPE1_COUNT_OFFSET`: the element count of a type 1 table. -/
def TYPE1_COUNT_OFFSET : Int := 12

/-- The constant `TYPE1_ELEMENT_STRIDE`: bytes per element slot. -/
def TYPE1_ELEMENT_STRIDE : Int := 24

/-- The constant `TYPE2_COUNT_OFFSET`: the element count of a type 2 table. -/
def TYPE2_COUNT_OFFSET : Int := 20

/-- The constant `TYPE2_CHUNK_SIZE`: objects per chunk. -/
def TYPE2_CHUNK_SIZE : Int := 0xFFFF

/-- The constant `PROP_OFFSET_FIELD`: `Offset_Internal` of a `UProperty`. -/
def PROP_OFFSET_FIELD : Int := 68

/-- The constant `CLASS_PROPLINK_OFFSET`: `UStruct::PropertyLink`. -/
def CLASS_PROPLINK_OFFSET : Int := 80

/-- The constant `PROP_NEXT_OFFSET`: the next pointer of a property chain node. -/
def PROP_NEXT_OFFSET : Int := 32

/-- The constant `PROP_NAME_OFFSET_NEW`: the `FName` of a property chain node. -/
def PROP_NAME_OFFSET_NEW : Int := 40

/-- The constant `PROP_OFFSET_FIELD_NEW`: the offset field of a property chain node. -/
def PROP_OFFSET_FIELD_NEW : Int := 76

/-- The constant `VERSION_PROPCHAIN`: first version that walks the property chain. -/
def VERSION_PROPCHAIN : Int := 11794982

/-- The foreign code the object locator calls. `fnameToStr` stands for the function at
the address `qword_18004FDC8`: from the `FName` value it is handed, the wide characters
of the `FString` it fills in, up to the terminator (`none` when the data pointer stays
null). `narrow` is `std::ctype<wchar_t>::narrow` of the global locale on one wide
character (`none` when it has no narrow form). `IsBadReadPtr` is the Win32 probe of
`ucb` bytes at `lp`. -/
structure Foreign where
  fnameToStr : Int → Option (List Nat)
  narrow : Nat → Option Char
  IsBadReadPtr : Int → Nat → Bool

/-- The function `StringUtils::WideToNarrow(wstr, len)`: the first `len` wide characters
narrowed one by one, `'?'` standing for those without a narrow form. -/
def WideToNarrow (env : Foreign) (wstr : List Nat) (len : Nat) : String :=
  String.mk ((wstr.take len).map fun w => (env.narrow w).getD '?')

/-- The function `GetNameAtOffset(objectPtr, offset)`: the display name behind the
`FName` stored at `objectPtr + offset`; `wcslen(wdata)` is the length of the list
`fnameToStr` returns. -/
def GetNameAtOffset (mem : Memory) (g : Globals) (env : Foreign) (objectPtr : Int)
    (offset : Int) : String :=
  if objectPtr = 0 ∨ g.qword_18004FDC8 = 0 then ""
  else
    let fname := readI64 mem (objectPtr + offset)
    match env.fnameToStr fname with
    | none => ""
    | some wdata => WideToNarrow env wdata wdata.length

/-- The `for` loop of `FindObjectType1`: the first argument counts the iterations left
(`count - i`), the second is `i`. -/
def findObjectLoop1 (mem : Memory) (g : Globals) (env : Foreign) (arrayPtr : Int)
    (name : String) : Nat → Int → Int
  | 0, _ => 0
  | n + 1, i =>
    let obj := readI64 mem (arrayPtr + i * TYPE1_ELEMENT_STRIDE)
    if obj = 0 then findObjectLoop1 mem g env arrayPtr name n (i + 1)
    else if GetNameAtOffset mem g env obj FNAME_OFFSET = name then obj
    else findObjectLoop1 mem g env arrayPtr name n (i + 1)

/-- The function `FindObjectType1(gobjectsBase, name)`; 0 is not-found. -/
def FindObjectType1 (mem : Memory) (g : Globals) (env : Foreign) (gobjectsBase : Int)
    (name : String) : Int :=
  let count := readInt mem (gobjectsBase + TYPE1_COUNT_OFFSET)
  if count ≤ 0 then 0
  else
    let arrayPtr := readI64 mem gobjectsBase
    findObjectLoop1 mem g env arrayPtr name count.toNat 0

/-- The chunk pointer `chunks[k]`. -/
def chunkAt (mem : Memory) (chunks : Int) (k : Int) : Int :=
  readI64 mem (chunks + 8 * k)

/-- The loop `do { ++firstValid; } while (!chunks[firstValid]);` of
`ChunkedArrayAccess`, one iteration per unit of fuel (`int` arithmetic wraps). -/
def firstValidLoop (mem : Memory) (chunks : Int) : Nat → Int → Option Int
  | 0, _ => none
  | fuel + 1, firstValid =>
    let firstValid1 := toInt32 (wrap32 (firstValid + 1))
    if chunkAt mem chunks firstValid1 = 0 then firstValidLoop mem chunks fuel firstValid1
    else some firstValid1

/-- The loop `while (chunks[lastValid]) ++lastValid;` of `ChunkedArrayAccess`, one test
of the condition per unit of fuel. -/
def lastValidLoop (mem : Memory) (chunks : Int) : Nat → Int → Option Int
  | 0, _ => none
  | fuel + 1, lastValid =>
    if chunkAt mem chunks lastValid ≠ 0 then
      lastValidLoop mem chunks fuel (toInt32 (wrap32 (lastValid + 1)))
    else some lastValid

/-- The function `ChunkedArrayAccess(arrayBase, index)`; 0 is not-found, `none` means
that one of the two loops over the chunk pointers ran out of fuel. The `int` division
truncates; `TYPE2_CHUNK_SIZE * chunkIdx` cannot overflow for an `int` index. The `int`
sum `firstValid + chunkIdx` is kept exact: for an `int` index `chunkIdx` is at most
32768, so the sum does not overflow while `firstValid + 32768 < 2^31`. -/
def ChunkedArrayAccess (fuel : Nat) (mem : Memory) (arrayBase : Int) (index : Int) :
    Option Int :=
  let chunks := readI64 mem arrayBase
  (if chunkAt mem chunks 0 = 0 then firstValidLoop mem chunks fuel 0 else some 0).bind
    fun firstValid =>
  (lastValidLoop mem chunks fuel firstValid).map fun lastValid =>
    let chunkIdx := Int.tdiv index TYPE2_CHUNK_SIZE
    let chunkBase := TYPE2_CHUNK_SIZE * chunkIdx
    let chunkIdx1 := if chunkBase ≠ 0 ∧ chunkBase = index then chunkIdx - 1 else chunkIdx
    if firstValid + chunkIdx1 ≥ lastValid then 0
    else
      let chunkPtr := chunkAt mem chunks (firstValid + chunkIdx1)
      let withinChunk := index - TYPE2_CHUNK_SIZE * chunkIdx1
      readI64 mem (chunkPtr + withinChunk * TYPE1_ELEMENT_STRIDE)

/-- The `for` loop of `FindObjectType2`: the first counter is `count - i`, the second
is `i`. -/
def findObjectLoop2 (fuel : Nat) (mem : Memory) (g : Globals) (env : Foreign)
    (gobjectsBase : Int) (name : String) : Nat → Int → Option Int
  | 0, _ => some 0
  | n + 1, i =>
    (ChunkedArrayAccess fuel mem gobjectsBase i).bind fun obj =>
      if obj = 0 then findObjectLoop2 fuel mem g env gobjectsBase name n (i + 1)
      else if GetNameAtOffset mem g env obj FNAME_OFFSET = name then some obj
      else findObjectLoop2 fuel mem g env gobjectsBase name n (i + 1)

/-- The function `FindObjectType2(gobjectsBase, name)`; 0 is not-found. -/
def FindObjectType2 (fuel : Nat) (mem : Memory) (g : Globals) (env : Foreign)
    (gobjectsBase : Int) (name : String) : Option Int :=
  let count := readInt mem (gobjectsBase + TYPE2_COUNT_OFFSET)
  if count ≤ 0 then some 0
  else findObjectLoop2 fuel mem g env gobjectsBase name count.toNat 0

/-- The body of the legacy scan after `obj` has been fetched and found non-null, shared
by `FindPropertyType1` and the older path of `FindPropertyType2`: `some` of the
returned `Offset_Internal`, or `none` for `continue`. -/
def propertyOf (mem : Memory) (g : Globals) (env : Foreign) (className propName : String)
    (obj : Int) : Option Int :=
  if GetNameAtOffset mem g env obj FNAME_OFFSET ≠ propName then none
  else
    let outerObj := readI64 mem (obj + OUTER_OFFSET)
    if outerObj = 0 then none
    else if GetNameAtOffset mem g env outerObj FNAME_OFFSET = className then
      some (readInt mem (obj + PROP_OFFSET_FIELD))
    else none

/-- The `for` loop of `FindPropertyType1`. -/
def findPropertyLoop1 (mem : Memory) (g : Globals) (env : Foreign) (arrayPtr : Int)
    (className propName : String) : Nat → Int → Int
  | 0, _ => 0
  | n + 1, i =>
    let obj := readI64 mem (arrayPtr + i * TYPE1_ELEMENT_STRIDE)
    if obj = 0 then findPropertyLoop1 mem g env arrayPtr className propName n (i + 1)
    else
      match propertyOf mem g env className propName obj with
      | some offset => offset
      | none => findPropertyLoop1 mem g env arrayPtr className propName n (i + 1)

/-- The function `FindPropertyType1(gobjectsBase, className, propName)`. -/
def FindPropertyType1 (mem : Memory) (g : Globals) (env : Foreign) (gobjectsBase : Int)
    (className propName : String) : Int :=
  let count := readInt mem (gobjectsBase + TYPE1_COUNT_OFFSET)
  if count ≤ 0 then 0
  else
    let arrayPtr := readI64 mem gobjectsBase
    findPropertyLoop1 mem g env arrayPtr className propName count.toNat 0

/-- The `for` loop of the older path of `FindPropertyType2`. -/
def findPropertyLoop2 (fuel : Nat) (mem : Memory) (g : Globals) (env : Foreign)
    (gobjectsBase : Int) (className propName : String) : Nat → Int → Option Int
  | 0, _ => some 0
  | n + 1, i =>
    (ChunkedArrayAccess fuel mem gobjectsBase i).bind fun obj =>
      if obj = 0 then
        findPropertyLoop2 fuel mem g env gobjectsBase className propName n (i + 1)
      else
        match propertyOf mem g env className propName obj with
        | some offset => some offset
        | none => findPropertyLoop2 fuel mem g env gobjectsBase className propName n (i + 1)

/-- The `while (propNode)` loop of the newer path of `FindPropertyType2`, one test of
the loop condition per unit of fuel. The result is the returned `int` together with the
nodes the loop dereferenced, in order: a node is dereferenced (its fields at `+8`,
`+32`, `+76`, `+40` are read) only after its probe has passed. -/
def walkChain (mem : Memory) (g : Globals) (env : Foreign) (propName : String) :
    Nat → Int → Option (Int × List Int)
  | 0, _ => none
  | fuel + 1, propNode =>
    if propNode = 0 then some (0, [])
    else if env.IsBadReadPtr propNode 8 = true then some (0, [])
    else
      let propData := readI64 mem (propNode + 8)
      let next := (walkChain mem g env propName fuel
        (readI64 mem (propNode + PROP_NEXT_OFFSET))).map fun r => (r.1, propNode :: r.2)
      if env.IsBadReadPtr propData 8 = true ∨ propData = 0 then next
      else
        let offset := readInt mem (propNode + PROP_OFFSET_FIELD_NEW)
        if offset = 0 then next
        else if GetNameAtOffset mem g env propNode PROP_NAME_OFFSET_NEW = propName then
          some (offset, [propNode])
        else next

/-- The function `FindPropertyType2(gobjectsBase, className, propName)`, with the
globals it reads. -/
def FindPropertyType2 (fuel : Nat) (mem : Memory) (g : Globals) (env : Foreign)
    (gobjectsBase : Int) (className propName : String) : Option Int :=
  let version := g.dword_18004FDE0
  if version < VERSION_PROPCHAIN then
    let count := readInt mem (gobjectsBase + TYPE2_COUNT_OFFSET)
    if count ≤ 0 then some 0
    else findPropertyLoop2 fuel mem g env gobjectsBase className propName count.toNat 0
  else
    (FindObjectType2 fuel mem g env gobjectsBase className).bind fun classObj =>
      if classObj = 0 then some 0
      else
        (walkChain mem g env propName fuel
          (readI64 mem (classObj + CLASS_PROPLINK_OFFSET))).map fun r => r.1

/-- The text of the message box of `StaticFindObject` and `FindPropertyOffset`. -/
def valueIsNull : String :=
  "Value is NULL, please report the game version to Rift developers."

/-- The function `UE4::StaticFindObject(name)`: the returned handle and the message
boxes shown. -/
def StaticFindObject (fuel : Nat) (mem : Memory) (g : Globals) (env : Foreign)
    (name : String) : Option (Int × List String) :=
  match g.qword_18004FDF0 with
  | none => some (0, [])
  | some patternLink =>
    let type := patternLink.type
    let gobjectsBase := patternLink.base
    (if type = 1 then some (FindObjectType1 mem g env gobjectsBase name)
      else if type = 2 then FindObjectType2 fuel mem g env gobjectsBase name
      else some 0).map fun result =>
        (result, if result = 0 then [valueIsNull] else [])

/-- The function `UE4::FindPropertyOffset(className, propertyName)`: the returned
offset and the message boxes shown. -/
def FindPropertyOffset (fuel : Nat) (mem : Memory) (g : Globals) (env : Foreign)
    (className propertyName : String) : Option (Int × List String) :=
  match g.qword_18004FDF0 with
  | none => some (0, [])
  | some patternLink =>
    let type := patternLink.type
    let gobjectsBase := patternLink.base
    (if type = 1 then some (FindPropertyType1 mem g env gobjectsBase className propertyName)
      else if type = 2 then
        FindPropertyType2 fuel mem g env gobjectsBase className propertyName
      else some 0).map fun result =>
        (result, if result = 0 then [valueIsNull] else [])

/-- Memory given by a list of 8-byte little-endian words `(address, value)`: a byte
inside one of the words is the byte of its value, every other byte is zero. -/
def wordsMem (ws : List (Nat × Nat)) : Memory := fun a =>
  match ws.find? (fun w => decide (w.1 ≤ a ∧ a < w.1 + 8)) with
  | some w => w.2 / 256 ^ (a - w.1) % 256
  | none => 0

/-- A process memory with one object table in both layouts. The four entries are the
property `P1` at `0x5000` (named by `FName` 10, owner `K1`, `Offset_Internal` `0x30`),
a null entry, the property `P2` at `0x5100` (`FName` 10, owner `K2`, `Offset_Internal`
`0x44`) and the class `K2` at `0x5300` (`FName` 21); `K1` at `0x5200` has `FName` 20.
The flat table is at `0x1000` (array at `0x3000`, count 4), the chunked table at
`0x2000` (chunk pointers `0, 0x6000, 0` at `0x4000`, count 4). The property chain of
`K2` starts at `0x7000`: a node without data, a node with offset 0, a node named by
`FName` 11 with offset 8, a node named by `FName` 10 with offset `0x58`, and a last
node named by `FName` 10 with offset `0x99`. -/
def objectMem : Memory :=
  wordsMem [
    (0x1000, 0x3000), (0x100C, 4),
    (0x3000, 0x5000), (0x3030, 0x5100), (0x3048, 0x5300),
    (0x2000, 0x4000), (0x2014, 4),
    (0x4008, 0x6000),
    (0x6000, 0x5000), (0x6030, 0x5100), (0x6048, 0x5300),
    (0x5018, 10), (0x5020, 0x5200), (0x5044, 0x30),
    (0x5118, 10), (0x5120, 0x5300), (0x5144, 0x44),
    (0x5218, 20),
    (0x5318, 21), (0x5350, 0x7000),
    (0x7020, 0x7100),
    (0x7108, 0x9000), (0x7120, 0x7200),
    (0x7208, 0x9000), (0x7220, 0x7300), (0x7228, 11), (0x724C, 8),
    (0x7308, 0x9000), (0x7320, 0x7400), (0x7328, 10), (0x734C, 0x58),
    (0x7408, 0x9000), (0x7428, 10), (0x744C, 0x99)]

/-- A name resolver for `objectMem`: `FName` 10 is `Health`, 11 is `Other`, 20 is
`Pawn`, 21 is `World`; ASCII narrows to itself; the probe rejects the null pointer and
the addresses in `bad`. -/
def objectEnv (bad : List Int) : Foreign where
  fnameToStr := fun fname =>
    if fname = 10 then some [0x48, 0x65, 0x61, 0x6C, 0x74, 0x68]
    else if fname = 11 then some [0x4F, 0x74, 0x68, 0x65, 0x72]
    else if fname = 20 then some [0x50, 0x61, 0x77, 0x6E]
    else if fname = 21 then some [0x57, 0x6F, 0x72, 0x6C, 0x64]
    else none
  narrow := fun w => if w < 128 then some (Char.ofNat w) else none
  IsBadReadPtr := fun lp _ => decide (lp = 0 ∨ lp ∈ bad)

/-- Globals after a resolution that published a name resolver and a descriptor of the
given type for the table at `base`. -/
def objectGlobals (version : Int) (type : Nat) (base : Int) : Globals :=
  ⟨version, base, 0x140002000, 0x140001000, 0x140003000, 0x140004000, some ⟨type, base⟩⟩

/-- A process memory with a chunked object table at `0x2000` whose chunk pointer array
at `0x4000` is `0x100000, chunk1, 0`. Chunk 0 occupies the 65535 slots of 24 bytes from
`0x100000` on, slot `s` holding the handle `0x40000000 + 0x100 * s`; the 8 bytes that
follow chunk 0, at `0x100000 + 65535 * 24`, hold the unrelated value `0x7777`. The
65535 slots from `0x400000` on hold the handles `0x50000000 + 0x100 * s`: they are
chunk 1 when `chunk1` is `0x400000`. With `chunk1 = 0` the table has a single chunk. -/
def chunkedMem (chunk1 : Nat) : Memory := fun a =>
  if 0x100000 ≤ a ∧ a < 0x100000 + 65535 * 24 then
    if (a - 0x100000) % 24 < 8 then
      (0x40000000 + 0x100 * ((a - 0x100000) / 24)) / 256 ^ ((a - 0x100000) % 24) % 256
    else 0
  else if 0x400000 ≤ a ∧ a < 0x400000 + 65535 * 24 then
    if (a - 0x400000) % 24 < 8 then
      (0x50000000 + 0x100 * ((a - 0x400000) / 24)) / 256 ^ ((a - 0x400000) % 24) % 256
    else 0
  else
    wordsMem [(0x2000, 0x4000), (0x2014, if chunk1 = 0 then 65535 else 131070),
      (0x4000, 0x100000), (0x4008, chunk1), (0x100000 + 65535 * 24, 0x7777)] a

/-- The loop shape shared by the four table scans of `ue4_sdk.cpp`: for `i`, `i + 1`,
... (the first argument counts the iterations left) the entry `o i` is fetched, a null
entry is skipped, and the first entry on which the loop body `f` returns stops the
scan; 0 when the iterations are used up. -/
def tableScan (f : Int → Option Int) (o : Int → Int) : Nat → Int → Int
  | 0, _ => 0
  | n + 1, i =>
    if o i = 0 then tableScan f o n (i + 1)
    else
      match f (o i) with
      | some r => r
      | none => tableScan f o n (i + 1)

/-- The body of the loops of `FindObjectType1` and `FindObjectType2` on a non-null
entry: the entry itself when its display name is `name`. -/
def objectOf (mem : Memory) (g : Globals) (env : Foreign) (name : String) (obj : Int) :
    Option Int :=
  if GetNameAtOffset mem g env obj FNAME_OFFSET = name then some obj else none

/-- Entry `i` of a type 1 table: the 8-byte value at `arrayPtr + i * 24`. -/
def flatEntry (mem : Memory) (gobjectsBase : Int) (i : Int) : Int :=
  readI64 mem (readI64 mem gobjectsBase + i * TYPE1_ELEMENT_STRIDE)

/-- An entry that `findByName` accepts: non-null, with display name `name`. -/
def HasName (mem : Memory) (g : Globals) (env : Foreign) (name : String) (obj : Int) : Prop :=
  obj ≠ 0 ∧ GetNameAtOffset mem g env obj FNAME_OFFSET = name

instance (mem : Memory) (g : Globals) (env : Foreign) (name : String) (obj : Int) :
    Decidable (HasName mem g env name obj) := by
  unfold HasName
  infer_instance

/-- An entry that the legacy scan accepts: non-null, with display name `propName`, and
with a non-null owner (the pointer at `+32`) whose display name is `className`. -/
def OwnedBy (mem : Memory) (g : Globals) (env : Foreign) (className propName : String)
    (obj : Int) : Prop :=
  obj ≠ 0 ∧ GetNameAtOffset mem g env obj FNAME_OFFSET = propName
    ∧ readI64 mem (obj + 32) ≠ 0
    ∧ GetNameAtOffset mem g env (readI64 mem (obj + 32)) FNAME_OFFSET = className

instance (mem : Memory) (g : Globals) (env : Foreign) (className propName : String)
    (obj : Int) : Decidable (OwnedBy mem g env className propName obj) := by
  unfold OwnedBy
  infer_instance

/-- A segment of a property chain: starting at the pointer `p`, the nodes of the list,
each non-null and linked to the following one by its pointer at `+32`, and `q` the
pointer that follows the last of them. -/
def ChainSeg (mem : Memory) : Int → List Int → Int → Prop
  | p, [], q => p = q
  | p, x :: rest, q => p = x ∧ x ≠ 0 ∧ ChainSeg mem (readI64 mem (x + 32)) rest q

instance ChainSeg.decidable (mem : Memory) :
    (p : Int) → (nodes : List Int) → (q : Int) → Decidable (ChainSeg mem p nodes q)
  | p, [], q => by
    unfold ChainSeg
    infer_instance
  | p, x :: rest, q => by
    unfold ChainSeg
    have := ChainSeg.decidable mem (readI64 mem (x + 32)) rest q
    infer_instance

/-- A chain node that yields its offset: its secondary field (the pointer at `+8`)
passes the probe and is non-null, its offset field (the `int` at `+76`) is non-zero,
and the display name behind its `FName` at `+40` is `propName`. -/
def NodeHit (mem : Memory) (g : Globals) (env : Foreign) (propName : String) (node : Int) :
    Prop :=
  env.IsBadReadPtr (readI64 mem (node + 8)) 8 = false ∧ readI64 mem (node + 8) ≠ 0
    ∧ readInt mem (node + 76) ≠ 0
    ∧ GetNameAtOffset mem g env node 40 = propName

instance (mem : Memory) (g : Globals) (env : Foreign) (propName : String) (node : Int) :
    Decidable (NodeHit mem g env propName node) := by
  unfold NodeHit
  infer_instance

/-! ## Notions for the later properties of the pattern matcher -/

/-- A pattern `p1` obtained from `p` by replacing some of its tokens by the wildcard:
the same length, and each token unchanged or `-1`. -/
def Widens (p p1 : List Int) : Prop :=
  p1.length = p.length ∧ ∀ j, j < p.length → p1.getD j 0 = p.getD j 0 ∨ p1.getD j 0 = -1

instance (p p1 : List Int) : Decidable (Widens p p1) := by
  unfold Widens
  infer_instance

/-- The loops of `FindPatternRaw` with the image offsets of the bytes they read: the
state and the steps are those of `scanLoop`, and each inner-loop iteration records the
index `matchIdx + scanOffset` of its read `base[matchIdx + scanOffset]`. -/
def scanLoopReads (mem : Memory) (base : Nat) (pattern : List Int)
    (patternSize scanRange : Nat) : Nat → Nat → Nat → Option Nat × List Nat
  | 0, _, _ => (none, [])
  | fuel + 1, scanOffset, matchIdx =>
    let patByte := pattern.getD matchIdx 0
    let off := (matchIdx + scanOffset) % 2 ^ 32
    if readU8 mem (base + off) ≠ (patByte % 256).toNat ∧ patByte ≠ -1 then
      let scanOffset1 := (scanOffset + 1) % 2 ^ 32
      if scanOffset1 ≥ scanRange then (some 0, [off])
      else
        let r := scanLoopReads mem base pattern patternSize scanRange fuel scanOffset1 0
        (r.1, off :: r.2)
    else
      let matchIdx1 := (matchIdx + 1) % 2 ^ 32
      if matchIdx1 ≥ patternSize then (some ((base + scanOffset) % 2 ^ 64), [off])
      else
        let r := scanLoopReads mem base pattern patternSize scanRange fuel scanOffset matchIdx1
        (r.1, off :: r.2)

/-- The addresses of the eight header bytes `FindPatternRaw` reads before its loops:
the `int` at `module + 60` (`e_lfanew`) and the `unsigned int` at
`module + e_lfanew + 80` (`SizeOfImage`). -/
def headerReads (mem : Memory) (module : Nat) : List Nat :=
  let p := wrap64 ((module : Int) + e_lfanew mem module + 80)
  [module + 60, module + 60 + 1, module + 60 + 2, module + 60 + 3, p, p + 1, p + 2, p + 3]

/-- The function `FindPatternRaw` with the addresses of all the bytes it reads from the
module: the eight header bytes, then the bytes `base[matchIdx + scanOffset]` of the loops
(an address is reduced modulo `2^64` by the read). An empty pattern returns before any
read. -/
def FindPatternRawReads (fuel : Nat) (mem : Memory) (module : Nat) (pattern : List Int) :
    Option Nat × List Nat :=
  if pattern.isEmpty then (some 0, [])
  else
    let header := headerReads mem module
    let patternSize := pattern.length
    let scanRange := wrap64 ((sizeOfImage mem module : Int) - (patternSize : Int))
    if scanRange = 0 then (some 0, header)
    else if patternSize ≠ 0 then
      let r := scanLoopReads mem module pattern patternSize scanRange fuel 0 0
      (r.1, header ++ r.2.map fun off => module + off)
    else (some (module % 2 ^ 64), header)

/-- Image loaded at `0x10000` whose header declares `size` bytes (`e_lfanew` zero, so
that the field `SizeOfImage` is the byte at `+80`), all bytes zero but that field and the
byte `0xAB` at offset 20. For a size below 81 the field lies outside the declared
image. -/
def truncatedImage (size : Nat) : Memory := fun a =>
  if a = 0x10000 + 80 then size else if a = 0x10000 + 20 then 0xAB else 0

/-- A token of the decoded `InputKey` texts: `?` or two hex digits. -/
def IsBlobToken (t : List Char) : Prop :=
  t = ['?'] ∨ (t.length = 2 ∧ ∀ c ∈ t, isHexDigit c = true)

instance (t : List Char) : Decidable (IsBlobToken t) := by
  unfold IsBlobToken
  infer_instance

/-- The four encrypted blobs with their sizes (`sizeof`), as passed to
`DecryptInputKeyBlob` by `InitVersionConfigs`. -/
def inputKeyBlobs : List (List Nat × Nat) :=
  [(g_InputKeyBlob1, 87), (g_InputKeyBlob2, 75), (g_InputKeyBlob3, 82), (g_InputKeyBlob4, 78)]

/-- The chunk index `ChunkedArrayAccess` uses for `index`: `index / TYPE2_CHUNK_SIZE`
(truncating), less one when `chunkBase && chunkBase == index`. -/
def chunkIdxOf (index : Int) : Int :=
  let chunkIdx := Int.tdiv index TYPE2_CHUNK_SIZE
  let chunkBase := TYPE2_CHUNK_SIZE * chunkIdx
  if chunkBase ≠ 0 ∧ chunkBase = index then chunkIdx - 1 else chunkIdx

/-- The slot `withinChunk` that `ChunkedArrayAccess` uses for `index`. -/
def withinChunkOf (index : Int) : Int :=
  index - TYPE2_CHUNK_SIZE * chunkIdxOf index

/-! ## String utilities (`src/src/string_utils.cpp`) -/

/-- The `do ... while (current != end)` loop of `StringUtils::SplitString`, on the
characters of `str`. Pointers are offsets from `begin`, so `end` is `str.length`; the
first argument counts the iterations left (`end - current`). The state is `current`,
`tokenStart` (with `end` as the sentinel for no current token) and `result`; the loop
returns the final `tokenStart` and `result`. -/
def splitLoop (str : List Char) (delimiter : Char) :
    Nat → Nat → Nat → List (List Char) → Nat × List (List Char)
  | 0, _, tokenStart, result => (tokenStart, result)
  | k + 1, current, tokenStart, result =>
    if str.getD current ' ' = delimiter then
      if tokenStart ≠ str.length then
        splitLoop str delimiter k (current + 1) str.length
          (result ++ [(str.drop tokenStart).take (current - tokenStart)])
      else splitLoop str delimiter k (current + 1) tokenStart result
    else if tokenStart = str.length then
      splitLoop str delimiter k (current + 1) current result
    else splitLoop str delimiter k (current + 1) tokenStart result

/-- The function `StringUtils::SplitString` on the characters of the string: the loop,
run when `begin != end`, and the push of the final token. -/
def splitChars (str : List Char) (delimiter : Char) : List (List Char) :=
  if str.length ≠ 0 then
    let r := splitLoop str delimiter str.length 0 str.length []
    if r.1 ≠ str.length then r.2 ++ [(str.drop r.1).take (str.length - r.1)] else r.2
  else []

/-- The function `StringUtils::SplitString(str, delimiter)`. -/
def SplitString (str : String) (delimiter : Char) : List String :=
  (splitChars str.toList delimiter).map String.mk

/-- Specification: the maximal non-empty runs of non-delimiter characters of `s`, in
order, the first of them prefixed by the pending run `cur`. -/
def runsFrom (d : Char) : List Char → List Char → List (List Char)
  | [], cur => if cur = [] then [] else [cur]
  | c :: cs, cur =>
    if c = d then (if cur = [] then runsFrom d cs [] else cur :: runsFrom d cs [])
    else runsFrom d cs (cur ++ [c])

/-! ## The branches of the gated step -/

/-- The branch the `if / else if / else if` chain of the gated step takes for
`engineVer`: the backoff and the type byte of the branch, or `none` when no branch is
taken. -/
def gateBranch (engineVer : Int) : Option (Int × Nat) :=
  if wrap32 (engineVer - 4204761) ≤ 0x2679 then some (24, 1)
  else if wrap32 (engineVer - 4225813) ≤ 0x397C8 then some (32, 2)
  else if engineVer < 4464155 then some (16, 2)
  else none

/-- Image of 1024 bytes (`e_lfanew` 128, `SizeOfImage` 1024 at `+208`) loaded at
`0x10000`, with a match of `PAT_GOBJECTS_V2` at offset 96 whose displacement operand
`0x99` leads to the address `0x10100`; with `mark`, the four bytes at `0x10125`
(offset 37 from `0x10100`) are `FF`. All other bytes are zero. -/
def gateImage (mark : Bool) : Memory := fun a =>
  if a = 0x10000 + 60 then 128
  else if a = 0x10000 + 209 then 4
  else if 0x10000 + 96 ≤ a ∧ a < 0x10000 + 112 then
    [0x48, 0x8D, 0x05, 0x99, 0x00, 0x00, 0x00, 0x33, 0xF6, 0x48, 0x89, 0x01, 0x48, 0x89,
      0x71, 0x10].getD (a - (0x10000 + 96)) 0
  else if 0x10125 ≤ a ∧ a < 0x10129 then (if mark then 0xFF else 0)
  else 0

/-- Image of 1024 bytes (`e_lfanew` 128, `SizeOfImage` 1024 at `+208`) loaded at
`0x10000`, with a match of `PAT_GOBJECTS_V1` at offset 96 whose displacement operand
`0x99` leads to the address `0x10100`, and the four bytes `FF` at `0x10125` (offset 37
from `0x10100`). All other bytes, those at the wildcard positions included, are zero. -/
def lowImage : Memory := fun a =>
  if a = 0x10000 + 60 then 128
  else if a = 0x10000 + 209 then 4
  else if 0x10000 + 96 ≤ a ∧ a < 0x10000 + 135 then
    [0x48, 0x8D, 0x05, 0x99, 0x00, 0x00, 0x00, 0x48, 0x89, 0x01, 0x33, 0xC9, 0x84, 0xD2,
      0x41, 0x8B, 0x40, 0x08, 0x49, 0x89, 0x48, 0x10, 0x0F, 0x45, 0x05, 0x00, 0x00, 0x00,
      0x00, 0xFF, 0xC0, 0x49, 0x89, 0x48, 0x10, 0x41, 0x89, 0x40, 0x08].getD
      (a - (0x10000 + 96)) 0
  else if 0x10125 ≤ a ∧ a < 0x10129 then 0xFF
  else 0

/-- The fourth profile of the registry (`Config 4`, versions 4204761 to 4461277). -/
def profile4 : VersionConfig :=
  InitVersionConfigs.getD 3 ⟨0, 0, []⟩


/-! ## Properties of the pattern matcher -/

theorem readU8_lt (mem : Memory) (a : Nat) : readU8 mem a < 256 := by
  unfold readU8
  omega

theorem readU32_lt (mem : Memory) (a : Nat) : readU32 mem a < 2 ^ 32 := by
  have h0 := readU8_lt mem a
  have h1 := readU8_lt mem (a + 1)
  have h2 := readU8_lt mem (a + 2)
  have h3 := readU8_lt mem (a + 3)
  unfold readU32
  omega

theorem sizeOfImage_lt (mem : Memory) (module : Nat) : sizeOfImage mem module < 2 ^ 32 :=
  readU32_lt mem _

theorem wrap64_sub_of_le {a b : Nat} (h : b ≤ a) (ha : a < 2 ^ 64) :
    wrap64 ((a : Int) - (b : Int)) = a - b := by
  unfold wrap64
  omega

theorem codeMatches_iff_tokenMatches {t : Int} {b : Nat} (ht : ValidToken t) (hb : b < 256) :
    codeMatches t b ↔ tokenMatches t b := by
  unfold codeMatches tokenMatches wildcard
  unfold ValidToken wildcard at ht
  omega

theorem codeMatchesAt_iff_matchesAt (mem : Memory) (module : Nat) (pattern : List Int)
    (hv : ∀ t ∈ pattern, ValidToken t) (o : Nat) :
    CodeMatchesAt mem module pattern o ↔ MatchesAt mem module pattern o := by
  unfold CodeMatchesAt MatchesAt
  refine forall_congr' fun j => forall_congr' fun hj => ?_
  have hmem : pattern.getD j 0 ∈ pattern := by
    rw [List.getD_eq_getElem _ _ hj]
    exact List.getElem_mem hj
  exact codeMatches_iff_tokenMatches (hv _ hmem) (readU8_lt _ _)

theorem scanLoop_spec (mem : Memory) (base : Nat) (pattern : List Int) (R : Nat)
    (hR : R + pattern.length ≤ 2 ^ 32) :
    ∀ fuel so mi, so < R → mi < pattern.length →
      (∀ o, o < so → ¬ CodeMatchesAt mem base pattern o) →
      (∀ j, j < mi → codeMatches (pattern.getD j 0) (imageByte mem base (so + j))) →
      (R - so) * pattern.length ≤ fuel + mi →
      ∃ r, scanLoop mem base pattern pattern.length R fuel so mi = some r
        ∧ ScanOutcome mem base pattern R r := by
  intro fuel
  induction fuel with
  | zero =>
    intro so mi hso hmi _ _ hfuel
    have h1 : 1 * pattern.length ≤ (R - so) * pattern.length :=
      Nat.mul_le_mul_right _ (by omega)
    omega
  | succ fuel ih =>
    intro so mi hso hmi hprev hcur hfuel
    have hidx : (mi + so) % 2 ^ 32 = so + mi := by omega
    have hsucc : (R - so) * pattern.length = (R - (so + 1)) * pattern.length + pattern.length := by
      have : R - so = (R - (so + 1)) + 1 := by omega
      rw [this, Nat.succ_mul]
    simp only [scanLoop, hidx]
    by_cases hc : readU8 mem (base + (so + mi)) ≠ (pattern.getD mi 0 % 256).toNat
        ∧ pattern.getD mi 0 ≠ -1
    · rw [if_pos hc]
      have hno : ¬ CodeMatchesAt mem base pattern so := by
        intro hm
        have := hm mi hmi
        unfold codeMatches imageByte at this
        rcases this with h | h
        · exact hc.2 h
        · exact hc.1 h
      have hprev1 : ∀ o, o < so + 1 → ¬ CodeMatchesAt mem base pattern o := by
        intro o ho
        rcases Nat.lt_succ_iff_lt_or_eq.mp ho with h | h
        · exact hprev o h
        · exact h ▸ hno
      have hso1 : (so + 1) % 2 ^ 32 = so + 1 := by omega
      rw [hso1]
      by_cases hend : so + 1 ≥ R
      · rw [if_pos hend]
        exact ⟨0, rfl, Or.inr ⟨rfl, fun o ho => hprev1 o (by omega)⟩⟩
      · rw [if_neg hend]
        exact ih (so + 1) 0 (by omega) (by omega) hprev1 (fun j hj => absurd hj (by omega))
          (by omega)
    · rw [if_neg hc]
      have hmatch : codeMatches (pattern.getD mi 0) (imageByte mem base (so + mi)) := by
        unfold codeMatches imageByte
        by_cases hw : pattern.getD mi 0 = -1
        · exact Or.inl hw
        · right
          by_contra hne
          exact hc ⟨hne, hw⟩
      have hcur1 : ∀ j, j < mi + 1 →
          codeMatches (pattern.getD j 0) (imageByte mem base (so + j)) := by
        intro j hj
        rcases Nat.lt_succ_iff_lt_or_eq.mp hj with h | h
        · exact hcur j h
        · exact h ▸ hmatch
      have hmi1 : (mi + 1) % 2 ^ 32 = mi + 1 := by omega
      rw [hmi1]
      by_cases hend : mi + 1 ≥ pattern.length
      · rw [if_pos hend]
        refine ⟨_, rfl, Or.inl ⟨so, hso, ?_, hprev, rfl⟩⟩
        intro j hj
        exact hcur1 j (by omega)
      · rw [if_neg hend]
        exact ih so (mi + 1) hso (by omega) hprev hcur1 (by omega)

theorem findPatternRaw_spec (fuel : Nat) (mem : Memory) (module : Nat) (pattern : List Int)
    (hpos : 0 < pattern.length) (hle : pattern.length ≤ sizeOfImage mem module)
    (hfuel : (sizeOfImage mem module - pattern.length) * pattern.length ≤ fuel) :
    ∃ r, FindPatternRaw fuel mem module pattern = some r
      ∧ ScanOutcome mem module pattern (sizeOfImage mem module - pattern.length) r := by
  have hS := sizeOfImage_lt mem module
  have hne : pattern.isEmpty = false := by
    cases pattern with
    | nil => simp at hpos
    | cons a l => rfl
  have hwrap := wrap64_sub_of_le hle (by omega : sizeOfImage mem module < 2 ^ 64)
  simp only [FindPatternRaw, hne, hwrap]
  by_cases hz : sizeOfImage mem module - pattern.length = 0
  · simp only [hz, if_true]
    exact ⟨0, by simp, Or.inr ⟨rfl, fun o ho => absurd ho (by omega)⟩⟩
  · have hlen : pattern.length ≠ 0 := by omega
    simp only [hz, hlen, if_false, ne_eq, not_false_eq_true, if_true]
    exact scanLoop_spec mem module pattern _ (by omega) fuel 0 0 (by omega) hpos
      (fun o ho => absurd ho (by omega)) (fun j hj => absurd hj (by omega))
      (by simpa using hfuel)


theorem scanLoop_fuel_mono (mem : Memory) (base : Nat) (pattern : List Int) (n R : Nat) :
    ∀ fuel extra so mi r, scanLoop mem base pattern n R fuel so mi = some r →
      scanLoop mem base pattern n R (fuel + extra) so mi = some r := by
  intro fuel
  induction fuel with
  | zero => intro extra so mi r h; simp [scanLoop] at h
  | succ fuel ih =>
    intro extra so mi r h
    have hrw : fuel + 1 + extra = (fuel + extra) + 1 := by omega
    rw [hrw]
    simp only [scanLoop] at h ⊢
    split
    · rename_i hc
      rw [if_pos hc] at h
      split
      · rename_i hend
        rw [if_pos hend] at h
        exact h
      · rename_i hend
        rw [if_neg hend] at h
        exact ih extra _ _ r h
    · rename_i hc
      rw [if_neg hc] at h
      split
      · rename_i hend
        rw [if_pos hend] at h
        exact h
      · rename_i hend
        rw [if_neg hend] at h
        exact ih extra _ _ r h

theorem findPatternRaw_fuel_mono (mem : Memory) (module : Nat) (pattern : List Int)
    (fuel fuel1 r : Nat) (hle : fuel ≤ fuel1)
    (h : FindPatternRaw fuel mem module pattern = some r) :
    FindPatternRaw fuel1 mem module pattern = some r := by
  obtain ⟨extra, rfl⟩ := Nat.exists_eq_add_of_le hle
  unfold FindPatternRaw at h ⊢
  split
  · rename_i h1
    rw [if_pos h1] at h
    exact h
  · rename_i h1
    rw [if_neg h1] at h
    simp only at h ⊢
    split
    · rename_i h2
      rw [if_pos h2] at h
      exact h
    · rename_i h2
      rw [if_neg h2] at h
      split
      · rename_i h3
        rw [if_pos h3] at h
        exact scanLoop_fuel_mono _ _ _ _ _ _ _ _ _ _ h
      · rename_i h3
        rw [if_neg h3] at h
        exact h

theorem validToken_of_built (mem : Memory) (module k : Nat) (pattern : List Int)
    (hbuilt : ∀ j, j < pattern.length →
      pattern.getD j 0 = wildcard ∨ pattern.getD j 0 = (imageByte mem module (k + j) : Int)) :
    ∀ t ∈ pattern, ValidToken t := by
  intro t ht
  obtain ⟨j, hj, rfl⟩ := List.getElem_of_mem ht
  have h := hbuilt j hj
  rw [List.getD_eq_getElem _ _ hj] at h
  have hb := readU8_lt mem (module + (k + j))
  unfold ValidToken
  unfold imageByte at h
  rcases h with h | h
  · exact Or.inl h
  · right
    rw [h]
    omega

/-- C1: for a pattern of valid tokens with `0 < tokenCount <= imageSize`, on an image
loaded at a non-null base and lying inside the address space, `FindPatternRaw` returns
(given fuel for `scanRange * tokenCount` comparisons) the address of the least offset in
`[0, imageSize - tokenCount)` at which every token matches, and returns `0` exactly
when no offset of that range matches. -/
theorem findPatternRaw_least_match (fuel : Nat) (mem : Memory) (module : Nat)
    (pattern : List Int)
    (hvalid : ∀ t ∈ pattern, ValidToken t)
    (hpos : 0 < pattern.length) (hle : pattern.length ≤ sizeOfImage mem module)
    (hbase : 0 < module) (haddr : module + sizeOfImage mem module ≤ 2 ^ 64)
    (hfuel : (sizeOfImage mem module - pattern.length) * pattern.length ≤ fuel) :
    ∃ r, FindPatternRaw fuel mem module pattern = some r
      ∧ (∀ o, o < sizeOfImage mem module - pattern.length →
          MatchesAt mem module pattern o →
          (∀ o1, o1 < o → ¬ MatchesAt mem module pattern o1) → r = module + o)
      ∧ (r = 0 ↔ ∀ o, o < sizeOfImage mem module - pattern.length →
          ¬ MatchesAt mem module pattern o) := by
  obtain ⟨r, hr, hout⟩ := findPatternRaw_spec fuel mem module pattern hpos hle hfuel
  have heq := codeMatchesAt_iff_matchesAt mem module pattern hvalid
  refine ⟨r, hr, ?_, ?_⟩
  · intro o ho hm hleast
    rcases hout with ⟨o0, ho0, hm0, hleast0, hr0⟩ | ⟨_, hnone⟩
    · have h1 : ¬ o0 < o := fun h => hleast o0 h ((heq o0).mp hm0)
      have h2 : ¬ o < o0 := fun h => hleast0 o h ((heq o).mpr hm)
      have h3 : o0 = o := by omega
      rw [hr0, h3]
      exact Nat.mod_eq_of_lt (by omega)
    · exact absurd ((heq o).mpr hm) (hnone o ho)
  · rcases hout with ⟨o0, ho0, hm0, _, hr0⟩ | ⟨hr0, hnone⟩
    · have hmod : (module + o0) % 2 ^ 64 = module + o0 := Nat.mod_eq_of_lt (by omega)
      constructor
      · intro hz
        omega
      · intro hall
        exact absurd ((heq o0).mp hm0) (hall o0 ho0)
    · exact ⟨fun _ o ho hm => hnone o ho ((heq o).mpr hm), fun _ => hr0⟩

/-- C1, at the 8192-byte demonstration image and the pattern `40 53 ? 83 EC 20`. -/
theorem findPatternRaw_least_match_witness :
    ∃ r, FindPatternRaw 49152 demoImage 0x140000000 [0x40, 0x53, -1, 0x83, 0xEC, 0x20] = some r
      ∧ (∀ o, o < sizeOfImage demoImage 0x140000000
            - ([0x40, 0x53, -1, 0x83, 0xEC, 0x20] : List Int).length →
          MatchesAt demoImage 0x140000000 [0x40, 0x53, -1, 0x83, 0xEC, 0x20] o →
          (∀ o1, o1 < o → ¬ MatchesAt demoImage 0x140000000 [0x40, 0x53, -1, 0x83, 0xEC, 0x20] o1) →
          r = 0x140000000 + o)
      ∧ (r = 0 ↔ ∀ o, o < sizeOfImage demoImage 0x140000000
            - ([0x40, 0x53, -1, 0x83, 0xEC, 0x20] : List Int).length →
          ¬ MatchesAt demoImage 0x140000000 [0x40, 0x53, -1, 0x83, 0xEC, 0x20] o) :=
  findPatternRaw_least_match 49152 demoImage 0x140000000 [0x40, 0x53, -1, 0x83, 0xEC, 0x20]
    (by simp [ValidToken, wildcard]) (by decide) (by decide) (by decide) (by decide) (by decide)

/-- C2 as stated fails: in an image of 100 bytes whose last byte is the only `0xAB`, the
one-token pattern built from `B[99..100)` (`k = 99`, `n = 1`, `k + n <= |B|`) matches at
offset 99, yet the scan, which stops before offset `|B| - n`, returns not-found. -/
theorem plant_at_image_end_not_found :
    sizeOfImage tailImage 0x10000 = 100
      ∧ ([0xAB] : List Int).getD 0 0 = (imageByte tailImage 0x10000 (99 + 0) : Int)
      ∧ MatchesAt tailImage 0x10000 [0xAB] 99
      ∧ ∀ fuel, 99 ≤ fuel → FindPatternRaw fuel tailImage 0x10000 [0xAB] = some 0 := by
  refine ⟨by decide, by decide, ?_, ?_⟩
  · intro j hj
    have hj0 : j = 0 := by simpa using hj
    subst hj0
    right
    decide
  · intro fuel hfuel
    exact findPatternRaw_fuel_mono _ _ _ 99 fuel 0 hfuel (by decide)

/-- C2, amended: for `n >= 1` and `k + n < |B|` (the planted bytes end before the last
byte of the image), a pattern of `n` tokens, each the wildcard or the image byte
`B[k + j]`, is found: `FindPatternRaw` returns the non-null address of an offset
`o <= k` at which the pattern matches. -/
theorem plant_and_find (fuel : Nat) (mem : Memory) (module : Nat) (pattern : List Int)
    (k n : Nat) (hn : 1 ≤ n) (hlen : pattern.length = n)
    (hk : k + n < sizeOfImage mem module)
    (hbuilt : ∀ j, j < pattern.length →
      pattern.getD j 0 = wildcard ∨ pattern.getD j 0 = (imageByte mem module (k + j) : Int))
    (hbase : 0 < module) (haddr : module + sizeOfImage mem module ≤ 2 ^ 64)
    (hfuel : (sizeOfImage mem module - n) * n ≤ fuel) :
    ∃ o, o ≤ k ∧ MatchesAt mem module pattern o ∧ module + o ≠ 0
      ∧ FindPatternRaw fuel mem module pattern = some (module + o) := by
  subst hlen
  obtain ⟨r, hr, hout⟩ := findPatternRaw_spec fuel mem module pattern (by omega) (by omega) hfuel
  have heq := codeMatchesAt_iff_matchesAt mem module pattern
    (validToken_of_built mem module k pattern hbuilt)
  have hmk : MatchesAt mem module pattern k := fun j hj => hbuilt j hj
  rcases hout with ⟨o0, ho0, hm0, hleast0, hr0⟩ | ⟨_, hnone⟩
  · have hmod : (module + o0) % 2 ^ 64 = module + o0 := Nat.mod_eq_of_lt (by omega)
    have hok : ¬ k < o0 := fun h => hleast0 k h ((heq k).mpr hmk)
    exact ⟨o0, by omega, (heq o0).mp hm0, by omega, by rw [hr, hr0, hmod]⟩
  · exact absurd ((heq k).mpr hmk) (hnone k (by omega))

/-- C2 amended, at the demonstration image: the pattern `40 ? 48` built from the bytes at
offset 4096 with its middle position replaced by the wildcard. -/
theorem plant_and_find_witness :
    ∃ o, o ≤ 4096 ∧ MatchesAt demoImage 0x140000000 [0x40, -1, 0x48] o
      ∧ 0x140000000 + o ≠ 0
      ∧ FindPatternRaw 24567 demoImage 0x140000000 [0x40, -1, 0x48] = some (0x140000000 + o) :=
  plant_and_find 24567 demoImage 0x140000000 [0x40, -1, 0x48] 4096 3 (by decide) (by decide)
    (by decide)
    (by
      intro j hj
      have hj3 : j < 3 := by simpa using hj
      interval_cases j
      · right; decide
      · left; rfl
      · right; decide)
    (by decide) (by decide) (by decide)

/-- C3: a pattern longer than the image is not rejected. The image declares 256 bytes,
the pattern has 257 wildcard tokens; `sizeOfImage - patternSize` wraps to `2^64 - 1`,
the guard `!scanRange` does not fire, and the scan reports a match at the module base. -/
theorem findPatternRaw_pattern_longer_than_image :
    sizeOfImage smallImage 0x10000 = 256
      ∧ (List.replicate 257 wildcard).length = 257
      ∧ FindPatternRaw 257 smallImage 0x10000 (List.replicate 257 wildcard) = some 0x10000 := by
  refine ⟨by decide, List.length_replicate _ _, by decide!⟩

/-! ## Displacement resolution -/

theorem scanLoop_lt (mem : Memory) (base : Nat) (pattern : List Int) (n R : Nat) :
    ∀ fuel so mi r, scanLoop mem base pattern n R fuel so mi = some r → r < 2 ^ 64 := by
  intro fuel
  induction fuel with
  | zero => intro so mi r h; simp [scanLoop] at h
  | succ fuel ih =>
    intro so mi r h
    simp only [scanLoop] at h
    split at h
    · split at h
      · cases h; decide
      · exact ih _ _ r h
    · split at h
      · cases h; exact Nat.mod_lt _ (by decide)
      · exact ih _ _ r h

theorem findPatternRaw_lt (fuel : Nat) (mem : Memory) (module : Nat) (pattern : List Int)
    (r : Nat) (h : FindPatternRaw fuel mem module pattern = some r) : r < 2 ^ 64 := by
  unfold FindPatternRaw at h
  split at h
  · cases h; decide
  · simp only at h
    split at h
    · cases h; decide
    · split at h
      · exact scanLoop_lt _ _ _ _ _ _ _ _ r h
      · cases h; exact Nat.mod_lt _ (by decide)

theorem parsePattern_demo :
    ParsePattern "40 53 ? 83 EC 20" = [0x40, 0x53, -1, 0x83, 0xEC, 0x20] := by
  simp [ParsePattern, parseFrom, strtoul16, readHexDigits, hexDigitVal, isSpaceC, toInt32]

theorem findPatternRaw_demo :
    FindPatternRaw 5000 demoImage 0x140000000 (ParsePattern "40 53 ? 83 EC 20")
      = some (0x140000000 + 4096) := by
  rw [parsePattern_demo]
  decide!

/-- C4: after a successful match at address `m` (non-null), `FindPattern` returns
`r + b` modulo `2^64`, and `ScanAndResolve` the same 64-bit value as an `__int64`,
where `r = m + a + d + 4` if `a != 0`, `d` being the little-endian signed 32-bit value
at `m + a`, and `r = m` if `a = 0`. -/
theorem displacement_resolution (fuel : Nat) (mem : Memory) (module : Nat)
    (e : PatternEntry) (m : Nat)
    (hmatch : FindPatternRaw fuel mem module (ParsePattern e.pattern) = some m)
    (hm : m ≠ 0) :
    FindPattern fuel mem module e.pattern e.offset_a e.offset_b
        = some (wrap64 ((if e.offset_a ≠ 0 then
            (m : Int) + e.offset_a + readI32 mem (wrap64 ((m : Int) + e.offset_a)) + 4
            else (m : Int)) + e.offset_b))
      ∧ ScanAndResolve fuel mem module (some e)
        = some (toInt64 (wrap64 ((if e.offset_a ≠ 0 then
            (m : Int) + e.offset_a + readI32 mem (wrap64 ((m : Int) + e.offset_a)) + 4
            else (m : Int)) + e.offset_b))) := by
  have hlt := findPatternRaw_lt fuel mem module _ m hmatch
  have hsame : ∀ x : Int, wrap64 (toInt64 m + x) = wrap64 ((m : Int) + x) := by
    intro x
    unfold wrap64 toInt64
    split <;> omega
  have hw : ∀ x y : Int, wrap64 (toInt64 (wrap64 x) + y) = wrap64 (x + y) := by
    intro x y
    unfold wrap64 toInt64
    split <;> omega
  have hw1 : ∀ x y : Int, wrap64 ((wrap64 x : Int) + y) = wrap64 (x + y) := by
    intro x y
    unfold wrap64
    omega
  have hm1 : wrap64 (m : Int) = m := by
    unfold wrap64
    omega
  have hmi : toInt64 m = toInt64 (wrap64 (m : Int)) := by rw [hm1]
  constructor
  · simp only [FindPattern, hmatch, Option.map_some', if_neg hm]
    by_cases ha : e.offset_a = 0 <;> by_cases hb : e.offset_b = 0
    · simp [ha, hb, hm1]
    · simp [ha, hb]
    · simp only [ne_eq, ha, hb, not_false_eq_true, if_true, not_true_eq_false, if_false,
        Int.add_zero]
    · simp only [ne_eq, ha, hb, not_false_eq_true, if_true, hw1]
  · simp only [ScanAndResolve, hmatch, Option.map_some', if_neg hm]
    by_cases ha : e.offset_a = 0 <;> by_cases hb : e.offset_b = 0
    · simp [ha, hb, hm1]
    · simp [ha, hb, hsame]
    · have h4 : ∀ x y z : Int, toInt64 m + x + y + z = toInt64 m + (x + y + z) := by
        intro x y z; omega
      have h5 : ∀ x y z : Int, (m : Int) + x + y + z = (m : Int) + (x + y + z) := by
        intro x y z; omega
      simp only [ne_eq, ha, hb, not_false_eq_true, if_true, not_true_eq_false, if_false,
        Int.add_zero, hsame, h4, h5]
    · have h4 : ∀ x y z : Int, toInt64 m + x + y + z = toInt64 m + (x + y + z) := by
        intro x y z; omega
      have h5 : ∀ x y z : Int, (m : Int) + x + y + z = (m : Int) + (x + y + z) := by
        intro x y z; omega
      simp only [ne_eq, ha, hb, not_false_eq_true, if_true, hsame, h4, h5, hw]

/-- C4, at the demonstration image: the signature `40 53 ? 83 EC 20` matches at
`imageBase + 4096`; with both offsets zero it resolves to `imageBase + 4096`, and with
`offset_a = 10` and the value `0x10` at `match + 10` to
`imageBase + 4096 + 10 + 0x10 + 4`. -/
theorem displacement_resolution_witness :
    (FindPattern 5000 demoImage 0x140000000 "40 53 ? 83 EC 20" 0 0
        = some (0x140000000 + 4096)
      ∧ ScanAndResolve 5000 demoImage 0x140000000
          (some ⟨"GObjects", "40 53 ? 83 EC 20", 0, 0⟩) = some (0x140000000 + 4096))
    ∧ (FindPattern 5000 demoImage 0x140000000 "40 53 ? 83 EC 20" 10 0
        = some (0x140000000 + 4096 + 10 + 0x10 + 4)
      ∧ ScanAndResolve 5000 demoImage 0x140000000
          (some ⟨"GObjects", "40 53 ? 83 EC 20", 10, 0⟩)
          = some (0x140000000 + 4096 + 10 + 0x10 + 4)) :=
by
  have h0 := displacement_resolution 5000 demoImage 0x140000000
    ⟨"GObjects", "40 53 ? 83 EC 20", 0, 0⟩ (0x140000000 + 4096) findPatternRaw_demo (by decide)
  have h1 := displacement_resolution 5000 demoImage 0x140000000
    ⟨"GObjects", "40 53 ? 83 EC 20", 10, 0⟩ (0x140000000 + 4096) findPatternRaw_demo (by decide)
  have v0 : wrap64 ((if (0 : Int) ≠ 0 then
      ((0x140000000 + 4096 : Nat) : Int) + 0
        + readI32 demoImage (wrap64 (((0x140000000 + 4096 : Nat) : Int) + 0)) + 4
      else ((0x140000000 + 4096 : Nat) : Int)) + 0) = 0x140000000 + 4096 := by decide!
  have v1 : wrap64 ((if (10 : Int) ≠ 0 then
      ((0x140000000 + 4096 : Nat) : Int) + 10
        + readI32 demoImage (wrap64 (((0x140000000 + 4096 : Nat) : Int) + 10)) + 4
      else ((0x140000000 + 4096 : Nat) : Int)) + 0) = 0x140000000 + 4096 + 10 + 0x10 + 4 := by
    decide!
  have t0 : toInt64 (0x140000000 + 4096) = 0x140000000 + 4096 := by decide!
  have t1 : toInt64 (0x140000000 + 4096 + 10 + 0x10 + 4) = 0x140000000 + 4096 + 10 + 0x10 + 4 := by
    decide!
  simp only [v0, v1, t0, t1] at h0 h1
  exact ⟨h0, h1⟩

/-! ## Properties of the pattern parser -/

theorem hexDigitVal_lt {c : Char} {v : Nat} (h : hexDigitVal c = some v) : v < 16 := by
  unfold hexDigitVal at h
  split at h
  · rename_i hc
    have h1 : c.toNat ≤ 57 := hc.2
    cases h
    omega
  · split at h
    · rename_i hc
      have h1 : c.toNat ≤ 102 := hc.2
      cases h
      omega
    · split at h
      · rename_i hc
        have h1 : c.toNat ≤ 70 := hc.2
        cases h
        omega
      · cases h

theorem hexDigitVal_ne {c : Char} {v : Nat} (h : hexDigitVal c = some v) (d : Char)
    (hd : hexDigitVal d = none) : c ≠ d := by
  intro hcd
  rw [hcd, hd] at h
  cases h

theorem strtoul16_plain (s : List Char) (hws : s.takeWhile isSpaceC = [])
    (hsign : ¬ (s.head? = some '-' ∨ s.head? = some '+'))
    (hpre : ¬ (s.head? = some '0' ∧ (s[1]? = some 'x' ∨ s[1]? = some 'X')
      ∧ (s[2]?.bind hexDigitVal).isSome))
    (v n : Nat) (hdigits : readHexDigits s 0 0 = (v, n)) (hn : n ≠ 0) (hv : v < 2 ^ 32) :
    strtoul16 s = (v, n) := by
  have hminus : ¬ s.head? = some '-' := fun h => hsign (Or.inl h)
  have hv1 : ¬ v ≥ 2 ^ 32 := by omega
  simp only [strtoul16, hws, List.length_nil, List.drop_zero, if_neg hsign, if_neg hpre,
    hdigits, if_neg hn, if_neg hv1, if_neg hminus, Nat.zero_add, Nat.add_zero]

theorem isSpaceC_of_hex {c : Char} {v : Nat} (h : hexDigitVal c = some v) :
    isSpaceC c = false := by
  have h1 := hexDigitVal_ne h ' ' (by decide)
  have h2 := hexDigitVal_ne h '\t' (by decide)
  have h3 := hexDigitVal_ne h '\n' (by decide)
  have h4 := hexDigitVal_ne h '\x0b' (by decide)
  have h5 := hexDigitVal_ne h '\x0c' (by decide)
  have h6 := hexDigitVal_ne h '\r' (by decide)
  simp [isSpaceC, h1, h2, h3, h4, h5, h6]

theorem strtoul16_one (d : Char) (v : Nat) (tail : List Char)
    (hd : hexDigitVal d = some v) (htail : tail = [] ∨ ∃ more, tail = ' ' :: more) :
    strtoul16 (d :: tail) = (v, 1) := by
  have hv := hexDigitVal_lt hd
  have hm := hexDigitVal_ne hd '-' (by decide)
  have hp := hexDigitVal_ne hd '+' (by decide)
  have hsp : hexDigitVal ' ' = none := by decide
  apply strtoul16_plain
  · simp [List.takeWhile, isSpaceC_of_hex hd]
  · simp [hm, hp]
  · rcases htail with rfl | ⟨more, rfl⟩ <;> simp
  · rcases htail with rfl | ⟨more, rfl⟩ <;> simp [readHexDigits, hd, hsp]
  · decide
  · omega

theorem strtoul16_two (d1 d2 : Char) (v1 v2 : Nat) (tail : List Char)
    (hd1 : hexDigitVal d1 = some v1) (hd2 : hexDigitVal d2 = some v2)
    (htail : tail = [] ∨ ∃ more, tail = ' ' :: more) :
    strtoul16 (d1 :: d2 :: tail) = (v1 * 16 + v2, 2) := by
  have hv1 := hexDigitVal_lt hd1
  have hv2 := hexDigitVal_lt hd2
  have hm := hexDigitVal_ne hd1 '-' (by decide)
  have hp := hexDigitVal_ne hd1 '+' (by decide)
  have hx := hexDigitVal_ne hd2 'x' (by decide)
  have hX := hexDigitVal_ne hd2 'X' (by decide)
  have hsp : hexDigitVal ' ' = none := by decide
  apply strtoul16_plain
  · simp [List.takeWhile, isSpaceC_of_hex hd1]
  · simp [hm, hp]
  · simp [hx, hX]
  · rcases htail with rfl | ⟨more, rfl⟩ <;> simp [readHexDigits, hd1, hd2, hsp]
  · decide
  · omega

theorem parseFrom_nil : parseFrom [] = [] := by
  rw [parseFrom]

theorem parseFrom_cons (c : Char) (rest : List Char) :
    parseFrom (c :: rest) =
      if c = '?' then
        (-1) :: parseFrom (rest.drop (if rest.head? = some '?' then 2 else 1))
      else
        toInt32 (strtoul16 (c :: rest)).1 :: parseFrom (rest.drop (strtoul16 (c :: rest)).2) := by
  rw [parseFrom]

theorem toInt32_small {v : Nat} (h : v < 2 ^ 31) : toInt32 v = (v : Int) := by
  unfold toInt32
  have h1 : v % 2 ^ 32 = v := Nat.mod_eq_of_lt (by omega)
  rw [h1, if_pos h]

theorem isHexDigit_iff {c : Char} : isHexDigit c = true ↔ ∃ v, hexDigitVal c = some v := by
  unfold isHexDigit
  exact Option.isSome_iff_exists

/-- One conforming token at the head of the text, followed by the end of the text or by
a space: the parser emits its value and resumes after the space. -/
theorem parseFrom_token (t tail : List Char) (ht : IsPatternToken t)
    (htail : tail = [] ∨ ∃ more, tail = ' ' :: more) :
    parseFrom (t ++ tail) = tokenValue t :: parseFrom (tail.drop 1) := by
  have hq : ¬ tail.head? = some '?' := by
    rcases htail with rfl | ⟨more, rfl⟩ <;> simp
  rcases ht with rfl | rfl | ⟨hlen, hhex⟩
  · simp only [List.singleton_append, parseFrom_cons, if_true, if_neg hq]
    rfl
  · simp only [List.cons_append, List.nil_append, parseFrom_cons, if_true, List.head?_cons,
      List.drop_succ_cons]
    rfl
  · rcases hlen with hlen | hlen
    · obtain ⟨d, rfl⟩ := List.length_eq_one.mp hlen
      obtain ⟨v, hv⟩ := isHexDigit_iff.mp (hhex d (by simp))
      have hne := hexDigitVal_ne hv '?' (by decide)
      have hlt := hexDigitVal_lt hv
      simp only [List.singleton_append, parseFrom_cons, if_neg hne,
        strtoul16_one d v tail hv htail]
      rw [toInt32_small (by omega)]
      simp [tokenValue, hexValue, hne, hv]
    · obtain ⟨d1, d2, rfl⟩ := List.length_eq_two.mp hlen
      obtain ⟨v1, hv1⟩ := isHexDigit_iff.mp (hhex d1 (by simp))
      obtain ⟨v2, hv2⟩ := isHexDigit_iff.mp (hhex d2 (by simp))
      have hne := hexDigitVal_ne hv1 '?' (by decide)
      have hlt1 := hexDigitVal_lt hv1
      have hlt2 := hexDigitVal_lt hv2
      simp only [List.cons_append, List.nil_append, parseFrom_cons, if_neg hne,
        strtoul16_two d1 d2 v1 v2 tail hv1 hv2 htail, List.drop_succ_cons]
      rw [toInt32_small (by omega)]
      simp [tokenValue, hexValue, hne, hv1, hv2]

theorem parseFrom_joinTokens (ts : List (List Char)) (h : ∀ t ∈ ts, IsPatternToken t) :
    parseFrom (joinTokens ts) = ts.map tokenValue := by
  induction ts with
  | nil => simp [joinTokens, parseFrom_nil]
  | cons t rest ih =>
    cases rest with
    | nil =>
      have := parseFrom_token t [] (h t (by simp)) (Or.inl rfl)
      simpa [joinTokens, parseFrom_nil] using this
    | cons u rest =>
      have h1 := parseFrom_token t (' ' :: joinTokens (u :: rest)) (h t (by simp))
        (Or.inr ⟨_, rfl⟩)
      have h2 := ih (fun x hx => h x (List.mem_cons_of_mem _ hx))
      simp only [joinTokens, h1, List.drop_succ_cons, List.drop_zero, h2, List.map_cons]

theorem tokenValue_valid (t : List Char) (ht : IsPatternToken t) : ValidToken (tokenValue t) := by
  rcases ht with rfl | rfl | ⟨hlen, hhex⟩
  · left; rfl
  · left; rfl
  · right
    rcases hlen with hlen | hlen
    · obtain ⟨d, rfl⟩ := List.length_eq_one.mp hlen
      obtain ⟨v, hv⟩ := isHexDigit_iff.mp (hhex d (by simp))
      have hne := hexDigitVal_ne hv '?' (by decide)
      have hlt := hexDigitVal_lt hv
      simp only [tokenValue, hexValue, List.head?_cons, Option.some.injEq, hne, if_false,
        List.foldl_cons, List.foldl_nil, hv, Option.getD_some]
      omega
    · obtain ⟨d1, d2, rfl⟩ := List.length_eq_two.mp hlen
      obtain ⟨v1, hv1⟩ := isHexDigit_iff.mp (hhex d1 (by simp))
      obtain ⟨v2, hv2⟩ := isHexDigit_iff.mp (hhex d2 (by simp))
      have hne := hexDigitVal_ne hv1 '?' (by decide)
      have hlt1 := hexDigitVal_lt hv1
      have hlt2 := hexDigitVal_lt hv2
      simp only [tokenValue, hexValue, List.head?_cons, Option.some.injEq, hne, if_false,
        List.foldl_cons, List.foldl_nil, hv1, hv2, Option.getD_some]
      omega

theorem hexDigitVal_hexDigitChar (upper : Bool) (d : Nat) (hd : d < 16) :
    hexDigitVal (hexDigitChar upper d) = some d := by
  interval_cases d <;> cases upper <;> decide

theorem renderToken_isPatternToken (upper : Bool) (t : Int) (ht : ValidToken t) :
    IsPatternToken (renderToken upper t) := by
  unfold renderToken
  split
  · exact Or.inl rfl
  · right; right
    refine ⟨Or.inr rfl, ?_⟩
    intro c hc
    unfold ValidToken at ht
    have h1 : t.toNat / 16 < 16 := by omega
    have h2 : t.toNat % 16 < 16 := by omega
    simp only [List.mem_cons, List.mem_singleton, List.not_mem_nil, or_false] at hc
    rcases hc with rfl | rfl
    · exact isHexDigit_iff.mpr ⟨_, hexDigitVal_hexDigitChar upper _ h1⟩
    · exact isHexDigit_iff.mpr ⟨_, hexDigitVal_hexDigitChar upper _ h2⟩

theorem tokenValue_renderToken (upper : Bool) (t : Int) (ht : ValidToken t) :
    tokenValue (renderToken upper t) = t := by
  unfold renderToken
  split
  · rename_i hw
    rw [hw]
    rfl
  · rename_i hw
    unfold ValidToken at ht
    have h1 : t.toNat / 16 < 16 := by omega
    have h2 : t.toNat % 16 < 16 := by omega
    have hv1 := hexDigitVal_hexDigitChar upper _ h1
    have hv2 := hexDigitVal_hexDigitChar upper _ h2
    have hne := hexDigitVal_ne hv1 '?' (by decide)
    simp only [tokenValue, hexValue, List.head?_cons, Option.some.injEq, hne, if_false,
      List.foldl_cons, List.foldl_nil, hv1, hv2, Option.getD_some]
    omega

/-- C5: for a text made of conforming tokens (`?`, `??`, or one or two hexadecimal
digits) separated by exactly one space, `ParsePattern` returns one token per textual
token, in order: the wildcard for `?` and `??`, the base-16 value for a hexadecimal
token. -/
theorem parsePattern_conforming (ts : List (List Char))
    (hconf : ∀ t ∈ ts, IsPatternToken t) :
    ParsePattern (String.mk (joinTokens ts)) = ts.map tokenValue
      ∧ (ParsePattern (String.mk (joinTokens ts))).length = ts.length := by
  have h : ParsePattern (String.mk (joinTokens ts)) = ts.map tokenValue :=
    parseFrom_joinTokens ts hconf
  exact ⟨h, by rw [h, List.length_map]⟩

/-- C5, at the texts `48 8B ? ? 01` and `??` of the specification. -/
theorem parsePattern_conforming_witness :
    ParsePattern "48 8B ? ? 01" = [0x48, 0x8B, wildcard, wildcard, 0x01]
      ∧ ParsePattern "??" = [wildcard] := by
  have h1 := (parsePattern_conforming [['4', '8'], ['8', 'B'], ['?'], ['?'], ['0', '1']]
    (by
      intro t ht
      simp only [List.mem_cons, List.mem_singleton, List.not_mem_nil, or_false] at ht
      unfold IsPatternToken
      rcases ht with rfl | rfl | rfl | rfl | rfl <;> decide)).1
  have h2 := (parsePattern_conforming [['?', '?']]
    (by
      intro t ht
      simp only [List.mem_singleton] at ht
      subst ht
      exact Or.inr (Or.inl rfl))).1
  have e1 : String.mk (joinTokens [['4', '8'], ['8', 'B'], ['?'], ['?'], ['0', '1']])
      = "48 8B ? ? 01" := by decide
  have e2 : String.mk (joinTokens [['?', '?']]) = "??" := by decide
  have v1 : List.map tokenValue [['4', '8'], ['8', 'B'], ['?'], ['?'], ['0', '1']]
      = [0x48, 0x8B, wildcard, wildcard, 0x01] := by decide
  have v2 : List.map tokenValue [['?', '?']] = [wildcard] := by decide
  rw [e1, v1] at h1
  rw [e2, v2] at h2
  exact ⟨h1, h2⟩

/-- C6: canonical round trip. Rendering a sequence of valid tokens (two hexadecimal
digits per byte, in upper or in lower case, `?` per wildcard, single spaces between
tokens) and parsing the text gives the sequence back; the empty sequence included. -/
theorem render_parse_roundtrip (upper : Bool) (ts : List Int)
    (hvalid : ∀ t ∈ ts, ValidToken t) :
    ParsePattern (String.mk (render upper ts)) = ts := by
  have hconf : ∀ t ∈ ts.map (renderToken upper), IsPatternToken t := by
    intro t ht
    obtain ⟨x, hx, rfl⟩ := List.mem_map.mp ht
    exact renderToken_isPatternToken upper x (hvalid x hx)
  have h : ParsePattern (String.mk (render upper ts))
      = (ts.map (renderToken upper)).map tokenValue :=
    parseFrom_joinTokens _ hconf
  rw [h, List.map_map]
  calc ts.map (tokenValue ∘ renderToken upper) = ts.map id :=
        List.map_congr_left (fun x hx => tokenValue_renderToken upper x (hvalid x hx))
    _ = ts := List.map_id ts

/-- C6, at the sequence `[0x48, wildcard, 0xAB, 0x00]` in both letter cases. -/
theorem render_parse_roundtrip_witness :
    ParsePattern (String.mk (render true [0x48, wildcard, 0xAB, 0x00]))
        = [0x48, wildcard, 0xAB, 0x00]
      ∧ ParsePattern (String.mk (render false [0x48, wildcard, 0xAB, 0x00]))
        = [0x48, wildcard, 0xAB, 0x00]
      ∧ String.mk (render true [0x48, wildcard, 0xAB, 0x00]) = "48 ? AB 00"
      ∧ String.mk (render false [0x48, wildcard, 0xAB, 0x00]) = "48 ? ab 00" :=
  ⟨render_parse_roundtrip true [0x48, wildcard, 0xAB, 0x00] (by simp [ValidToken, wildcard]),
    render_parse_roundtrip false [0x48, wildcard, 0xAB, 0x00] (by simp [ValidToken, wildcard]),
    by decide, by decide⟩

/-- C7 as stated fails: the text `100` (three hexadecimal digits) goes through `strtoul`
whole and yields the single token 256, neither the wildcard nor a byte value. -/
theorem parsePattern_token_out_of_range :
    ParsePattern "100" = [256] ∧ ¬ ValidToken 256 := by
  constructor
  · simp [ParsePattern, parseFrom, strtoul16, readHexDigits, hexDigitVal, isSpaceC, toInt32]
  · simp [ValidToken, wildcard]

/-- C7, amended: for every text that conforms to the pattern grammar, every token that
`ParsePattern` returns is the wildcard or a literal byte value in `0..255`. -/
theorem parsePattern_tokens_valid (ts : List (List Char))
    (hconf : ∀ t ∈ ts, IsPatternToken t) :
    ∀ t ∈ ParsePattern (String.mk (joinTokens ts)), ValidToken t := by
  have h : ParsePattern (String.mk (joinTokens ts)) = ts.map tokenValue :=
    parseFrom_joinTokens ts hconf
  intro t ht
  rw [h] at ht
  obtain ⟨x, hx, rfl⟩ := List.mem_map.mp ht
  exact tokenValue_valid x (hconf x hx)

/-- C7 amended, at the text `FF ?? 7`: it parses to `[255, wildcard, 7]`, all valid. -/
theorem parsePattern_tokens_valid_witness :
    String.mk (joinTokens [['F', 'F'], ['?', '?'], ['7']]) = "FF ?? 7"
      ∧ ∀ t ∈ ParsePattern (String.mk (joinTokens [['F', 'F'], ['?', '?'], ['7']])),
          ValidToken t :=
  ⟨by decide,
    parsePattern_tokens_valid [['F', 'F'], ['?', '?'], ['7']]
      (by
        intro t ht
        simp only [List.mem_cons, List.mem_singleton, List.not_mem_nil, or_false] at ht
        unfold IsPatternToken
        rcases ht with rfl | rfl | rfl <;> decide)⟩

/-! ## Properties of the signature decoder -/

theorem wrap32_natCast {x : Nat} (h : x < 2 ^ 32) : wrap32 (x : Int) = x := by
  unfold wrap32
  omega

theorem groupIndices_eq (i : Nat) (h : i + 3 < 2 ^ 32) :
    groupIndices (i : Int) = ⟨i, i + 1, i + 2, i + 3⟩ := by
  have h0 : wrap32 (i : Int) = i := wrap32_natCast (by omega)
  simp only [groupIndices, _mm_add_epi32, _mm_shuffle_epi32, _mm_cvtsi32_si128, _mm_setr_epi32,
    M128.lane, h0]
  have e0 : wrap32 0 = 0 := by decide
  have e1 : wrap32 1 = 1 := by decide
  have e2 : wrap32 2 = 2 := by decide
  have e3 : wrap32 3 = 3 := by decide
  simp only [e0, e1, e2, e3]
  norm_num
  refine ⟨?_, ?_, ?_, ?_⟩ <;> omega

theorem magic_product (a : Nat) (ha : a < 2147483648) (ha0 : 0 < a) :
    (((a : Int) * (-1600085855)) % 18446744073709551616).toNat
      = 18446744073709551616 - 1600085855 * a := by
  omega

theorem magic_high (a : Nat) (ha : a < 2147483648) :
    ((18446744073709551616 - 1600085855 * a) / 4294967296 + a) % 4294967296
      = a * 2694881441 / 4294967296 := by
  have hN : 18446744073709551616 - 1600085855 * a
      = a * 2694881441 + 4294967296 * (4294967296 - a) := by omega
  rw [hN, Nat.add_mul_div_left _ _ (by decide)]
  omega

theorem magic_quotient (a : Nat) (ha : a < 2147483648) :
    a * 2694881441 / 4294967296 / 32 = a / 51 := by
  omega

theorem magic_shift (d : Nat) (hd : d < 2147483648) :
    wrap32 ((d : Int) / 2 ^ 5) = d / 32 := by
  unfold wrap32
  omega

theorem magic_remainder (a : Nat) (ha : a < 2147483648) :
    wrap32 ((a : Int) - (((a / 51 % 2 ^ 32 / 2 ^ 31 + a / 51) % 2 ^ 32 * 51 % 2 ^ 32 : Nat) : Int))
      = a % 51 := by
  have h1 : a / 51 % 2 ^ 32 = a / 51 := Nat.mod_eq_of_lt (by omega)
  have h2 : a / 51 / 2 ^ 31 = 0 := Nat.div_eq_of_lt (by omega)
  have h3 : (0 + a / 51) % 2 ^ 32 = a / 51 := by omega
  have h4 : a / 51 * 51 % 2 ^ 32 = a / 51 * 51 := Nat.mod_eq_of_lt (by omega)
  rw [h1, h2, h3, h4]
  unfold wrap32
  omega

/-- The multiply-high division by 51 on one lane: for an index below `2^31` the
sequence multiply-high, add, shift, sign correction, multiply and subtract leaves
`idx % 51`. -/
theorem magic_mod51 (a : Nat) (ha : a < 2 ^ 31) :
    wrap32 ((a : Int) -
      ((((wrap32 (toInt32 ((wrap64 (toInt32 a * toInt32 2694881441) / 2 ^ 32 + a) % 2 ^ 32)
            / 2 ^ 5)) % 2 ^ 32 / 2 ^ 31
          + wrap32 (toInt32 ((wrap64 (toInt32 a * toInt32 2694881441) / 2 ^ 32 + a) % 2 ^ 32)
            / 2 ^ 5)) % 2 ^ 32 * 51 % 2 ^ 32 : Nat) : Int)) = a % 51 := by
  have hm : toInt32 2694881441 = -1600085855 := by decide
  have hta : toInt32 a = (a : Int) := toInt32_small ha
  have ha1 : a < 2147483648 := by omega
  have hhi : (wrap64 ((a : Int) * -1600085855) / 2 ^ 32 + a) % 2 ^ 32
      = a * 2694881441 / 4294967296 := by
    rcases Nat.eq_zero_or_pos a with h0 | h0
    · subst h0
      decide
    · have h1 := magic_product a ha1 h0
      have h2 := magic_high a ha1
      unfold wrap64
      simp only [Nat.reducePow, Int.reducePow]
      rw [h1]
      exact h2
  have hlt : a * 2694881441 / 4294967296 < 2147483648 := by
    clear hhi hm hta
    omega
  rw [hm, hta, hhi, toInt32_small (by omega), magic_shift _ hlt, magic_quotient a ha1]
  exact magic_remainder a ha1

theorem groupRemainder_eq (a b c d : Nat) (ha : a < 2 ^ 31) (hb : b < 2 ^ 31) (hc : c < 2 ^ 31)
    (hd : d < 2 ^ 31) :
    groupRemainder ⟨a, b, c, d⟩ = ⟨a % 51, b % 51, c % 51, d % 51⟩ := by
  have e1 : wrap32 0xA0A0A0A1 = 2694881441 := by decide
  have e2 : wrap32 51 = 51 := by decide
  have e3 : shiftCount (_mm_cvtsi32_si128 5) = 5 := by decide
  have e4 : shiftCount (_mm_cvtsi32_si128 31) = 31 := by decide
  have e5 : min 5 31 = 5 := by decide
  have e6 : ¬ (31 > 31) := by decide
  have e7 : (221 % 4 = 1) ∧ (221 / 4 % 4 = 3) ∧ (221 / 16 % 4 = 1) ∧ (221 / 64 % 4 = 3) := by
    decide
  have n10 : ¬ ((1 : Nat) = 0) := by decide
  have n30 : ¬ ((3 : Nat) = 0) := by decide
  have n31 : ¬ ((3 : Nat) = 1) := by decide
  have n32 : ¬ ((3 : Nat) = 2) := by decide
  simp only [groupRemainder, _mm_sub_epi32, _mm_mullo_epi32, _mm_add_epi32, _mm_srl_epi32,
    _mm_sra_epi32, _mm_shuffle_ps, _mm_mul_epi32, _mm_unpacklo_epi32, _mm_unpackhi_epi32,
    _mm_set1_epi32, M128.lane, e1, e2, e3, e4, e5, e6, e7.1, e7.2.1, e7.2.2.1, e7.2.2.2, if_false,
    if_true, n10, n30, n31, n32, magic_mod51 a ha, magic_mod51 b hb, magic_mod51 c hc,
    magic_mod51 d hd]

/-- The key bytes of one group, as the 32-bit value stored to the buffer. -/
theorem groupKey_l0 :
    ∀ m, m < 51 →
      (groupKey ⟨m, (m + 1) % 51, (m + 2) % 51, (m + 3) % 51⟩).l0
        = (m + 52) + 256 * ((m + 1) % 51 + 52) + 65536 * ((m + 2) % 51 + 52)
          + 16777216 * ((m + 3) % 51 + 52) := by
  decide!

theorem xor_mod_two_pow (a b n : Nat) : (a ^^^ b) % 2 ^ n = a % 2 ^ n ^^^ b % 2 ^ n := by
  apply Nat.eq_of_testBit_eq
  intro i
  simp only [Nat.testBit_mod_two_pow, Nat.testBit_xor]
  by_cases h : i < n <;> simp [h]

theorem xor_div_two_pow (a b n : Nat) : (a ^^^ b) / 2 ^ n = a / 2 ^ n ^^^ b / 2 ^ n := by
  apply Nat.eq_of_testBit_eq
  intro i
  simp only [← Nat.shiftRight_eq_div_pow, Nat.testBit_shiftRight, Nat.testBit_xor]

theorem xor_byte (a b s : Nat) :
    (a ^^^ b) / 2 ^ s % 2 ^ 8 = (a / 2 ^ s % 2 ^ 8) ^^^ (b / 2 ^ s % 2 ^ 8) := by
  rw [xor_div_two_pow, xor_mod_two_pow]

theorem xor_byte0 (a b : Nat) : (a ^^^ b) % 256 = a % 256 ^^^ b % 256 :=
  xor_mod_two_pow a b 8

theorem xor_byte1 (a b : Nat) : (a ^^^ b) / 256 % 256 = (a / 256 % 256) ^^^ (b / 256 % 256) :=
  xor_byte a b 8

theorem xor_byte2 (a b : Nat) :
    (a ^^^ b) / 65536 % 256 = (a / 65536 % 256) ^^^ (b / 65536 % 256) :=
  xor_byte a b 16

theorem xor_byte3 (a b : Nat) :
    (a ^^^ b) / 16777216 % 256 = (a / 16777216 % 256) ^^^ (b / 16777216 % 256) :=
  xor_byte a b 24

theorem wrap32_toInt32 (x : Nat) : wrap32 (toInt32 x) = x % 2 ^ 32 := by
  unfold wrap32 toInt32
  split <;> omega

/-- The four bytes stored by one group: each is the key byte XOR the byte read. -/
theorem storeInt_xor (B : Buffer) (p k0 k1 k2 k3 : Nat) (h0 : k0 < 256) (h1 : k1 < 256)
    (h2 : k2 < 256) (h3 : k3 < 256) (key : M128)
    (hkey : key.l0 = k0 + 256 * k1 + 65536 * k2 + 16777216 * k3) :
    storeInt B p (_mm_cvtsi128_si32 (_mm_xor_si128 key (_mm_cvtsi32_si128 (loadInt B p))))
      = fun j =>
          if j = p + 3 then B (p + 3) % 256 ^^^ k3
          else if j = p + 2 then B (p + 2) % 256 ^^^ k2
          else if j = p + 1 then B (p + 1) % 256 ^^^ k1
          else if j = p then B p % 256 ^^^ k0
          else B j := by
  have hL : wrap32 (loadInt B p)
      = B p % 256 + 256 * (B (p + 1) % 256) + 65536 * (B (p + 2) % 256)
        + 16777216 * (B (p + 3) % 256) := by
    unfold loadInt
    rw [wrap32_toInt32]
    omega
  generalize hb0 : B p % 256 = b0 at hL
  generalize hb1 : B (p + 1) % 256 = b1 at hL
  generalize hb2 : B (p + 2) % 256 = b2 at hL
  generalize hb3 : B (p + 3) % 256 = b3 at hL
  have hb0l : b0 < 256 := by omega
  have hb1l : b1 < 256 := by omega
  have hb2l : b2 < 256 := by omega
  have hb3l : b3 < 256 := by omega
  generalize hK : k0 + 256 * k1 + 65536 * k2 + 16777216 * k3 = K at hkey
  generalize hLv : b0 + 256 * b1 + 65536 * b2 + 16777216 * b3 = L at hL
  have hKlt : K < 2 ^ 32 := by omega
  have hLlt : L < 2 ^ 32 := by omega
  have hX : (K ^^^ L) < 2 ^ 32 := Nat.xor_lt_two_pow hKlt hLlt
  have hw : wrap32 (_mm_cvtsi128_si32 (_mm_xor_si128 key (_mm_cvtsi32_si128 (loadInt B p))))
      = K ^^^ L := by
    simp only [_mm_cvtsi128_si32, _mm_xor_si128, _mm_cvtsi32_si128, hkey, hL, wrap32_toInt32]
    exact Nat.mod_eq_of_lt hX
  have x0 : (K ^^^ L) % 256 = b0 ^^^ k0 := by
    have e1 : K % 256 = k0 := by omega
    have e2 : L % 256 = b0 := by omega
    rw [xor_byte0, e1, e2, Nat.xor_comm]
  have x1 : (K ^^^ L) / 256 % 256 = b1 ^^^ k1 := by
    have e1 : K / 256 % 256 = k1 := by omega
    have e2 : L / 256 % 256 = b1 := by omega
    rw [xor_byte1, e1, e2, Nat.xor_comm]
  have x2 : (K ^^^ L) / 65536 % 256 = b2 ^^^ k2 := by
    have e1 : K / 65536 % 256 = k2 := by omega
    have e2 : L / 65536 % 256 = b2 := by omega
    rw [xor_byte2, e1, e2, Nat.xor_comm]
  have x3 : (K ^^^ L) / 16777216 % 256 = b3 ^^^ k3 := by
    have e1 : K / 16777216 % 256 = k3 := by omega
    have e2 : L / 16777216 % 256 = b3 := by omega
    rw [xor_byte3, e1, e2, Nat.xor_comm]
  funext j
  simp only [storeInt, hw, x0, x1, x2, x3, Function.update_apply]

theorem groupKey_at (i : Nat) (hi : i + 3 < 2 ^ 31) :
    (groupKey (groupRemainder (groupIndices (i : Int)))).l0
      = (i % 51 + 52) + 256 * ((i + 1) % 51 + 52) + 65536 * ((i + 2) % 51 + 52)
        + 16777216 * ((i + 3) % 51 + 52) := by
  rw [groupIndices_eq i (by omega),
    groupRemainder_eq i (i + 1) (i + 2) (i + 3) (by omega) (by omega) (by omega) (by omega)]
  have e1 : (i + 1) % 51 = (i % 51 + 1) % 51 := by omega
  have e2 : (i + 2) % 51 = (i % 51 + 2) % 51 := by omega
  have e3 : (i + 3) % 51 = (i % 51 + 3) % 51 := by omega
  rw [e1, e2, e3]
  exact groupKey_l0 (i % 51) (Nat.mod_lt _ (by decide))

/-- One group of the vectorised loop decodes the four bytes at `p .. p + 3`. -/
theorem storeGroup_eq (B : Buffer) (p : Nat) (hp : p + 3 < 2 ^ 31) :
    storeInt B p (_mm_cvtsi128_si32 (_mm_xor_si128 (groupKey (groupRemainder (groupIndices (p : Int))))
        (_mm_cvtsi32_si128 (loadInt B p))))
      = fun j => if p ≤ j ∧ j < p + 4 then B j % 256 ^^^ (j % 51 + 52) else B j := by
  rw [storeInt_xor B p (p % 51 + 52) ((p + 1) % 51 + 52) ((p + 2) % 51 + 52)
    ((p + 3) % 51 + 52) (by omega) (by omega) (by omega) (by omega) _ (groupKey_at p hp)]
  funext j
  by_cases h3 : j = p + 3
  · subst h3
    simp
  · by_cases h2 : j = p + 2
    · subst h2
      simp
    · by_cases h1 : j = p + 1
      · subst h1
        simp
      · by_cases h0 : j = p
        · subst h0
          simp
        · have hout : ¬ (p ≤ j ∧ j < p + 4) := by omega
          simp only [h3, h2, h1, h0, hout, if_false]

theorem decodeTo_zero (X : Buffer) : decodeTo X 0 = X := by
  funext j
  simp [decodeTo]

/-- One iteration of the vectorised loop takes the buffer decoded up to `i` to the
buffer decoded up to `i + 8`. -/
theorem simdStep_eq (X : Buffer) (i : Nat) (hi : i + 7 < 2 ^ 31) :
    storeInt
      (storeInt (decodeTo X i) i
        (_mm_cvtsi128_si32 (_mm_xor_si128 (groupKey (groupRemainder (groupIndices (i : Int))))
          (_mm_cvtsi32_si128 (loadInt (decodeTo X i) i)))))
      (i + 4)
      (_mm_cvtsi128_si32 (_mm_xor_si128
        (groupKey (groupRemainder (groupIndices ((i : Int) + 4))))
        (_mm_cvtsi32_si128 (loadInt
          (storeInt (decodeTo X i) i
            (_mm_cvtsi128_si32 (_mm_xor_si128
              (groupKey (groupRemainder (groupIndices (i : Int))))
              (_mm_cvtsi32_si128 (loadInt (decodeTo X i) i))))) (i + 4)))))
      = decodeTo X (i + 8) := by
  have hcast : (i : Int) + 4 = ((i + 4 : Nat) : Int) := by omega
  rw [hcast, storeGroup_eq (decodeTo X i) i (by omega), storeGroup_eq _ (i + 4) (by omega)]
  funext j
  simp only [decodeTo]
  rcases Nat.lt_or_ge j i with r1 | r1
  · have a : ¬ i + 4 ≤ j := by omega
    have c : ¬ i ≤ j := by omega
    have f : j < i + 8 := by omega
    simp only [a, c, r1, f, false_and, if_false, if_true]
  · rcases Nat.lt_or_ge j (i + 4) with r2 | r2
    · have a : ¬ i + 4 ≤ j := by omega
      have e : ¬ j < i := by omega
      have f : j < i + 8 := by omega
      simp only [a, r1, r2, e, f, false_and, and_self, if_false, if_true]
    · rcases Nat.lt_or_ge j (i + 8) with r3 | r3
      · have b : j < i + 4 + 4 := by omega
        have d : ¬ j < i + 4 := by omega
        have e : ¬ j < i := by omega
        simp only [r2, b, r1, d, e, r3, and_self, and_false, if_false, if_true]
      · have b : ¬ j < i + 4 + 4 := by omega
        have d : ¬ j < i + 4 := by omega
        have e : ¬ j < i := by omega
        have f : ¬ j < i + 8 := by omega
        simp only [b, d, e, f, and_false, if_false]

theorem toInt32_wrap32_small (x : Int) (h0 : 0 ≤ x) (h1 : x < 2 ^ 31) :
    toInt32 (wrap32 x) = x := by
  unfold toInt32 wrap32
  have hx : (x % 2 ^ 32).toNat % 2 ^ 32 = x.toNat := by omega
  rw [hx]
  have hlt : x.toNat < 2 ^ 31 := by omega
  rw [if_pos hlt]
  omega

/-- The vectorised loop, started at a multiple `i` of the block size on the buffer
decoded up to `i`, returns after the full blocks below `length`, provided `length + 8`
is below `2^31` (no sum overflows) and the fuel covers the blocks. -/
theorem simdLoop_spec (X : Buffer) (length : Int) (hlen : length + 8 < 2 ^ 31) :
    ∀ fuel i : Nat, (length.toNat - i) / 8 < fuel → (i : Int) + 8 < 2 ^ 31 →
      simdLoop length fuel (decodeTo X i) (i : Int) (i + 4)
        = some (decodeTo X (i + 8 * ((length.toNat - i) / 8)),
            ((i + 8 * ((length.toNat - i) / 8) : Nat) : Int)) := by
  intro fuel
  induction fuel with
  | zero =>
    intro i hk _
    omega
  | succ k ih =>
    intro i hk hi
    have h8 : toInt32 (wrap32 ((i : Int) + 8)) = ((i + 8 : Nat) : Int) := by
      rw [toInt32_wrap32_small _ (by omega) (by omega)]
      omega
    have h4 : toInt32 (wrap32 ((i : Int) + 4)) = (i : Int) + 4 :=
      toInt32_wrap32_small _ (by omega) (by omega)
    by_cases hcond : ((i + 8 : Nat) : Int) ≤ length
    · rw [simdLoop, h8, h4, if_pos hcond]
      have hp1 : i + 4 + 8 - 12 = i := by omega
      have hp2 : i + 4 + 8 - 8 = i + 4 := by omega
      simp only [hp1, hp2]
      rw [simdStep_eq X i (by omega)]
      have hptr : i + 4 + 8 = (i + 8) + 4 := by omega
      rw [hptr, ih (i + 8) (by omega) (by omega)]
      have : i + 8 + 8 * ((length.toNat - (i + 8)) / 8) = i + 8 * ((length.toNat - i) / 8) := by
        omega
      rw [this]
    · rw [simdLoop, h8, if_neg hcond]
      have : i + 8 * ((length.toNat - i) / 8) = i := by omega
      rw [this]

/-- With the 32-bit reduction of `i + 8`, the vectorised loop does not return for a
length of `2^31 - 8` or more: every multiple of 8 that `i + 8` can take is at most
`2^31 - 8`. -/
theorem simdLoop_diverges (length : Int) (hlen : 2 ^ 31 - 8 ≤ length) :
    ∀ (fuel : Nat) (buffer : Buffer) (i : Int) (ptr : Nat), i % 8 = 0 →
      simdLoop length fuel buffer i ptr = none := by
  intro fuel
  induction fuel with
  | zero =>
    intro buffer i ptr _
    rfl
  | succ k ih =>
    intro buffer i ptr hi
    have hr : toInt32 (wrap32 (i + 8)) % 8 = 0 ∧ toInt32 (wrap32 (i + 8)) < 2 ^ 31 := by
      unfold toInt32 wrap32
      split <;> omega
    have hcond : toInt32 (wrap32 (i + 8)) ≤ length := by omega
    rw [simdLoop, if_pos hcond]
    exact ih _ _ _ hr.1

/-- The counter the vectorised loop returns is never negative: the scalar loop starts at
an index of the buffer. -/
theorem simdLoop_counter_nonneg (length : Int) :
    ∀ (fuel : Nat) (buffer : Buffer) (i : Int) (ptr : Nat) (r : Buffer × Int),
      0 ≤ i → i < 2 ^ 31 → i % 8 = 0 → (i = 0 ∨ i ≤ length) →
      simdLoop length fuel buffer i ptr = some r → 0 ≤ r.2 := by
  intro fuel
  induction fuel with
  | zero =>
    intro buffer i ptr r _ _ _ _ h
    simp [simdLoop] at h
  | succ k ih =>
    intro buffer i ptr r h0 h1 h8 hle h
    by_cases hcond : toInt32 (wrap32 (i + 8)) ≤ length
    · rw [simdLoop, if_pos hcond] at h
      by_cases hov : i + 8 < 2 ^ 31
      · have e : toInt32 (wrap32 (i + 8)) = i + 8 := toInt32_wrap32_small _ (by omega) hov
        rw [e] at hcond
        simp only [e] at h
        exact ih _ _ _ r (by omega) hov (by omega) (Or.inr hcond) h
      · have hlen : (2 : Int) ^ 31 - 8 ≤ length := by omega
        have hr : toInt32 (wrap32 (i + 8)) % 8 = 0 := by
          unfold toInt32 wrap32
          split <;> omega
        simp only [simdLoop_diverges length hlen _ _ _ _ hr] at h
        exact absurd h (by simp)
    · rw [simdLoop, if_neg hcond] at h
      have e : r = (buffer, i) := by
        injection h with h
        exact h.symm
      rw [e]
      exact h0

theorem scalarLoop_spec (X : Buffer) (length : Int) :
    ∀ k i : Nat, (length - (i : Int)).toNat ≤ k →
      scalarLoop length (decodeTo X i) i = decodeTo X (max i length.toNat) := by
  intro k
  induction k with
  | zero =>
    intro i hk
    have hcond : ¬ ((i : Int) < length) := by omega
    rw [scalarLoop, if_neg hcond]
    have : max i length.toNat = i := by omega
    rw [this]
  | succ k ih =>
    intro i hk
    by_cases hcond : (i : Int) < length
    · rw [scalarLoop, if_pos hcond]
      have hstep : Function.update (decodeTo X i) i
          ((decodeTo X i i % 256 ^^^ (i % 51 + 52) % 256) % 256) = decodeTo X (i + 1) := by
        funext j
        have hkey : (i % 51 + 52) % 256 = i % 51 + 52 := by omega
        have hx : X i % 256 ^^^ (i % 51 + 52) < 2 ^ 8 :=
          Nat.xor_lt_two_pow (by omega) (by omega)
        by_cases hj : j = i
        · subst hj
          simp only [Function.update_same, decodeTo, Nat.lt_irrefl, if_false, hkey,
            Nat.lt_succ_self, if_true, Nat.mod_mod]
          exact Nat.mod_eq_of_lt hx
        · simp only [Function.update_noteq hj, decodeTo]
          by_cases h1 : j < i
          · have h2 : j < i + 1 := by omega
            simp only [h1, h2, if_true]
          · have h2 : ¬ j < i + 1 := by omega
            simp only [h1, h2, if_false]
      rw [hstep, ih (i + 1) (by omega)]
      have : max (i + 1) length.toNat = max i length.toNat := by omega
      rw [this]
    · rw [scalarLoop, if_neg hcond]
      have : max i length.toNat = i := by omega
      rw [this]

/-- The vectorised loop decodes the `8 * (n / 8)` bytes of the full blocks. -/
theorem simdLoop_blocks (X : Buffer) (n fuel : Nat) (hn : n + 8 < 2 ^ 31) (hfuel : n / 8 < fuel) :
    simdLoop (n : Int) fuel X 0 4 = some (decodeTo X (8 * (n / 8)), ((8 * (n / 8) : Nat) : Int)) := by
  have hl : (n : Int).toNat = n := by omega
  have h := simdLoop_spec X (n : Int) (by omega) fuel 0 (by rw [hl]; omega) (by omega)
  rw [decodeTo_zero] at h
  have e : 0 + 8 * (((n : Int).toNat - 0) / 8) = 8 * (n / 8) := by
    rw [hl]
    omega
  rw [e] at h
  exact h

/-- The scalar loop, started on a buffer decoded up to `i <= n`, decodes up to `n`. -/
theorem scalarLoop_from (X : Buffer) (n i : Nat) (hi : i ≤ n) :
    scalarLoop (n : Int) (decodeTo X i) i = decodeTo X n := by
  rw [scalarLoop_spec X (n : Int) n i (by omega)]
  have : max i (n : Int).toNat = n := by omega
  rw [this]

/-- Both paths of `DecryptPattern` decode exactly the first `n` bytes; on the vectorised
path for `n + 8 < 2^31`, where no sum of the loop overflows. -/
theorem decryptPattern_eq (fuel : Nat) (isa : Int) (X : Buffer) (n : Nat) (hn : n < 2 ^ 31)
    (hsimd : isa ≥ 2 → n + 8 < 2 ^ 31) (hfuel : n / 8 < fuel) :
    DecryptPattern fuel isa X (n : Int) = some (decodeTo X n) := by
  unfold DecryptPattern
  by_cases hisa : isa ≥ 2
  · simp only [hisa, if_true, simdLoop_blocks X n fuel (hsimd hisa) hfuel, Int.toNat_ofNat]
    rw [scalarLoop_from X n _ (by omega)]
  · simp only [hisa, if_false]
    have h := scalarLoop_from X n 0 (by omega)
    rw [decodeTo_zero] at h
    simp only [Int.toNat_zero]
    rw [h]

theorem decodeTo_isBytes (X : Buffer) (n : Nat) : IsBytes (decodeTo X n) n := by
  intro i hi
  simp only [decodeTo, hi, if_true]
  have h1 : X i % 256 < 2 ^ 8 := by omega
  have h2 : i % 51 + 52 < 2 ^ 8 := by omega
  exact Nat.xor_lt_two_pow h1 h2

theorem decodeTo_decodeTo (X : Buffer) (n : Nat) (hX : IsBytes X n) :
    decodeTo (decodeTo X n) n = X := by
  funext i
  by_cases h : i < n
  · have hb := decodeTo_isBytes X n i h
    have hm : decodeTo X n i % 256 = decodeTo X n i := Nat.mod_eq_of_lt hb
    have hxi : X i % 256 = X i := Nat.mod_eq_of_lt (hX i h)
    have e1 : decodeTo (decodeTo X n) n i = decodeTo X n i % 256 ^^^ (i % 51 + 52) := by
      simp only [decodeTo, h, if_true]
    have e2 : decodeTo X n i = X i % 256 ^^^ (i % 51 + 52) := by
      simp only [decodeTo, h, if_true]
    rw [e1, hm, e2, hxi, Nat.xor_cancel_right]
  · simp only [decodeTo, h, if_false]

theorem encrypted_pattern_64_isBytes : IsBytes encrypted_pattern_64 64 := by
  decide

/-- C8: for a buffer whose first `n` elements are bytes and a length `0 <= n < 2^31`
(an `int`), `DecryptPattern` returns, on either path, the buffer in which byte `i` is
`byte i XOR ((i mod 51) + 52)` for every `i < n` and every byte at an index `>= n` is
unchanged. On the vectorised path (flag at least 2) the length satisfies `n + 8 < 2^31`,
so that the loop test `i + 8 <= length` does not overflow the `int`, and the fuel covers
the `n / 8` iterations of that loop. -/
theorem decryptPattern_bytes (fuel : Nat) (isa : Int) (X : Buffer) (n : Nat)
    (hX : IsBytes X n) (hn : n < 2 ^ 31) (hsimd : isa ≥ 2 → n + 8 < 2 ^ 31)
    (hfuel : n / 8 < fuel) :
    ∃ Y, DecryptPattern fuel isa X (n : Int) = some Y
      ∧ (∀ i, i < n → Y i = X i ^^^ (i % 51 + 52))
      ∧ (∀ i, n ≤ i → Y i = X i) := by
  refine ⟨decodeTo X n, decryptPattern_eq fuel isa X n hn hsimd hfuel, ?_, ?_⟩
  · intro i hi
    have hxi : X i % 256 = X i := Nat.mod_eq_of_lt (hX i hi)
    simp only [decodeTo, hi, if_true, hxi]
  · intro i hi
    have h : ¬ i < n := by omega
    simp only [decodeTo, h, if_false]

/-- C8, at the 64-byte blob of `hooks.cpp` with the vectorised path enabled. -/
theorem decryptPattern_bytes_witness :
    ∃ Y, DecryptPattern 9 2 encrypted_pattern_64 ((64 : Nat) : Int) = some Y
      ∧ (∀ i, i < 64 → Y i = encrypted_pattern_64 i ^^^ (i % 51 + 52))
      ∧ (∀ i, 64 ≤ i → Y i = encrypted_pattern_64 i) :=
  decryptPattern_bytes 9 2 encrypted_pattern_64 64 encrypted_pattern_64_isBytes (by decide)
    (by decide) (by decide)

/-- C9: the decoder is an involution. For a buffer whose first `n` elements are bytes
and a length `0 <= n < 2^31`, applying `DecryptPattern` twice with the same `n` (on either
path, each time) returns the original buffer byte for byte. When one of the two runs
takes the vectorised path (flag at least 2), the length satisfies `n + 8 < 2^31`, so that
the loop test `i + 8 <= length` does not overflow the `int`; the fuel covers the `n / 8`
iterations of that loop. -/
theorem decryptPattern_involution (fuel : Nat) (isa1 isa2 : Int) (X : Buffer) (n : Nat)
    (hX : IsBytes X n) (hn : n < 2 ^ 31) (hsimd : isa1 ≥ 2 ∨ isa2 ≥ 2 → n + 8 < 2 ^ 31)
    (hfuel : n / 8 < fuel) :
    ∃ Y, DecryptPattern fuel isa1 X (n : Int) = some Y
      ∧ DecryptPattern fuel isa2 Y (n : Int) = some X := by
  refine ⟨decodeTo X n, decryptPattern_eq fuel isa1 X n hn (fun h => hsimd (Or.inl h)) hfuel, ?_⟩
  rw [decryptPattern_eq fuel isa2 _ n hn (fun h => hsimd (Or.inr h)) hfuel,
    decodeTo_decodeTo X n hX]

/-- C9, at the 64-byte blob of `hooks.cpp`, decoded on the scalar path and again on the
vectorised path. -/
theorem decryptPattern_involution_witness :
    ∃ Y, DecryptPattern 9 0 encrypted_pattern_64 ((64 : Nat) : Int) = some Y
      ∧ DecryptPattern 9 2 Y ((64 : Nat) : Int) = some encrypted_pattern_64 :=
  decryptPattern_involution 9 0 2 encrypted_pattern_64 64 encrypted_pattern_64_isBytes
    (by decide) (by decide) (by decide)

/-- C10: for every buffer and every length `n` with `0 <= n` and `n + 8 < 2^31` (the
loop test `i + 8 <= length` does not overflow the `int`), `DecryptPattern` with the
vectorised path enabled (capability flag at least 2; the vector loop, with fuel for its
`n / 8` iterations, followed by the scalar loop on the remaining bytes) returns the same
buffer as the scalar loop alone (flag below 2). -/
theorem decryptPattern_simd_eq_scalar (fuel : Nat) (isa1 isa2 : Int) (h1 : isa1 ≥ 2)
    (h2 : isa2 < 2) (X : Buffer) (n : Nat) (hn : n + 8 < 2 ^ 31) (hfuel : n / 8 < fuel) :
    ∃ Y, DecryptPattern fuel isa1 X (n : Int) = some Y
      ∧ DecryptPattern fuel isa2 X (n : Int) = some Y
      ∧ Y = scalarLoop (n : Int) X 0 := by
  have hv : DecryptPattern fuel isa1 X (n : Int)
      = some (scalarLoop (n : Int) (decodeTo X (8 * (n / 8))) (8 * (n / 8))) := by
    simp only [DecryptPattern, h1, if_true, simdLoop_blocks X n fuel hn hfuel, Int.toNat_ofNat]
  have hs : DecryptPattern fuel isa2 X (n : Int) = some (scalarLoop (n : Int) X 0) := by
    have h2a : ¬ isa2 ≥ 2 := by omega
    simp only [DecryptPattern, h2a, if_false, Int.toNat_zero]
  have hscalar := scalarLoop_from X n 0 (by omega)
  rw [decodeTo_zero] at hscalar
  refine ⟨scalarLoop (n : Int) X 0, ?_, hs, rfl⟩
  rw [hv, hscalar, scalarLoop_from X n _ (by omega)]

/-- C10, at the 64-byte blob of `hooks.cpp` and the length 61 (seven vector iterations
and five scalar ones against 61 scalar ones). -/
theorem decryptPattern_simd_eq_scalar_witness :
    ∃ Y, DecryptPattern 8 2 encrypted_pattern_64 ((61 : Nat) : Int) = some Y
      ∧ DecryptPattern 8 0 encrypted_pattern_64 ((61 : Nat) : Int) = some Y
      ∧ Y = scalarLoop ((61 : Nat) : Int) encrypted_pattern_64 0 :=
  decryptPattern_simd_eq_scalar 8 2 0 (by decide) (by decide) encrypted_pattern_64 61
    (by decide) (by decide)

/-! ## Properties of the version registry and of the lookup -/

theorem findConfig_some_iff (configs : List VersionConfig) (v : Int) (p : VersionConfig) :
    findConfig configs v = some p ↔
      ∃ pre post, configs = pre ++ p :: post ∧ covers p v ∧ ∀ q ∈ pre, ¬ covers q v := by
  induction configs with
  | nil =>
    simp only [findConfig]
    constructor
    · intro h; cases h
    · rintro ⟨pre, post, h, _⟩
      cases pre <;> cases h
  | cons c rest ih =>
    simp only [findConfig]
    by_cases hc : covers c v
    · rw [if_pos hc]
      constructor
      · intro h
        cases h
        exact ⟨[], rest, rfl, hc, fun q hq => by cases hq⟩
      · rintro ⟨pre, post, h, hp, hpre⟩
        cases pre with
        | nil =>
          simp only [List.nil_append, List.cons.injEq] at h
          rw [h.1]
        | cons a pre =>
          simp only [List.cons_append, List.cons.injEq] at h
          exact absurd (h.1 ▸ hc) (hpre a (List.mem_cons_self _ _))
    · rw [if_neg hc, ih]
      constructor
      · rintro ⟨pre, post, h, hp, hpre⟩
        refine ⟨c :: pre, post, by rw [h]; rfl, hp, ?_⟩
        intro q hq
        rcases List.mem_cons.mp hq with rfl | hq
        · exact hc
        · exact hpre q hq
      · rintro ⟨pre, post, h, hp, hpre⟩
        cases pre with
        | nil =>
          simp only [List.nil_append, List.cons.injEq] at h
          exact absurd (h.1 ▸ hp) hc
        | cons a pre =>
          simp only [List.cons_append, List.cons.injEq] at h
          exact ⟨pre, post, h.2, hp, fun q hq => hpre q (List.mem_cons_of_mem _ hq)⟩

theorem findConfig_none_iff (configs : List VersionConfig) (v : Int) :
    findConfig configs v = none ↔ ∀ q ∈ configs, ¬ covers q v := by
  induction configs with
  | nil => simp [findConfig]
  | cons c rest ih =>
    simp only [findConfig]
    by_cases hc : covers c v
    · rw [if_pos hc]
      constructor
      · intro h; cases h
      · intro h
        exact absurd hc (h c (List.mem_cons_self _ _))
    · rw [if_neg hc, ih]
      constructor
      · intro h q hq
        rcases List.mem_cons.mp hq with rfl | hq
        · exact hc
        · exact h q hq
      · intro h q hq
        exact h q (List.mem_cons_of_mem _ hq)

theorem findConfig_mem (configs : List VersionConfig) (v : Int) (p : VersionConfig)
    (h : findConfig configs v = some p) : p ∈ configs ∧ covers p v := by
  obtain ⟨pre, post, hl, hp, _⟩ := (findConfig_some_iff configs v p).mp h
  rw [hl]
  exact ⟨by simp, hp⟩

theorem initializePatterns_unsupported (fuel : Nat) (mem : Memory) (gameModule : Nat)
    (configs : List VersionConfig) (boxResult : Int) (g : Globals)
    (h : findConfig configs g.dword_18004FDE0 = none) :
    InitializePatterns fuel mem gameModule configs boxResult g
      = some ⟨g, (if g.dword_18004FDE0 = 0 then ["EngineVersion is NULL"] else [])
          ++ ["Unsupported version!"], boxResult⟩ := by
  simp only [InitializePatterns, h]

/-- The texts of the message boxes of a call that found a profile: none of them is the
text of the unsupported-version box. -/
theorem scanAndResolve_box_texts (fuel : Nat) (mem : Memory) (module : Nat)
    (entry : Option PatternEntry) (m : List String)
    (h : ScanAndResolve_box fuel mem module entry = some m) :
    ∀ t ∈ m, t = "Rift cannot start due to a pattern mismatch. Please try another version." := by
  intro t ht
  cases entry with
  | none =>
    simp only [ScanAndResolve_box, Option.some.injEq] at h
    subst h
    cases ht
  | some e =>
    simp only [ScanAndResolve_box, Option.map_eq_some'] at h
    obtain ⟨addr, _, rfl⟩ := h
    split at ht
    · simpa using ht
    · cases ht

theorem missingBox_texts (entry : Option PatternEntry) :
    ∀ t ∈ missingBox entry, t = "Failed to find PatternLink" ∧ entry = none := by
  intro t ht
  unfold missingBox at ht
  split at ht
  · rename_i hnone
    exact ⟨by simpa using ht, Option.isNone_iff_eq_none.mp hnone⟩
  · cases ht

theorem validationBoxes_texts (g : Globals) :
    ∀ t ∈ validationBoxes g, t = "An error has occured." := by
  intro t ht
  simp only [validationBoxes, List.mem_append] at ht
  rcases ht with (((ht | ht) | ht) | ht) | ht <;>
    · split at ht
      · simpa using ht
      · cases ht

theorem scanAndResolve_box_of_some (fuel : Nat) (mem : Memory) (module : Nat)
    (entry : Option PatternEntry) (a : Int)
    (h : ScanAndResolve fuel mem module entry = some a) :
    ∃ m, ScanAndResolve_box fuel mem module entry = some m := by
  cases entry with
  | none => exact ⟨[], rfl⟩
  | some e =>
    simp only [ScanAndResolve, Option.map_eq_some'] at h
    obtain ⟨addr, haddr, _⟩ := h
    simp only [ScanAndResolve_box, haddr, Option.map_some']
    exact ⟨_, rfl⟩

/-- The resolution loop, unfolded: when it returns, each of the five globals holds the
value of its own `ScanAndResolve` call. -/
theorem resolveRoles_some (fuel : Nat) (mem : Memory) (gameModule : Nat) (cfg : VersionConfig)
    (g : Globals) (r : Globals × List String)
    (h : resolveRoles fuel mem gameModule cfg g = some r) :
    ∃ a1 a2 a3 a4 a5 m1 m2 m3 m4 m5,
      ScanAndResolve fuel mem gameModule (FindPatternByName cfg "GObjects") = some a1
      ∧ ScanAndResolve fuel mem gameModule (FindPatternByName cfg "ProcessEvent") = some a2
      ∧ ScanAndResolve fuel mem gameModule (FindPatternByName cfg "FNameToString") = some a3
      ∧ ScanAndResolve fuel mem gameModule (FindPatternByName cfg "GWorld") = some a4
      ∧ ScanAndResolve fuel mem gameModule (FindPatternByName cfg "InputKey") = some a5
      ∧ ScanAndResolve_box fuel mem gameModule (FindPatternByName cfg "GObjects") = some m1
      ∧ ScanAndResolve_box fuel mem gameModule (FindPatternByName cfg "ProcessEvent") = some m2
      ∧ ScanAndResolve_box fuel mem gameModule (FindPatternByName cfg "FNameToString") = some m3
      ∧ ScanAndResolve_box fuel mem gameModule (FindPatternByName cfg "GWorld") = some m4
      ∧ ScanAndResolve_box fuel mem gameModule (FindPatternByName cfg "InputKey") = some m5
      ∧ r = ({ g with qword_18004FDD8 := a1, qword_18004FDE8 := a2, qword_18004FDC8 := a3,
                      qword_18004FDB0 := a4, qword_18004FDA8 := a5 },
          missingBox (FindPatternByName cfg "GObjects")
            ++ missingBox (FindPatternByName cfg "ProcessEvent")
            ++ missingBox (FindPatternByName cfg "FNameToString")
            ++ missingBox (FindPatternByName cfg "GWorld")
            ++ missingBox (FindPatternByName cfg "InputKey")
            ++ m1 ++ m2 ++ m3 ++ m4 ++ m5) := by
  simp only [resolveRoles, Option.bind_eq_some] at h
  obtain ⟨a1, h1, m1, b1, a2, h2, m2, b2, a3, h3, m3, b3, a4, h4, m4, b4, a5, h5, m5, b5, hr⟩ := h
  simp only [Option.some.injEq] at hr
  exact ⟨a1, a2, a3, a4, a5, m1, m2, m3, m4, m5, h1, h2, h3, h4, h5, b1, b2, b3, b4, b5, hr.symm⟩

/-- The resolution loop returns as soon as the five scans do. -/
theorem resolveRoles_of_scans (fuel : Nat) (mem : Memory) (gameModule : Nat)
    (cfg : VersionConfig) (g : Globals) (a1 a2 a3 a4 a5 : Int)
    (h1 : ScanAndResolve fuel mem gameModule (FindPatternByName cfg "GObjects") = some a1)
    (h2 : ScanAndResolve fuel mem gameModule (FindPatternByName cfg "ProcessEvent") = some a2)
    (h3 : ScanAndResolve fuel mem gameModule (FindPatternByName cfg "FNameToString") = some a3)
    (h4 : ScanAndResolve fuel mem gameModule (FindPatternByName cfg "GWorld") = some a4)
    (h5 : ScanAndResolve fuel mem gameModule (FindPatternByName cfg "InputKey") = some a5) :
    ∃ msgs, resolveRoles fuel mem gameModule cfg g
      = some ({ g with qword_18004FDD8 := a1, qword_18004FDE8 := a2, qword_18004FDC8 := a3,
                       qword_18004FDB0 := a4, qword_18004FDA8 := a5 }, msgs) := by
  obtain ⟨m1, b1⟩ := scanAndResolve_box_of_some _ _ _ _ _ h1
  obtain ⟨m2, b2⟩ := scanAndResolve_box_of_some _ _ _ _ _ h2
  obtain ⟨m3, b3⟩ := scanAndResolve_box_of_some _ _ _ _ _ h3
  obtain ⟨m4, b4⟩ := scanAndResolve_box_of_some _ _ _ _ _ h4
  obtain ⟨m5, b5⟩ := scanAndResolve_box_of_some _ _ _ _ _ h5
  simp only [resolveRoles, h1, h2, h3, h4, h5, b1, b2, b3, b4, b5, Option.some_bind]
  exact ⟨_, rfl⟩

/-- Every message box of a call that found a profile carries one of four texts, and
the text `Failed to find PatternLink` only when a role is missing from the profile. -/
theorem initializePatterns_texts (fuel : Nat) (mem : Memory) (gameModule : Nat)
    (configs : List VersionConfig) (boxResult : Int) (g : Globals) (cfg : VersionConfig)
    (r : InitResult)
    (hcfg : findConfig configs g.dword_18004FDE0 = some cfg)
    (h : InitializePatterns fuel mem gameModule configs boxResult g = some r) :
    ∀ t ∈ r.messages,
      t = "EngineVersion is NULL"
        ∨ (t = "Failed to find PatternLink" ∧ ∃ role ∈ roleNames, FindPatternByName cfg role = none)
        ∨ t = "Rift cannot start due to a pattern mismatch. Please try another version."
        ∨ t = "An error has occured." := by
  simp only [InitializePatterns, hcfg, Option.bind_eq_some, Option.map_eq_some'] at h
  obtain ⟨rr, hrr, g2, _, rfl⟩ := h
  obtain ⟨a1, a2, a3, a4, a5, m1, m2, m3, m4, m5, _, _, _, _, _, b1, b2, b3, b4, b5, rfl⟩ :=
    resolveRoles_some _ _ _ _ _ _ hrr
  intro t ht
  simp only [List.mem_append] at ht
  have hbox := fun e m hb => scanAndResolve_box_texts fuel mem gameModule e m hb t
  have hmiss : ∀ role ∈ roleNames, t ∈ missingBox (FindPatternByName cfg role) →
      t = "Failed to find PatternLink" ∧ ∃ role ∈ roleNames, FindPatternByName cfg role = none :=
    fun role hrole hm =>
      ⟨(missingBox_texts _ t hm).1, role, hrole, (missingBox_texts _ t hm).2⟩
  rcases ht with ((ht | ht) | ht) | ht
  · left
    split at ht
    · simpa using ht
    · cases ht
  · rcases ht with ((((((((ht | ht) | ht) | ht) | ht) | ht) | ht) | ht) | ht) | ht
    · exact Or.inr (Or.inl (hmiss "GObjects" (by simp [roleNames]) ht))
    · exact Or.inr (Or.inl (hmiss "ProcessEvent" (by simp [roleNames]) ht))
    · exact Or.inr (Or.inl (hmiss "FNameToString" (by simp [roleNames]) ht))
    · exact Or.inr (Or.inl (hmiss "GWorld" (by simp [roleNames]) ht))
    · exact Or.inr (Or.inl (hmiss "InputKey" (by simp [roleNames]) ht))
    · exact Or.inr (Or.inr (Or.inl (hbox _ _ b1 ht)))
    · exact Or.inr (Or.inr (Or.inl (hbox _ _ b2 ht)))
    · exact Or.inr (Or.inr (Or.inl (hbox _ _ b3 ht)))
    · exact Or.inr (Or.inr (Or.inl (hbox _ _ b4 ht)))
    · exact Or.inr (Or.inr (Or.inl (hbox _ _ b5 ht)))
  · exact Or.inr (Or.inr (Or.inr (validationBoxes_texts _ t ht)))
  · right; right; right
    split at ht
    · simpa using ht
    · cases ht

theorem findEntry_eq_some_iff (l : List PatternEntry) (name : String) (e : PatternEntry)
    (hnodup : (l.map (fun x => x.name)).Nodup) :
    findEntry l name = some e ↔ e ∈ l ∧ e.name = name := by
  induction l with
  | nil => simp [findEntry]
  | cons a rest ih =>
    simp only [List.map_cons, List.nodup_cons, List.mem_map, not_exists, not_and] at hnodup
    simp only [findEntry]
    by_cases ha : a.name = name
    · rw [if_pos ha]
      constructor
      · intro h
        cases h
        exact ⟨List.mem_cons_self _ _, ha⟩
      · rintro ⟨hmem, hname⟩
        rcases List.mem_cons.mp hmem with rfl | hmem
        · rfl
        · exact absurd (hname.trans ha.symm) (hnodup.1 e hmem)
    · rw [if_neg ha, ih hnodup.2]
      constructor
      · rintro ⟨hmem, hname⟩
        exact ⟨List.mem_cons_of_mem _ hmem, hname⟩
      · rintro ⟨hmem, hname⟩
        rcases List.mem_cons.mp hmem with rfl | hmem
        · exact absurd hname ha
        · exact ⟨hmem, hname⟩

/-- C11: the lookup of `InitializePatterns` selects the first profile, in collection
order, whose range `[version_min, version_max]` holds the version; when no profile
holds it the call returns with the box `Unsupported version!`, and a call that returns
shows that box exactly when no profile holds the version. -/
theorem lookup_first_match (configs : List VersionConfig) (g : Globals) :
    (∀ p, findConfig configs g.dword_18004FDE0 = some p ↔
        ∃ pre post, configs = pre ++ p :: post ∧ covers p g.dword_18004FDE0
          ∧ ∀ q ∈ pre, ¬ covers q g.dword_18004FDE0)
      ∧ (∀ fuel mem gameModule boxResult,
          (∀ q ∈ configs, ¬ covers q g.dword_18004FDE0) →
            ∃ r, InitializePatterns fuel mem gameModule configs boxResult g = some r
              ∧ "Unsupported version!" ∈ r.messages)
      ∧ (∀ fuel mem gameModule boxResult r,
          InitializePatterns fuel mem gameModule configs boxResult g = some r →
            ("Unsupported version!" ∈ r.messages ↔
              ∀ q ∈ configs, ¬ covers q g.dword_18004FDE0)) := by
  refine ⟨fun p => findConfig_some_iff configs _ p, ?_, ?_⟩
  · intro fuel mem gameModule boxResult hnone
    have h := (findConfig_none_iff configs _).mpr hnone
    exact ⟨_, initializePatterns_unsupported fuel mem gameModule configs boxResult g h,
      by simp⟩
  · intro fuel mem gameModule boxResult r hr
    rw [← findConfig_none_iff]
    cases hcfg : findConfig configs g.dword_18004FDE0 with
    | none =>
      rw [initializePatterns_unsupported fuel mem gameModule configs boxResult g hcfg] at hr
      cases hr
      simp
    | some cfg =>
      constructor
      · intro hmem
        have h := initializePatterns_texts fuel mem gameModule configs boxResult g cfg r hcfg hr
          _ hmem
        rcases h with h | ⟨h, _⟩ | h | h <;> exact absurd h (by decide)
      · intro h
        cases h

/-- C12: for each of the nine built-in profiles, the lookup at its `version_min` and at
its `version_max` returns that very profile. -/
theorem builtin_bounds_resolve :
    InitVersionConfigs.length = 9
      ∧ ∀ cfg ∈ InitVersionConfigs,
          findConfig InitVersionConfigs cfg.version_min = some cfg
            ∧ findConfig InitVersionConfigs cfg.version_max = some cfg := by
  decide!

/-- C13: with the built-in registry every profile lies within `3700114 .. 15727376`,
both bounds are supported, and for the versions 3700113 and 15727377 the lookup finds
no profile: `InitializePatterns` shows `Unsupported version!` and returns. -/
theorem builtin_out_of_range_unsupported :
    (∀ cfg ∈ InitVersionConfigs, 3700114 ≤ cfg.version_min ∧ cfg.version_max ≤ 15727376)
      ∧ (findConfig InitVersionConfigs 3700114).isSome = true
      ∧ (findConfig InitVersionConfigs 15727376).isSome = true
      ∧ findConfig InitVersionConfigs 3700113 = none
      ∧ findConfig InitVersionConfigs 15727377 = none
      ∧ (∀ fuel mem gameModule boxResult (g : Globals),
          InitializePatterns fuel mem gameModule InitVersionConfigs boxResult
              { g with dword_18004FDE0 := 3700113 }
            = some ⟨{ g with dword_18004FDE0 := 3700113 }, ["Unsupported version!"], boxResult⟩)
      ∧ (∀ fuel mem gameModule boxResult (g : Globals),
          InitializePatterns fuel mem gameModule InitVersionConfigs boxResult
              { g with dword_18004FDE0 := 15727377 }
            = some ⟨{ g with dword_18004FDE0 := 15727377 }, ["Unsupported version!"],
                boxResult⟩) := by
  have hlo : findConfig InitVersionConfigs 3700113 = none := by decide!
  have hhi : findConfig InitVersionConfigs 15727377 = none := by decide!
  refine ⟨by decide!, by decide!, by decide!, hlo, hhi, ?_, ?_⟩
  · intro fuel mem gameModule boxResult g
    rw [initializePatterns_unsupported _ _ _ _ _ _ hlo]
    simp
  · intro fuel mem gameModule boxResult g
    rw [initializePatterns_unsupported _ _ _ _ _ _ hhi]
    simp

/-- C14: for a profile whose signatures have distinct role names, `FindPatternByName`
returns for every name the same entry (name, pattern text, displacement offset and
extra offset) on every permutation of the signature list. -/
theorem findPatternByName_perm (c1 c2 : VersionConfig)
    (hperm : c1.patterns.Perm c2.patterns)
    (hnodup : (c1.patterns.map (fun x => x.name)).Nodup) (name : String) :
    FindPatternByName c1 name = FindPatternByName c2 name := by
  have hnodup2 : (c2.patterns.map (fun x => x.name)).Nodup :=
    (List.Perm.nodup_iff (hperm.map _)).mp hnodup
  unfold FindPatternByName
  apply Option.ext
  intro e
  simp only [Option.mem_def]
  rw [findEntry_eq_some_iff _ _ _ hnodup, findEntry_eq_some_iff _ _ _ hnodup2, hperm.mem_iff]

/-- C14, at profile 9 and its rotation into the order of profiles 1-8: the two lists
differ, and every role resolves to the same entry in both. -/
theorem findPatternByName_perm_witness :
    profile9.patterns.map (fun x => x.name)
        = ["ProcessEvent", "FNameToString", "GWorld", "InputKey", "GObjects"]
      ∧ profile9_reordered.patterns.map (fun x => x.name) = roleNames
      ∧ (∀ cfg ∈ InitVersionConfigs.take 8, cfg.patterns.map (fun x => x.name) = roleNames)
      ∧ FindPatternByName profile9 "GObjects" = FindPatternByName profile9_reordered "GObjects"
      ∧ FindPatternByName profile9 "ProcessEvent"
          = FindPatternByName profile9_reordered "ProcessEvent"
      ∧ FindPatternByName profile9 "FNameToString"
          = FindPatternByName profile9_reordered "FNameToString"
      ∧ FindPatternByName profile9 "GWorld" = FindPatternByName profile9_reordered "GWorld"
      ∧ FindPatternByName profile9 "InputKey"
          = FindPatternByName profile9_reordered "InputKey" := by
  have hperm : profile9.patterns.Perm profile9_reordered.patterns := by
    have h : profile9.patterns = profile9.patterns.take 4 ++ profile9.patterns.drop 4 :=
      (List.take_append_drop 4 _).symm
    rw [h]
    exact List.perm_append_comm
  have hnodup : (profile9.patterns.map (fun x => x.name)).Nodup := by decide!
  exact ⟨by decide!, by decide!, by decide!,
    findPatternByName_perm profile9 profile9_reordered hperm hnodup "GObjects",
    findPatternByName_perm profile9 profile9_reordered hperm hnodup "ProcessEvent",
    findPatternByName_perm profile9 profile9_reordered hperm hnodup "FNameToString",
    findPatternByName_perm profile9 profile9_reordered hperm hnodup "GWorld",
    findPatternByName_perm profile9 profile9_reordered hperm hnodup "InputKey"⟩

/-- C15: each of the nine profiles built by `InitVersionConfigs` holds exactly five
signatures, whose names are the five roles, one each; so for every supported version
`FindPatternByName` finds every role, and a call of `InitializePatterns` on the
built-in registry never shows `Failed to find PatternLink`. -/
theorem builtin_profiles_have_five_roles :
    InitVersionConfigs.length = 9
      ∧ (∀ cfg ∈ InitVersionConfigs,
          cfg.patterns.length = 5
            ∧ (cfg.patterns.map (fun x => x.name)).Perm roleNames
            ∧ ∀ role ∈ roleNames, (FindPatternByName cfg role).isSome = true)
      ∧ (∀ v cfg, findConfig InitVersionConfigs v = some cfg →
          ∀ role ∈ roleNames, ∃ e, FindPatternByName cfg role = some e ∧ e.name = role)
      ∧ (∀ fuel mem gameModule boxResult g r,
          InitializePatterns fuel mem gameModule InitVersionConfigs boxResult g = some r →
            "Failed to find PatternLink" ∉ r.messages) := by
  have hall : ∀ cfg ∈ InitVersionConfigs,
      cfg.patterns.length = 5
        ∧ (cfg.patterns.map (fun x => x.name)).Perm roleNames
        ∧ ∀ role ∈ roleNames, (FindPatternByName cfg role).isSome = true := by
    decide!
  have hnames : ∀ cfg ∈ InitVersionConfigs, ∀ role ∈ roleNames,
      ∃ e, FindPatternByName cfg role = some e ∧ e.name = role := by
    intro cfg hcfg role hrole
    have hsome := (hall cfg hcfg).2.2 role hrole
    obtain ⟨e, he⟩ := Option.isSome_iff_exists.mp hsome
    have hnodup : (cfg.patterns.map (fun x => x.name)).Nodup :=
      ((hall cfg hcfg).2.1.nodup_iff).mpr (by decide)
    exact ⟨e, he, ((findEntry_eq_some_iff _ _ _ hnodup).mp he).2⟩
  refine ⟨by decide, hall, ?_, ?_⟩
  · intro v cfg hv
    exact hnames cfg (findConfig_mem _ _ _ hv).1
  · intro fuel mem gameModule boxResult g r hr hmem
    cases hcfg : findConfig InitVersionConfigs g.dword_18004FDE0 with
    | none =>
      rw [initializePatterns_unsupported _ _ _ _ _ _ hcfg] at hr
      cases hr
      simp only [List.mem_append, List.mem_singleton] at hmem
      rcases hmem with hmem | hmem
      · split at hmem
        · simp at hmem
        · cases hmem
      · exact absurd hmem (by decide)
    | some cfg =>
      have h := initializePatterns_texts _ _ _ _ _ _ cfg r hcfg hr _ hmem
      rcases h with h | ⟨_, role, hrole, hnone⟩ | h | h
      · exact absurd h (by decide)
      · obtain ⟨e, he, _⟩ := hnames cfg (findConfig_mem _ _ _ hcfg).1 role hrole
        rw [he] at hnone
        cases hnone
      · exact absurd h (by decide)
      · exact absurd h (by decide)

/-- C16: the ranges of the nine built-in profiles are ascending and disjoint: each
profile ends below the start of every later one, so no version lies in the ranges of
two distinct profiles of the registry. -/
theorem builtin_ranges_disjoint :
    InitVersionConfigs.Pairwise (fun p q => p.version_max < q.version_min)
      ∧ InitVersionConfigs.Pairwise
          (fun p q => ∀ v : Int, ¬ (covers p v ∧ covers q v) ∧ ¬ (covers q v ∧ covers p v))
      ∧ (∀ p ∈ InitVersionConfigs, p.version_min ≤ p.version_max)
      ∧ (∀ p ∈ InitVersionConfigs, ∀ q ∈ InitVersionConfigs, p ≠ q →
          ∀ v : Int, ¬ (covers p v ∧ covers q v)) := by
  have hsorted : InitVersionConfigs.Pairwise (fun p q => p.version_max < q.version_min) := by
    decide!
  have hpair : InitVersionConfigs.Pairwise
      (fun p q => ∀ v : Int, ¬ (covers p v ∧ covers q v) ∧ ¬ (covers q v ∧ covers p v)) := by
    refine hsorted.imp ?_
    intro p q hpq v
    unfold covers
    constructor <;> intro h <;> omega
  refine ⟨hsorted, hpair, by decide!, ?_⟩
  have hall : ∀ p ∈ InitVersionConfigs, ∀ q ∈ InitVersionConfigs,
      (fun p q : VersionConfig => p ≠ q → ∀ v : Int, ¬ (covers p v ∧ covers q v)) p q := by
    refine List.Pairwise.forall_of_forall ?_ ?_ (hpair.imp ?_)
    · intro p q h hne v hv
      exact h (Ne.symm hne) v ⟨hv.2, hv.1⟩
    · intro p _ hne
      exact absurd rfl hne
    · intro p q h _ v
      exact (h v).1
  exact hall

/-- C17: when no profile covers the version, `InitializePatterns` returns, shows the
box `Unsupported version!`, and leaves the globals (the five resolved addresses and the
object-table descriptor among them) as they were. -/
theorem unsupported_leaves_state (fuel : Nat) (mem : Memory) (gameModule : Nat)
    (configs : List VersionConfig) (boxResult : Int) (g : Globals)
    (hnone : ∀ q ∈ configs, ¬ covers q g.dword_18004FDE0) :
    ∃ r, InitializePatterns fuel mem gameModule configs boxResult g = some r
      ∧ "Unsupported version!" ∈ r.messages
      ∧ r.globals = g := by
  have h := (findConfig_none_iff configs _).mpr hnone
  exact ⟨_, initializePatterns_unsupported fuel mem gameModule configs boxResult g h,
    by simp, rfl⟩

/-- C17, at the built-in registry and version 3700113 with every global set. -/
theorem unsupported_leaves_state_witness :
    ∃ r, InitializePatterns 0 smallImage 0x10000 InitVersionConfigs 1
        ⟨3700113, 11, 12, 13, 14, 15, some ⟨1, 16⟩⟩ = some r
      ∧ "Unsupported version!" ∈ r.messages
      ∧ r.globals = ⟨3700113, 11, 12, 13, 14, 15, some ⟨1, 16⟩⟩ :=
  unsupported_leaves_state 0 smallImage 0x10000 InitVersionConfigs 1
    ⟨3700113, 11, 12, 13, 14, 15, some ⟨1, 16⟩⟩ (by decide!)

/-! ## Properties of the resolution pipeline -/

theorem wrap64_wrap64_add (x y : Int) : wrap64 ((wrap64 x : Int) + y) = wrap64 (x + y) := by
  unfold wrap64
  omega

theorem wrap64_add_toInt64 (x y : Int) : wrap64 (x + toInt64 (wrap64 y)) = wrap64 (x + y) := by
  unfold wrap64 toInt64
  split <;> omega

theorem wrap64_mod (x : Int) : wrap64 x % 2 ^ 64 = wrap64 x := by
  unfold wrap64
  omega

theorem toInt64_wrap64_small (x : Int) (h0 : 0 ≤ x) (h1 : x < 2 ^ 63) :
    toInt64 (wrap64 x) = x := by
  unfold wrap64 toInt64
  split <;> omega

/-- The forward scan of the gated step, started at iteration `k` with the offsets below
`4k` already seen not to hold `-1`: with fuel for the remaining iterations it returns
the address of the least offset below 2048 whose 4-byte value is `-1`, or of offset
2047 when there is none. -/
theorem forwardScan_from (mem : Memory) (a : Int) :
    ∀ n k fuel : Nat, k + n = 512 → 1 ≤ n → n ≤ fuel →
      (∀ o : Nat, o < 4 * k → gateValue mem a o ≠ -1) →
      ∃ o : Nat, forwardScan mem (toInt64 (wrap64 (-2 - a))) fuel (wrap64 (a + 2 + 4 * (k : Int)))
            = some (wrap64 (a + (o : Int)))
        ∧ o < 2048 ∧ (∀ o1 : Nat, o1 < o → gateValue mem a o1 ≠ -1)
        ∧ (gateValue mem a o = -1 ∨ o = 2047) := by
  intro n
  induction n with
  | zero => intro k fuel _ h; omega
  | succ n ih =>
    intro k fuel hk _ hfuel hprev
    obtain ⟨fuel, rfl⟩ : ∃ f, fuel = f + 1 := ⟨fuel - 1, by omega⟩
    have e0 : wrap64 ((wrap64 (a + 2 + 4 * (k : Int)) : Int) - 2) = wrap64 (a + ((4 * k : Nat) : Int)) := by
      have := wrap64_wrap64_add (a + 2 + 4 * (k : Int)) (-2)
      rw [show ((wrap64 (a + 2 + 4 * (k : Int)) : Int) - 2)
        = (wrap64 (a + 2 + 4 * (k : Int)) : Int) + (-2) from by omega, this]
      congr 1
      omega
    have e1 : wrap64 ((wrap64 (a + 2 + 4 * (k : Int)) : Int) - 1)
        = wrap64 (a + ((4 * k + 1 : Nat) : Int)) := by
      have := wrap64_wrap64_add (a + 2 + 4 * (k : Int)) (-1)
      rw [show ((wrap64 (a + 2 + 4 * (k : Int)) : Int) - 1)
        = (wrap64 (a + 2 + 4 * (k : Int)) : Int) + (-1) from by omega, this]
      congr 1
      omega
    have e2 : wrap64 (a + 2 + 4 * (k : Int)) = wrap64 (a + ((4 * k + 2 : Nat) : Int)) := by
      congr 1
      omega
    have e3 : wrap64 ((wrap64 (a + 2 + 4 * (k : Int)) : Int) + 1)
        = wrap64 (a + ((4 * k + 3 : Nat) : Int)) := by
      rw [wrap64_wrap64_add]
      congr 1
      omega
    have e4 : wrap64 ((wrap64 (a + 2 + 4 * (k : Int)) : Int) + 4)
        = wrap64 (a + 2 + 4 * ((k + 1 : Nat) : Int)) := by
      rw [wrap64_wrap64_add]
      congr 1
      omega
    have e5 : toInt64 (wrap64 ((wrap64 (a + 2 + 4 * ((k + 1 : Nat) : Int)) : Int)
        + toInt64 (wrap64 (-2 - a)))) = 4 * ((k : Int) + 1) := by
      rw [wrap64_add_toInt64, wrap64_wrap64_add]
      have : a + 2 + 4 * ((k + 1 : Nat) : Int) + (-2 - a) = 4 * ((k : Int) + 1) := by omega
      rw [this]
      exact toInt64_wrap64_small _ (by omega) (by omega)
    simp only [forwardScan, e0, e1, e3, e4, e5]
    by_cases h0 : gateValue mem a (4 * k) = -1
    · have h0a : readI32 mem (wrap64 (a + ((4 * k : Nat) : Int))) = -1 := h0
      rw [if_pos h0a]
      exact ⟨4 * k, rfl, by omega, hprev, Or.inl h0⟩
    · have h0a : ¬ readI32 mem (wrap64 (a + ((4 * k : Nat) : Int))) = -1 := h0
      rw [if_neg h0a]
      by_cases h1 : gateValue mem a (4 * k + 1) = -1
      · have h1a : readI32 mem (wrap64 (a + ((4 * k + 1 : Nat) : Int))) = -1 := h1
        rw [if_pos h1a]
        refine ⟨4 * k + 1, rfl, by omega, ?_, Or.inl h1⟩
        intro o1 ho1
        rcases Nat.lt_succ_iff_lt_or_eq.mp ho1 with h | h
        · exact hprev o1 h
        · exact h ▸ h0
      · have h1a : ¬ readI32 mem (wrap64 (a + ((4 * k + 1 : Nat) : Int))) = -1 := h1
        rw [if_neg h1a]
        have hlt2 : ∀ o1, o1 < 4 * k + 2 → gateValue mem a o1 ≠ -1 := by
          intro o1 ho1
          rcases Nat.lt_succ_iff_lt_or_eq.mp ho1 with h | h
          · rcases Nat.lt_succ_iff_lt_or_eq.mp h with h | h
            · exact hprev o1 h
            · exact h ▸ h0
          · exact h ▸ h1
        rw [e2]
        by_cases h2 : gateValue mem a (4 * k + 2) = -1
        · have h2a : readI32 mem (wrap64 (a + ((4 * k + 2 : Nat) : Int))) = -1 := h2
          rw [if_pos h2a, wrap64_mod]
          exact ⟨4 * k + 2, rfl, by omega, hlt2, Or.inl h2⟩
        · have h2a : ¬ readI32 mem (wrap64 (a + ((4 * k + 2 : Nat) : Int))) = -1 := h2
          rw [if_neg h2a]
          have hlt3 : ∀ o1, o1 < 4 * k + 3 → gateValue mem a o1 ≠ -1 := by
            intro o1 ho1
            rcases Nat.lt_succ_iff_lt_or_eq.mp ho1 with h | h
            · exact hlt2 o1 h
            · exact h ▸ h2
          by_cases h3 : gateValue mem a (4 * k + 3) = -1
          · have h3a : readI32 mem (wrap64 (a + ((4 * k + 3 : Nat) : Int))) = -1 := h3
            rw [if_pos h3a]
            exact ⟨4 * k + 3, rfl, by omega, hlt3, Or.inl h3⟩
          · have h3a : ¬ readI32 mem (wrap64 (a + ((4 * k + 3 : Nat) : Int))) = -1 := h3
            rw [if_neg h3a]
            have hlt4 : ∀ o1, o1 < 4 * (k + 1) → gateValue mem a o1 ≠ -1 := by
              intro o1 ho1
              have ho1a : o1 < 4 * k + 3 + 1 := by omega
              rcases Nat.lt_succ_iff_lt_or_eq.mp ho1a with h | h
              · exact hlt3 o1 h
              · exact h ▸ h3
            by_cases hcont : 4 * ((k : Int) + 1) < 2048
            · rw [if_pos hcont]
              exact ih (k + 1) fuel (by omega) (by omega) (by omega) hlt4
            · rw [if_neg hcont]
              exact ⟨4 * k + 3, rfl, by omega, hlt3, Or.inr (by omega)⟩

theorem forwardScan_spec (mem : Memory) (a : Int) (fuel : Nat) (hfuel : 512 ≤ fuel) :
    ∃ o : Nat, forwardScan mem (toInt64 (wrap64 (-2 - a))) fuel (wrap64 (a + 2))
          = some (wrap64 (a + (o : Int)))
      ∧ o < 2048 ∧ (∀ o1 : Nat, o1 < o → gateValue mem a o1 ≠ -1)
      ∧ (gateValue mem a o = -1 ∨ o = 2047) := by
  have h := forwardScan_from mem a 512 0 fuel (by omega) (by omega) hfuel
    (fun o ho => absurd ho (by omega))
  simpa using h

theorem adjustGObjects_isSome (fuel : Nat) (mem : Memory) (g : Globals) (v89 backoff : Int)
    (type : Nat) (hfuel : 512 ≤ fuel) :
    ∃ base, adjustGObjects fuel mem g v89 backoff type
      = some { g with qword_18004FDD8 := base, qword_18004FDF0 := some ⟨type, base⟩ } := by
  obtain ⟨o, ho, _⟩ := forwardScan_spec mem v89 fuel hfuel
  simp only [adjustGObjects, ho, Option.map_some']
  exact ⟨_, rfl⟩

/-- The gated step returns, given fuel for the 512 iterations of the forward scan, and
changes at most the object-table address and the descriptor. -/
theorem gatedStep_isSome (fuel : Nat) (mem : Memory) (g : Globals) (v89 : Int)
    (hfuel : 512 ≤ fuel) :
    ∃ g2, gatedStep fuel mem g v89 = some g2
      ∧ g2.dword_18004FDE0 = g.dword_18004FDE0 ∧ g2.qword_18004FDE8 = g.qword_18004FDE8
      ∧ g2.qword_18004FDC8 = g.qword_18004FDC8 ∧ g2.qword_18004FDB0 = g.qword_18004FDB0
      ∧ g2.qword_18004FDA8 = g.qword_18004FDA8 := by
  unfold gatedStep
  simp only
  split
  · obtain ⟨base, h⟩ := adjustGObjects_isSome fuel mem g v89 24 1 hfuel
    exact ⟨_, h, rfl, rfl, rfl, rfl, rfl⟩
  · split
    · obtain ⟨base, h⟩ := adjustGObjects_isSome fuel mem g v89 32 2 hfuel
      exact ⟨_, h, rfl, rfl, rfl, rfl, rfl⟩
    · split
      · obtain ⟨base, h⟩ := adjustGObjects_isSome fuel mem g v89 16 2 hfuel
        exact ⟨_, h, rfl, rfl, rfl, rfl, rfl⟩
      · exact ⟨g, rfl, rfl, rfl, rfl, rfl, rfl⟩

/-- No branch of the gated step is taken for an `int` version from 4464155 on. -/
theorem gatedStep_high_version (fuel : Nat) (mem : Memory) (g : Globals) (v89 : Int)
    (hv : 4464155 ≤ g.dword_18004FDE0) (hint : g.dword_18004FDE0 < 2 ^ 31) :
    gatedStep fuel mem g v89 = some g := by
  have h1 : ¬ wrap32 (g.dword_18004FDE0 - 4204761) ≤ 0x2679 := by
    unfold wrap32
    omega
  have h2 : ¬ wrap32 (g.dword_18004FDE0 - 4225813) ≤ 0x397C8 := by
    unfold wrap32
    omega
  have h3 : ¬ g.dword_18004FDE0 < 4464155 := by omega
  simp only [gatedStep, h1, h2, h3, if_false]

/-- A call of `InitializePatterns` that found a profile, whose five scans return and
whose gated step returns: the final globals are those of the gated step. -/
theorem initializePatterns_of_scans (fuel : Nat) (mem : Memory) (gameModule : Nat)
    (configs : List VersionConfig) (boxResult : Int) (g g2 : Globals) (cfg : VersionConfig)
    (a1 a2 a3 a4 a5 : Int)
    (hcfg : findConfig configs g.dword_18004FDE0 = some cfg)
    (h1 : ScanAndResolve fuel mem gameModule (FindPatternByName cfg "GObjects") = some a1)
    (h2 : ScanAndResolve fuel mem gameModule (FindPatternByName cfg "ProcessEvent") = some a2)
    (h3 : ScanAndResolve fuel mem gameModule (FindPatternByName cfg "FNameToString") = some a3)
    (h4 : ScanAndResolve fuel mem gameModule (FindPatternByName cfg "GWorld") = some a4)
    (h5 : ScanAndResolve fuel mem gameModule (FindPatternByName cfg "InputKey") = some a5)
    (hgate : gatedStep fuel mem
      { g with qword_18004FDD8 := a1, qword_18004FDE8 := a2, qword_18004FDC8 := a3,
               qword_18004FDB0 := a4, qword_18004FDA8 := a5 } a1 = some g2) :
    ∃ msgs, InitializePatterns fuel mem gameModule configs boxResult g
      = some ⟨g2, msgs, toInt32 (wrap64 g2.qword_18004FDD8)⟩ := by
  obtain ⟨m, hm⟩ := resolveRoles_of_scans fuel mem gameModule cfg g a1 a2 a3 a4 a5 h1 h2 h3 h4 h5
  simp only [InitializePatterns, hcfg, hm, Option.some_bind, hgate, Option.map_some']
  exact ⟨_, rfl⟩

theorem scanAndResolve_eq_map (fuel : Nat) (mem : Memory) (module : Nat) (e : PatternEntry) :
    ScanAndResolve fuel mem module (some e)
      = (FindPatternRaw fuel mem module (ParsePattern e.pattern)).map (resolveFrom mem e) :=
  rfl

/-- The parser on a text that is the single-space join of its conforming tokens. -/
theorem parsePattern_of_split (s : String)
    (hjoin : joinTokens (splitTokens s.toList) = s.toList)
    (htok : ∀ t ∈ splitTokens s.toList, IsPatternToken t) :
    ParsePattern s = (splitTokens s.toList).map tokenValue := by
  have h := parseFrom_joinTokens (splitTokens s.toList) htok
  rw [hjoin] at h
  exact h

/-- Evaluation of `ScanAndResolve` from the outcome of the raw scan on the tokens of
the entry's pattern text. -/
theorem scanAndResolve_eval (fuel : Nat) (mem : Memory) (module : Nat) (e : PatternEntry)
    (addr : Nat) (a : Int)
    (hjoin : joinTokens (splitTokens e.pattern.toList) = e.pattern.toList)
    (htok : ∀ t ∈ splitTokens e.pattern.toList, IsPatternToken t)
    (hraw : FindPatternRaw fuel mem module ((splitTokens e.pattern.toList).map tokenValue)
      = some addr)
    (hval : resolveFrom mem e addr = a) :
    ScanAndResolve fuel mem module (some e) = some a := by
  rw [scanAndResolve_eq_map, parsePattern_of_split e.pattern hjoin htok, hraw, Option.map_some',
    hval]

/-- The five scans of profile 5 on the demonstration image: only `GWorld` matches. -/
theorem profile5_scans :
    ScanAndResolve 1000 resolveImage 0x10000 (FindPatternByName profile5 "GObjects") = some 0
      ∧ ScanAndResolve 1000 resolveImage 0x10000 (FindPatternByName profile5 "ProcessEvent")
          = some 0
      ∧ ScanAndResolve 1000 resolveImage 0x10000 (FindPatternByName profile5 "FNameToString")
          = some 0
      ∧ ScanAndResolve 1000 resolveImage 0x10000 (FindPatternByName profile5 "GWorld")
          = some 65655
      ∧ ScanAndResolve 1000 resolveImage 0x10000 (FindPatternByName profile5 "InputKey")
          = some 0 := by
  have e1 : FindPatternByName profile5 "GObjects"
      = some ⟨"GObjects", PAT_GOBJECTS_V3, 10, 0⟩ := by decide!
  have e2 : FindPatternByName profile5 "ProcessEvent"
      = some ⟨"ProcessEvent", PAT_PROCESSEVENT_V3, 0, 0⟩ := by decide!
  have e3 : FindPatternByName profile5 "FNameToString"
      = some ⟨"FNameToString", PAT_FNAMETOSTRING, 19, 0⟩ := by decide!
  have e4 : FindPatternByName profile5 "GWorld"
      = some ⟨"GWorld", PAT_GWORLD_V3, 3, 0⟩ := by decide!
  have e5 : FindPatternByName profile5 "InputKey"
      = some ⟨"InputKey", DecryptInputKeyBlob g_InputKeyBlob2 75, 0, 0⟩ := by decide!
  rw [e1, e2, e3, e4, e5]
  exact ⟨scanAndResolve_eval _ _ _ _ 0 0 (by decide!) (by decide!) (by decide!) (by decide!),
    scanAndResolve_eval _ _ _ _ 0 0 (by decide!) (by decide!) (by decide!) (by decide!),
    scanAndResolve_eval _ _ _ _ 0 0 (by decide!) (by decide!) (by decide!) (by decide!),
    scanAndResolve_eval _ _ _ _ (0x10000 + 96) 65655 (by decide!) (by decide!) (by decide!)
      (by decide!),
    scanAndResolve_eval _ _ _ _ 0 0 (by decide!) (by decide!) (by decide!) (by decide!)⟩

/-- C18: collect-all-errors. For a supported version, whatever the five scans return
(`a1 .. a5`, found or not), the resolution loop stores each role's own `ScanAndResolve`
value in that role's global; and `InitializePatterns` returns (given fuel for the forward
scan) with the four addresses other than the object table still equal to these values,
its final globals being those of the gated step run on the loop's result. -/
theorem resolution_independent (fuel : Nat) (mem : Memory) (gameModule : Nat)
    (configs : List VersionConfig) (boxResult : Int) (g : Globals) (cfg : VersionConfig)
    (a1 a2 a3 a4 a5 : Int)
    (hcfg : findConfig configs g.dword_18004FDE0 = some cfg)
    (h1 : ScanAndResolve fuel mem gameModule (FindPatternByName cfg "GObjects") = some a1)
    (h2 : ScanAndResolve fuel mem gameModule (FindPatternByName cfg "ProcessEvent") = some a2)
    (h3 : ScanAndResolve fuel mem gameModule (FindPatternByName cfg "FNameToString") = some a3)
    (h4 : ScanAndResolve fuel mem gameModule (FindPatternByName cfg "GWorld") = some a4)
    (h5 : ScanAndResolve fuel mem gameModule (FindPatternByName cfg "InputKey") = some a5)
    (hfuel : 512 ≤ fuel) :
    (∃ msgs, resolveRoles fuel mem gameModule cfg g
        = some ({ g with qword_18004FDD8 := a1, qword_18004FDE8 := a2, qword_18004FDC8 := a3,
                         qword_18004FDB0 := a4, qword_18004FDA8 := a5 }, msgs))
      ∧ ∃ r, InitializePatterns fuel mem gameModule configs boxResult g = some r
          ∧ r.globals.qword_18004FDE8 = a2 ∧ r.globals.qword_18004FDC8 = a3
          ∧ r.globals.qword_18004FDB0 = a4 ∧ r.globals.qword_18004FDA8 = a5
          ∧ gatedStep fuel mem
              { g with qword_18004FDD8 := a1, qword_18004FDE8 := a2, qword_18004FDC8 := a3,
                       qword_18004FDB0 := a4, qword_18004FDA8 := a5 } a1 = some r.globals := by
  refine ⟨resolveRoles_of_scans fuel mem gameModule cfg g a1 a2 a3 a4 a5 h1 h2 h3 h4 h5, ?_⟩
  obtain ⟨g2, hgate, _, hE8, hC8, hB0, hA8⟩ := gatedStep_isSome fuel mem
    { g with qword_18004FDD8 := a1, qword_18004FDE8 := a2, qword_18004FDC8 := a3,
             qword_18004FDB0 := a4, qword_18004FDA8 := a5 } a1 hfuel
  obtain ⟨msgs, hinit⟩ := initializePatterns_of_scans fuel mem gameModule configs boxResult g g2
    cfg a1 a2 a3 a4 a5 hcfg h1 h2 h3 h4 h5 hgate
  exact ⟨_, hinit, hE8, hC8, hB0, hA8, hgate⟩

/-- C18, at version 4464155 of the built-in registry on the demonstration image: the
`GWorld` scan succeeds (address `0x10077`) although the four other scans fail. -/
theorem resolution_independent_witness :
    (∃ msgs, resolveRoles 1000 resolveImage 0x10000 profile5 ⟨4464155, 0, 0, 0, 0, 0, none⟩
        = some (⟨4464155, 0, 0, 0, 65655, 0, none⟩, msgs))
      ∧ ∃ r, InitializePatterns 1000 resolveImage 0x10000 InitVersionConfigs 1
              ⟨4464155, 0, 0, 0, 0, 0, none⟩ = some r
          ∧ r.globals.qword_18004FDE8 = 0 ∧ r.globals.qword_18004FDC8 = 0
          ∧ r.globals.qword_18004FDB0 = 65655 ∧ r.globals.qword_18004FDA8 = 0
          ∧ gatedStep 1000 resolveImage ⟨4464155, 0, 0, 0, 65655, 0, none⟩ 0 = some r.globals :=
  resolution_independent 1000 resolveImage 0x10000 InitVersionConfigs 1
    ⟨4464155, 0, 0, 0, 0, 0, none⟩ profile5 0 0 0 65655 0 (by decide!)
    profile5_scans.1 profile5_scans.2.1 profile5_scans.2.2.1 profile5_scans.2.2.2.1
    profile5_scans.2.2.2.2 (by decide)

/-- C20: for a supported `int` version from 4464155 on, whatever the five scans
return, `InitializePatterns` returns with the object-table address equal to the value
resolved for `GObjects` by the resolution loop and with the descriptor pointer as it
was before the call (no discriminant is assigned). -/
theorem high_version_keeps_object_table (fuel : Nat) (mem : Memory) (gameModule : Nat)
    (configs : List VersionConfig) (boxResult : Int) (g : Globals) (cfg : VersionConfig)
    (a1 a2 a3 a4 a5 : Int)
    (hcfg : findConfig configs g.dword_18004FDE0 = some cfg)
    (h1 : ScanAndResolve fuel mem gameModule (FindPatternByName cfg "GObjects") = some a1)
    (h2 : ScanAndResolve fuel mem gameModule (FindPatternByName cfg "ProcessEvent") = some a2)
    (h3 : ScanAndResolve fuel mem gameModule (FindPatternByName cfg "FNameToString") = some a3)
    (h4 : ScanAndResolve fuel mem gameModule (FindPatternByName cfg "GWorld") = some a4)
    (h5 : ScanAndResolve fuel mem gameModule (FindPatternByName cfg "InputKey") = some a5)
    (hv : 4464155 ≤ g.dword_18004FDE0) (hint : g.dword_18004FDE0 < 2 ^ 31) :
    ∃ r, InitializePatterns fuel mem gameModule configs boxResult g = some r
      ∧ r.globals.qword_18004FDD8 = a1
      ∧ r.globals.qword_18004FDF0 = g.qword_18004FDF0 := by
  have hgate := gatedStep_high_version fuel mem
    { g with qword_18004FDD8 := a1, qword_18004FDE8 := a2, qword_18004FDC8 := a3,
             qword_18004FDB0 := a4, qword_18004FDA8 := a5 } a1 hv hint
  obtain ⟨msgs, hinit⟩ := initializePatterns_of_scans fuel mem gameModule configs boxResult g _
    cfg a1 a2 a3 a4 a5 hcfg h1 h2 h3 h4 h5 hgate
  exact ⟨_, hinit, rfl, rfl⟩

/-- C20, at version 4464155 of the built-in registry on the demonstration image, with
no descriptor before the call. -/
theorem high_version_keeps_object_table_witness :
    ∃ r, InitializePatterns 1000 resolveImage 0x10000 InitVersionConfigs 1
          ⟨4464155, 7, 0, 0, 0, 0, none⟩ = some r
      ∧ r.globals.qword_18004FDD8 = 0
      ∧ r.globals.qword_18004FDF0 = none :=
  high_version_keeps_object_table 1000 resolveImage 0x10000 InitVersionConfigs 1
    ⟨4464155, 7, 0, 0, 0, 0, none⟩ profile5 0 0 0 65655 0 (by decide!)
    profile5_scans.1 profile5_scans.2.1 profile5_scans.2.2.1 profile5_scans.2.2.2.1
    profile5_scans.2.2.2.2 (by decide) (by decide)

/-! ## Reports of the pipeline above the gated ranges -/

/-- A scan that resolves to a non-null address shows no message box: the entry was
found in the profile and `FindPatternRaw` matched. -/
theorem scanAndResolve_quiet (fuel : Nat) (mem : Memory) (module : Nat)
    (entry : Option PatternEntry) (a : Int)
    (h : ScanAndResolve fuel mem module entry = some a) (ha : a ≠ 0) :
    missingBox entry = [] ∧ ScanAndResolve_box fuel mem module entry = some [] := by
  cases entry with
  | none =>
    simp only [ScanAndResolve, Option.some.injEq] at h
    exact absurd h.symm ha
  | some e =>
    simp only [ScanAndResolve, Option.map_eq_some'] at h
    obtain ⟨addr, haddr, hres⟩ := h
    have hne : addr ≠ 0 := by
      intro h0
      rw [if_pos h0] at hres
      exact ha hres.symm
    simp only [ScanAndResolve_box, haddr, Option.map_some', if_neg hne]
    exact ⟨rfl, trivial⟩

/-- The message boxes of a call for a supported `int` version from 4464155 on whose
five roles resolve to non-null addresses: none but the box of the final descriptor
check, shown when the descriptor pointer is null. -/
theorem initializePatterns_high_messages (fuel : Nat) (mem : Memory) (gameModule : Nat)
    (configs : List VersionConfig) (boxResult : Int) (g : Globals) (cfg : VersionConfig)
    (a1 a2 a3 a4 a5 : Int)
    (hcfg : findConfig configs g.dword_18004FDE0 = some cfg)
    (h1 : ScanAndResolve fuel mem gameModule (FindPatternByName cfg "GObjects") = some a1)
    (h2 : ScanAndResolve fuel mem gameModule (FindPatternByName cfg "ProcessEvent") = some a2)
    (h3 : ScanAndResolve fuel mem gameModule (FindPatternByName cfg "FNameToString") = some a3)
    (h4 : ScanAndResolve fuel mem gameModule (FindPatternByName cfg "GWorld") = some a4)
    (h5 : ScanAndResolve fuel mem gameModule (FindPatternByName cfg "InputKey") = some a5)
    (n1 : a1 ≠ 0) (n2 : a2 ≠ 0) (n3 : a3 ≠ 0) (n4 : a4 ≠ 0) (n5 : a5 ≠ 0)
    (hv : 4464155 ≤ g.dword_18004FDE0) (hint : g.dword_18004FDE0 < 2 ^ 31) :
    InitializePatterns fuel mem gameModule configs boxResult g
      = some ⟨{ g with qword_18004FDD8 := a1, qword_18004FDE8 := a2, qword_18004FDC8 := a3,
                       qword_18004FDB0 := a4, qword_18004FDA8 := a5 },
          if g.qword_18004FDF0.isNone then ["An error has occured."] else [],
          toInt32 (wrap64 a1)⟩ := by
  obtain ⟨q1, b1⟩ := scanAndResolve_quiet _ _ _ _ _ h1 n1
  obtain ⟨q2, b2⟩ := scanAndResolve_quiet _ _ _ _ _ h2 n2
  obtain ⟨q3, b3⟩ := scanAndResolve_quiet _ _ _ _ _ h3 n3
  obtain ⟨q4, b4⟩ := scanAndResolve_quiet _ _ _ _ _ h4 n4
  obtain ⟨q5, b5⟩ := scanAndResolve_quiet _ _ _ _ _ h5 n5
  have hgate := gatedStep_high_version fuel mem
    { g with qword_18004FDD8 := a1, qword_18004FDE8 := a2, qword_18004FDC8 := a3,
             qword_18004FDB0 := a4, qword_18004FDA8 := a5 } a1 hv hint
  have hv0 : g.dword_18004FDE0 ≠ 0 := by omega
  simp only [InitializePatterns, hcfg, resolveRoles, h1, h2, h3, h4, h5, b1, b2, b3, b4, b5,
    q1, q2, q3, q4, q5, Option.some_bind, hgate, Option.map_some', validationBoxes,
    if_neg n1, if_neg n2, if_neg n3, if_neg n4, if_neg n5, if_neg hv0, List.append_nil,
    List.nil_append]

/-- The five scans of profile 5 on the image `fullImage`: every role resolves. -/
theorem profile5_scans_full :
    ScanAndResolve 5000 fullImage 0x10000 (FindPatternByName profile5 "GObjects") = some 65806
      ∧ ScanAndResolve 5000 fullImage 0x10000 (FindPatternByName profile5 "ProcessEvent")
          = some 65814
      ∧ ScanAndResolve 5000 fullImage 0x10000 (FindPatternByName profile5 "FNameToString")
          = some 65914
      ∧ ScanAndResolve 5000 fullImage 0x10000 (FindPatternByName profile5 "GWorld")
          = some 65921
      ∧ ScanAndResolve 5000 fullImage 0x10000 (FindPatternByName profile5 "InputKey")
          = some 65924 := by
  have e1 : FindPatternByName profile5 "GObjects"
      = some ⟨"GObjects", PAT_GOBJECTS_V3, 10, 0⟩ := by decide!
  have e2 : FindPatternByName profile5 "ProcessEvent"
      = some ⟨"ProcessEvent", PAT_PROCESSEVENT_V3, 0, 0⟩ := by decide!
  have e3 : FindPatternByName profile5 "FNameToString"
      = some ⟨"FNameToString", PAT_FNAMETOSTRING, 19, 0⟩ := by decide!
  have e4 : FindPatternByName profile5 "GWorld"
      = some ⟨"GWorld", PAT_GWORLD_V3, 3, 0⟩ := by decide!
  have e5 : FindPatternByName profile5 "InputKey"
      = some ⟨"InputKey", DecryptInputKeyBlob g_InputKeyBlob2 75, 0, 0⟩ := by decide!
  rw [e1, e2, e3, e4, e5]
  exact ⟨scanAndResolve_eval _ _ _ _ 65792 65806 (by decide!) (by decide!) (by decide!)
      (by decide!),
    scanAndResolve_eval _ _ _ _ 65814 65814 (by decide!) (by decide!) (by decide!) (by decide!),
    scanAndResolve_eval _ _ _ _ 65891 65914 (by decide!) (by decide!) (by decide!) (by decide!),
    scanAndResolve_eval _ _ _ _ 65914 65921 (by decide!) (by decide!) (by decide!) (by decide!),
    scanAndResolve_eval _ _ _ _ 65924 65924 (by decide!) (by decide!) (by decide!) (by decide!)⟩

/-- C21, counterexample: version 4464155 of the built-in registry on an image in which
all five signatures of profile 5 match. Every role resolves to a non-null address, and
the call still shows the box `An error has occured.`, that of the final descriptor
check. -/
theorem high_version_reports_error :
    InitializePatterns 5000 fullImage 0x10000 InitVersionConfigs 1
        ⟨4464155, 0, 0, 0, 0, 0, none⟩
      = some ⟨⟨4464155, 65806, 65814, 65914, 65921, 65924, none⟩,
          ["An error has occured."], 65806⟩ :=
  initializePatterns_high_messages 5000 fullImage 0x10000 InitVersionConfigs 1
    ⟨4464155, 0, 0, 0, 0, 0, none⟩ profile5 65806 65814 65914 65921 65924 (by decide!)
    profile5_scans_full.1 profile5_scans_full.2.1 profile5_scans_full.2.2.1
    profile5_scans_full.2.2.2.1 profile5_scans_full.2.2.2.2
    (by decide) (by decide) (by decide) (by decide) (by decide) (by decide) (by decide)

/-- C21 (amended): for a supported `int` version from 4464155 on whose five roles
resolve to non-null addresses, `InitializePatterns` returns and shows no box of the
lookup, of the scans or of the validation pass; its one report is the box
`An error has occured.` of the final descriptor check, shown exactly when the
descriptor pointer is null (the gated step leaves it as it was before the call). -/
theorem high_version_single_report (fuel : Nat) (mem : Memory) (gameModule : Nat)
    (configs : List VersionConfig) (boxResult : Int) (g : Globals) (cfg : VersionConfig)
    (a1 a2 a3 a4 a5 : Int)
    (hcfg : findConfig configs g.dword_18004FDE0 = some cfg)
    (h1 : ScanAndResolve fuel mem gameModule (FindPatternByName cfg "GObjects") = some a1)
    (h2 : ScanAndResolve fuel mem gameModule (FindPatternByName cfg "ProcessEvent") = some a2)
    (h3 : ScanAndResolve fuel mem gameModule (FindPatternByName cfg "FNameToString") = some a3)
    (h4 : ScanAndResolve fuel mem gameModule (FindPatternByName cfg "GWorld") = some a4)
    (h5 : ScanAndResolve fuel mem gameModule (FindPatternByName cfg "InputKey") = some a5)
    (n1 : a1 ≠ 0) (n2 : a2 ≠ 0) (n3 : a3 ≠ 0) (n4 : a4 ≠ 0) (n5 : a5 ≠ 0)
    (hv : 4464155 ≤ g.dword_18004FDE0) (hint : g.dword_18004FDE0 < 2 ^ 31) :
    ∃ r, InitializePatterns fuel mem gameModule configs boxResult g = some r
      ∧ r.globals.qword_18004FDF0 = g.qword_18004FDF0
      ∧ (g.qword_18004FDF0 = none → r.messages = ["An error has occured."])
      ∧ (g.qword_18004FDF0 ≠ none → r.messages = []) := by
  refine ⟨_, initializePatterns_high_messages fuel mem gameModule configs boxResult g cfg
    a1 a2 a3 a4 a5 hcfg h1 h2 h3 h4 h5 n1 n2 n3 n4 n5 hv hint, rfl, ?_, ?_⟩
  · intro hnone
    simp [hnone]
  · intro hsome
    cases hd : g.qword_18004FDF0 with
    | none => exact absurd hd hsome
    | some p => simp

/-- C21 (amended), at version 4464155 of the built-in registry on the image
`fullImage`, with no descriptor before the call. -/
theorem high_version_single_report_witness :
    ∃ r, InitializePatterns 5000 fullImage 0x10000 InitVersionConfigs 1
          ⟨4464155, 0, 0, 0, 0, 0, none⟩ = some r
      ∧ r.globals.qword_18004FDF0 = none
      ∧ ((none : Option PatternLink) = none → r.messages = ["An error has occured."])
      ∧ ((none : Option PatternLink) ≠ none → r.messages = []) :=
  high_version_single_report 5000 fullImage 0x10000 InitVersionConfigs 1
    ⟨4464155, 0, 0, 0, 0, 0, none⟩ profile5 65806 65814 65914 65921 65924 (by decide!)
    profile5_scans_full.1 profile5_scans_full.2.1 profile5_scans_full.2.2.1
    profile5_scans_full.2.2.2.1 profile5_scans_full.2.2.2.2
    (by decide) (by decide) (by decide) (by decide) (by decide) (by decide) (by decide)

/-! ## Properties of the object locator -/

theorem tableScan_none (f : Int → Option Int) (o : Int → Int) :
    ∀ (n : Nat) (i : Int),
      (∀ k : Nat, k < n → o (i + k) = 0 ∨ f (o (i + k)) = none) → tableScan f o n i = 0 := by
  intro n
  induction n with
  | zero => intro i _; rfl
  | succ n ih =>
    intro i h
    have h0 := h 0 (Nat.succ_pos n)
    simp only [Nat.cast_zero, add_zero] at h0
    have hrest : tableScan f o n (i + 1) = 0 := by
      apply ih
      intro k hk
      have := h (k + 1) (Nat.succ_lt_succ hk)
      rw [show i + 1 + (k : Int) = i + ((k + 1 : Nat) : Int) by push_cast; ring]
      exact this
    unfold tableScan
    rcases h0 with h0 | h0
    · rw [if_pos h0]; exact hrest
    · by_cases hz : o i = 0
      · rw [if_pos hz]; exact hrest
      · rw [if_neg hz, h0]; exact hrest

theorem tableScan_first (f : Int → Option Int) (o : Int → Int) (r : Int) :
    ∀ (k : Nat) (n : Nat) (i : Int), k < n → o (i + k) ≠ 0 → f (o (i + k)) = some r →
      (∀ j : Nat, j < k → o (i + j) = 0 ∨ f (o (i + j)) = none) →
      tableScan f o n i = r := by
  intro k
  induction k with
  | zero =>
    intro n i hk hne hf _
    obtain ⟨m, rfl⟩ : ∃ m, n = m + 1 := ⟨n - 1, by omega⟩
    simp only [Nat.cast_zero, add_zero] at hne hf
    unfold tableScan
    rw [if_neg hne, hf]
  | succ k ih =>
    intro n i hk hne hf hbefore
    obtain ⟨m, rfl⟩ : ∃ m, n = m + 1 := ⟨n - 1, by omega⟩
    have hshift : ∀ j : Nat, i + 1 + (j : Int) = i + ((j + 1 : Nat) : Int) := by
      intro j; push_cast; ring
    have hrest : tableScan f o m (i + 1) = r := by
      apply ih m (i + 1) (by omega)
      · rw [hshift]; exact hne
      · rw [hshift]; exact hf
      · intro j hj
        rw [hshift]
        exact hbefore (j + 1) (by omega)
    have h0 := hbefore 0 (Nat.succ_pos k)
    simp only [Nat.cast_zero, add_zero] at h0
    unfold tableScan
    rcases h0 with h0 | h0
    · rw [if_pos h0]; exact hrest
    · by_cases hz : o i = 0
      · rw [if_pos hz]; exact hrest
      · rw [if_neg hz, h0]; exact hrest

theorem findObjectLoop1_eq (mem : Memory) (g : Globals) (env : Foreign) (arrayPtr : Int)
    (name : String) :
    ∀ (n : Nat) (i : Int),
      findObjectLoop1 mem g env arrayPtr name n i
        = tableScan (objectOf mem g env name)
            (fun k => readI64 mem (arrayPtr + k * TYPE1_ELEMENT_STRIDE)) n i := by
  intro n
  induction n with
  | zero => intro i; rfl
  | succ n ih =>
    intro i
    unfold findObjectLoop1 tableScan
    simp only [ih, objectOf]
    split_ifs <;> rfl

theorem findObjectLoop2_eq (fuel : Nat) (mem : Memory) (g : Globals) (env : Foreign)
    (gobjectsBase : Int) (name : String) (o : Int → Int) :
    ∀ (n : Nat) (i : Int),
      (∀ k : Nat, k < n → ChunkedArrayAccess fuel mem gobjectsBase (i + k) = some (o (i + k))) →
      findObjectLoop2 fuel mem g env gobjectsBase name n i
        = some (tableScan (objectOf mem g env name) o n i) := by
  intro n
  induction n with
  | zero => intro i _; rfl
  | succ n ih =>
    intro i h
    have h0 := h 0 (Nat.succ_pos n)
    simp only [Nat.cast_zero, add_zero] at h0
    have hrest := ih (i + 1) (by
      intro k hk
      have := h (k + 1) (Nat.succ_lt_succ hk)
      rw [show i + 1 + (k : Int) = i + ((k + 1 : Nat) : Int) by push_cast; ring]
      exact this)
    unfold findObjectLoop2 tableScan
    simp only [h0, Option.some_bind, hrest, objectOf]
    split_ifs <;> rfl

theorem findPropertyLoop1_eq (mem : Memory) (g : Globals) (env : Foreign) (arrayPtr : Int)
    (className propName : String) :
    ∀ (n : Nat) (i : Int),
      findPropertyLoop1 mem g env arrayPtr className propName n i
        = tableScan (propertyOf mem g env className propName)
            (fun k => readI64 mem (arrayPtr + k * TYPE1_ELEMENT_STRIDE)) n i := by
  intro n
  induction n with
  | zero => intro i; rfl
  | succ n ih =>
    intro i
    unfold findPropertyLoop1 tableScan
    simp only [ih]

theorem findPropertyLoop2_eq (fuel : Nat) (mem : Memory) (g : Globals) (env : Foreign)
    (gobjectsBase : Int) (className propName : String) (o : Int → Int) :
    ∀ (n : Nat) (i : Int),
      (∀ k : Nat, k < n → ChunkedArrayAccess fuel mem gobjectsBase (i + k) = some (o (i + k))) →
      findPropertyLoop2 fuel mem g env gobjectsBase className propName n i
        = some (tableScan (propertyOf mem g env className propName) o n i) := by
  intro n
  induction n with
  | zero => intro i _; rfl
  | succ n ih =>
    intro i h
    have h0 := h 0 (Nat.succ_pos n)
    simp only [Nat.cast_zero, add_zero] at h0
    have hrest := ih (i + 1) (by
      intro k hk
      have := h (k + 1) (Nat.succ_lt_succ hk)
      rw [show i + 1 + (k : Int) = i + ((k + 1 : Nat) : Int) by push_cast; ring]
      exact this)
    unfold findPropertyLoop2 tableScan
    simp only [h0, Option.some_bind, hrest]
    split_ifs
    · rfl
    · cases propertyOf mem g env className propName (o i) <;> rfl

theorem objectOf_eq_some (mem : Memory) (g : Globals) (env : Foreign) (name : String)
    (obj : Int) (h : HasName mem g env name obj) : objectOf mem g env name obj = some obj := by
  unfold objectOf
  rw [if_pos h.2]

theorem objectOf_eq_none (mem : Memory) (g : Globals) (env : Foreign) (name : String)
    (obj : Int) (h : ¬ HasName mem g env name obj) :
    obj = 0 ∨ objectOf mem g env name obj = none := by
  unfold HasName at h
  unfold objectOf
  by_cases hz : obj = 0
  · exact Or.inl hz
  · right
    rw [if_neg (fun hn => h ⟨hz, hn⟩)]

theorem propertyOf_eq_some (mem : Memory) (g : Globals) (env : Foreign)
    (className propName : String) (obj : Int) (h : OwnedBy mem g env className propName obj) :
    propertyOf mem g env className propName obj = some (readInt mem (obj + 68)) := by
  obtain ⟨_, h1, h2, h3⟩ := h
  unfold propertyOf
  simp only [OUTER_OFFSET, PROP_OFFSET_FIELD, h1, ne_eq, not_true_eq_false, if_false, h2, h3,
    if_true]

theorem propertyOf_eq_none (mem : Memory) (g : Globals) (env : Foreign)
    (className propName : String) (obj : Int) (h : ¬ OwnedBy mem g env className propName obj) :
    obj = 0 ∨ propertyOf mem g env className propName obj = none := by
  unfold OwnedBy at h
  by_cases hz : obj = 0
  · exact Or.inl hz
  · right
    unfold propertyOf
    simp only [OUTER_OFFSET]
    split_ifs with h1 h2 h3
    · rfl
    · rfl
    · exact absurd ⟨hz, not_not.mp h1, h2, h3⟩ h
    · rfl

theorem findObjectType1_eq (mem : Memory) (g : Globals) (env : Foreign) (gobjectsBase : Int)
    (name : String) :
    FindObjectType1 mem g env gobjectsBase name
      = tableScan (objectOf mem g env name) (flatEntry mem gobjectsBase)
          (readInt mem (gobjectsBase + 12)).toNat 0 := by
  unfold FindObjectType1
  simp only [TYPE1_COUNT_OFFSET, findObjectLoop1_eq]
  split_ifs with h
  · have : (readInt mem (gobjectsBase + 12)).toNat = 0 := by omega
    rw [this]
    rfl
  · rfl

theorem findPropertyType1_eq (mem : Memory) (g : Globals) (env : Foreign) (gobjectsBase : Int)
    (className propName : String) :
    FindPropertyType1 mem g env gobjectsBase className propName
      = tableScan (propertyOf mem g env className propName) (flatEntry mem gobjectsBase)
          (readInt mem (gobjectsBase + 12)).toNat 0 := by
  unfold FindPropertyType1
  simp only [TYPE1_COUNT_OFFSET, findPropertyLoop1_eq]
  split_ifs with h
  · have : (readInt mem (gobjectsBase + 12)).toNat = 0 := by omega
    rw [this]
    rfl
  · rfl

theorem findObjectType2_eq (fuel : Nat) (mem : Memory) (g : Globals) (env : Foreign)
    (gobjectsBase : Int) (name : String) (n : Nat) (o : Nat → Int)
    (hcount : readInt mem (gobjectsBase + 20) = n)
    (hchunk : ∀ i : Nat, i < n → ChunkedArrayAccess fuel mem gobjectsBase i = some (o i)) :
    FindObjectType2 fuel mem g env gobjectsBase name
      = some (tableScan (objectOf mem g env name) (fun k => o k.toNat) n 0) := by
  unfold FindObjectType2
  simp only [TYPE2_COUNT_OFFSET, hcount]
  split_ifs with h
  · have : n = 0 := by omega
    subst this
    rfl
  · rw [Int.toNat_ofNat]
    apply findObjectLoop2_eq
    intro k hk
    simp only [zero_add, Int.toNat_ofNat]
    exact hchunk k hk

theorem findPropertyType2_legacy_eq (fuel : Nat) (mem : Memory) (g : Globals) (env : Foreign)
    (gobjectsBase : Int) (className propName : String) (n : Nat) (o : Nat → Int)
    (hver : g.dword_18004FDE0 < 11794982)
    (hcount : readInt mem (gobjectsBase + 20) = n)
    (hchunk : ∀ i : Nat, i < n → ChunkedArrayAccess fuel mem gobjectsBase i = some (o i)) :
    FindPropertyType2 fuel mem g env gobjectsBase className propName
      = some (tableScan (propertyOf mem g env className propName) (fun k => o k.toNat) n 0) := by
  unfold FindPropertyType2
  simp only [VERSION_PROPCHAIN, hver, if_true, TYPE2_COUNT_OFFSET, hcount]
  split_ifs with h
  · have : n = 0 := by omega
    subst this
    rfl
  · rw [Int.toNat_ofNat]
    apply findPropertyLoop2_eq
    intro k hk
    simp only [zero_add, Int.toNat_ofNat]
    exact hchunk k hk

/-- C22: `FindObjectType1` returns 0 when `count <= 0`; it returns the entry at the
least index `i` in `0 .. count - 1` whose entry is non-null with display name `name`;
and it returns 0 when no index in that range has such an entry. -/
theorem findObjectType1_first_match (mem : Memory) (g : Globals) (env : Foreign)
    (gobjectsBase : Int) (name : String) :
    (readInt mem (gobjectsBase + 12) ≤ 0 → FindObjectType1 mem g env gobjectsBase name = 0)
      ∧ (∀ i : Nat, (i : Int) < readInt mem (gobjectsBase + 12) →
          HasName mem g env name (flatEntry mem gobjectsBase i) →
          (∀ j : Nat, j < i → ¬ HasName mem g env name (flatEntry mem gobjectsBase j)) →
          FindObjectType1 mem g env gobjectsBase name = flatEntry mem gobjectsBase i)
      ∧ ((∀ i : Nat, (i : Int) < readInt mem (gobjectsBase + 12) →
            ¬ HasName mem g env name (flatEntry mem gobjectsBase i)) →
          FindObjectType1 mem g env gobjectsBase name = 0) := by
  rw [findObjectType1_eq]
  refine ⟨?_, ?_, ?_⟩
  · intro h
    have : (readInt mem (gobjectsBase + 12)).toNat = 0 := by omega
    rw [this]
    rfl
  · intro i hi hname hbefore
    apply tableScan_first _ _ _ i _ 0 (by omega)
    · rw [zero_add]; exact hname.1
    · rw [zero_add]; exact objectOf_eq_some mem g env name _ hname
    · intro j hj
      rw [zero_add]
      exact objectOf_eq_none mem g env name _ (hbefore j hj)
  · intro hnone
    apply tableScan_none
    intro k hk
    rw [zero_add]
    exact objectOf_eq_none mem g env name _ (hnone k (by omega))

/-- C22, on the flat table of `objectMem`: the name `Health` is carried by the entries
0 and 2, and the entry 0 is returned; `World` is found behind a null entry; a name
that no entry carries is not found. -/
theorem findObjectType1_first_match_witness :
    FindObjectType1 objectMem (objectGlobals 4204761 1 0x1000) (objectEnv []) 0x1000 "Health"
        = 0x5000
      ∧ HasName objectMem (objectGlobals 4204761 1 0x1000) (objectEnv []) "Health"
          (flatEntry objectMem 0x1000 2)
      ∧ FindObjectType1 objectMem (objectGlobals 4204761 1 0x1000) (objectEnv []) 0x1000 "World"
          = 0x5300
      ∧ FindObjectType1 objectMem (objectGlobals 4204761 1 0x1000) (objectEnv []) 0x1000 "Nope"
          = 0 :=
  ⟨((findObjectType1_first_match objectMem (objectGlobals 4204761 1 0x1000) (objectEnv [])
      0x1000 "Health").2.1 0 (by decide!) (by decide!) (by decide!)).trans (by decide!),
    by decide!,
    ((findObjectType1_first_match objectMem (objectGlobals 4204761 1 0x1000) (objectEnv [])
      0x1000 "World").2.1 3 (by decide!) (by decide!) (by decide!)).trans (by decide!),
    (findObjectType1_first_match objectMem (objectGlobals 4204761 1 0x1000) (objectEnv [])
      0x1000 "Nope").2.2 (by
        intro i hi
        have hcount : readInt objectMem ((0x1000 : Int) + 12) = 4 := by decide!
        rw [hcount] at hi
        have hall : ∀ j : Nat, j < 4 →
            ¬ HasName objectMem (objectGlobals 4204761 1 0x1000) (objectEnv []) "Nope"
              (flatEntry objectMem 0x1000 j) := by decide!
        exact hall i (by omega))⟩

/-- C26: a flat table and a chunked table that hold the same `n` objects
(`flatEntry i = o i` and `ChunkedArrayAccess(i) = o i` for all `i < n`, both counts
`n`) give the same `findByName` result: `FindObjectType2` returns, with the handle
`FindObjectType1` returns, for every name. -/
theorem findObject_layout_agnostic (fuel : Nat) (mem : Memory) (g : Globals) (env : Foreign)
    (base1 base2 : Int) (n : Nat) (o : Nat → Int) (name : String)
    (hcount1 : readInt mem (base1 + 12) = n)
    (hcount2 : readInt mem (base2 + 20) = n)
    (hflat : ∀ i : Nat, i < n → flatEntry mem base1 i = o i)
    (hchunk : ∀ i : Nat, i < n → ChunkedArrayAccess fuel mem base2 i = some (o i)) :
    FindObjectType2 fuel mem g env base2 name
      = some (FindObjectType1 mem g env base1 name) := by
  rw [findObjectType2_eq fuel mem g env base2 name n o hcount2 hchunk, findObjectType1_eq,
    hcount1, Int.toNat_ofNat]
  congr 1
  have hgen : ∀ (m : Nat) (i : Nat), i + m ≤ n →
      tableScan (objectOf mem g env name) (fun k => o k.toNat) m i
        = tableScan (objectOf mem g env name) (flatEntry mem base1) m i := by
    intro m
    induction m with
    | zero => intro i _; rfl
    | succ m ih =>
      intro i hi
      have hrest := ih (i + 1) (by omega)
      have hentry : flatEntry mem base1 i = o i := hflat i (by omega)
      unfold tableScan
      simp only [Int.toNat_ofNat, hentry]
      rw [show ((i : Int) + 1) = ((i + 1 : Nat) : Int) by push_cast; ring, hrest]
  exact hgen n 0 (by omega)

/-- C26, on `objectMem`, whose flat table at `0x1000` and chunked table at `0x2000`
hold the same four entries. -/
theorem findObject_layout_agnostic_witness :
    FindObjectType2 3 objectMem (objectGlobals 4225813 2 0x2000) (objectEnv []) 0x2000 "World"
      = some (FindObjectType1 objectMem (objectGlobals 4225813 2 0x2000) (objectEnv [])
          0x1000 "World") :=
  findObject_layout_agnostic 3 objectMem (objectGlobals 4225813 2 0x2000) (objectEnv [])
    0x1000 0x2000 4 (fun i => [0x5000, 0, 0x5100, 0x5300].getD i 0) "World"
    (by decide!) (by decide!) (by decide!) (by decide!)

/-- C27: the legacy scan. `FindPropertyType1` returns the `int` at `+68` of the entry
at the least index whose entry is non-null, has display name `propName` and has a
non-null owner with display name `className` (entries before it, also those with the
right name and another owner, are passed over), and 0 when no entry of the table
qualifies. The older path of `FindPropertyType2` (version below 11794982) does the same
over the entries `o i` that `ChunkedArrayAccess` returns. -/
theorem legacy_scan_first_owned (mem : Memory) (g : Globals) (env : Foreign)
    (className propName : String) :
    (∀ gobjectsBase : Int,
      (∀ i : Nat, (i : Int) < readInt mem (gobjectsBase + 12) →
          OwnedBy mem g env className propName (flatEntry mem gobjectsBase i) →
          (∀ j : Nat, j < i →
            ¬ OwnedBy mem g env className propName (flatEntry mem gobjectsBase j)) →
          FindPropertyType1 mem g env gobjectsBase className propName
            = readInt mem (flatEntry mem gobjectsBase i + 68))
        ∧ ((∀ i : Nat, (i : Int) < readInt mem (gobjectsBase + 12) →
              ¬ OwnedBy mem g env className propName (flatEntry mem gobjectsBase i)) →
            FindPropertyType1 mem g env gobjectsBase className propName = 0))
      ∧ (∀ (fuel : Nat) (gobjectsBase : Int) (n : Nat) (o : Nat → Int),
          g.dword_18004FDE0 < 11794982 →
          readInt mem (gobjectsBase + 20) = n →
          (∀ i : Nat, i < n → ChunkedArrayAccess fuel mem gobjectsBase i = some (o i)) →
          (∀ i : Nat, i < n → OwnedBy mem g env className propName (o i) →
              (∀ j : Nat, j < i → ¬ OwnedBy mem g env className propName (o j)) →
              FindPropertyType2 fuel mem g env gobjectsBase className propName
                = some (readInt mem (o i + 68)))
            ∧ ((∀ i : Nat, i < n → ¬ OwnedBy mem g env className propName (o i)) →
                FindPropertyType2 fuel mem g env gobjectsBase className propName = some 0)) := by
  constructor
  · intro gobjectsBase
    rw [findPropertyType1_eq]
    constructor
    · intro i hi hown hbefore
      apply tableScan_first _ _ _ i _ 0 (by omega)
      · rw [zero_add]; exact hown.1
      · rw [zero_add]; exact propertyOf_eq_some mem g env className propName _ hown
      · intro j hj
        rw [zero_add]
        exact propertyOf_eq_none mem g env className propName _ (hbefore j hj)
    · intro hnone
      apply tableScan_none
      intro k hk
      rw [zero_add]
      exact propertyOf_eq_none mem g env className propName _ (hnone k (by omega))
  · intro fuel gobjectsBase n o hver hcount hchunk
    rw [findPropertyType2_legacy_eq fuel mem g env gobjectsBase className propName n o hver
      hcount hchunk]
    constructor
    · intro i hi hown hbefore
      congr 1
      apply tableScan_first _ _ _ i _ 0 (by omega)
      · simp only [zero_add, Int.toNat_ofNat]; exact hown.1
      · simp only [zero_add, Int.toNat_ofNat]
        exact propertyOf_eq_some mem g env className propName _ hown
      · intro j hj
        simp only [zero_add, Int.toNat_ofNat]
        exact propertyOf_eq_none mem g env className propName _ (hbefore j hj)
    · intro hnone
      congr 1
      apply tableScan_none
      intro k hk
      simp only [zero_add, Int.toNat_ofNat]
      exact propertyOf_eq_none mem g env className propName _ (hnone k hk)

/-- C27, on `objectMem`, for the field `Health` of the class `World`: entry 0 has the
right name and the owner `Pawn`, entry 1 is null, and entry 2, owned by `World`, gives
the offset `0x44` in both layouts. -/
theorem legacy_scan_first_owned_witness :
    FindPropertyType1 objectMem (objectGlobals 4204761 1 0x1000) (objectEnv []) 0x1000
        "World" "Health" = 0x44
      ∧ FindPropertyType2 3 objectMem (objectGlobals 4225813 2 0x2000) (objectEnv []) 0x2000
          "World" "Health" = some 0x44
      ∧ HasName objectMem (objectGlobals 4204761 1 0x1000) (objectEnv []) "Health"
          (flatEntry objectMem 0x1000 0) :=
  ⟨(((legacy_scan_first_owned objectMem (objectGlobals 4204761 1 0x1000) (objectEnv [])
      "World" "Health").1 0x1000).1 2 (by decide!) (by decide!) (by decide!)).trans
      (by decide!),
    ((((legacy_scan_first_owned objectMem (objectGlobals 4225813 2 0x2000) (objectEnv [])
      "World" "Health").2 3 0x2000 4 (fun i => [0x5000, 0, 0x5100, 0x5300].getD i 0)
      (by decide!) (by decide!) (by decide!)).1 2 (by decide!) (by decide!)
      (by decide!)).trans (by decide!)),
    by decide!⟩

/-! ## Properties of the chunked access -/

/-- The first loop of `ChunkedArrayAccess` stops at the first non-null chunk pointer. -/
theorem firstValidLoop_spec (mem : Memory) (chunks : Int) (f : Nat) (hf : f < 2 ^ 31)
    (hvalid : chunkAt mem chunks f ≠ 0) :
    ∀ (d : Nat) (j : Nat) (fuel : Nat), j + d + 1 = f → d + 1 ≤ fuel →
      (∀ k : Nat, j < k → k < f → chunkAt mem chunks k = 0) →
      firstValidLoop mem chunks fuel j = some (f : Int) := by
  intro d
  induction d with
  | zero =>
    intro j fuel hj hfuel _
    obtain ⟨fuel1, rfl⟩ : ∃ m, fuel = m + 1 := ⟨fuel - 1, by omega⟩
    have hnext : toInt32 (wrap32 ((j : Int) + 1)) = (f : Int) := by
      rw [toInt32_wrap32_small _ (by omega) (by omega)]
      omega
    unfold firstValidLoop
    simp only [hnext, if_neg hvalid]
  | succ d ih =>
    intro j fuel hj hfuel hnull
    obtain ⟨fuel1, rfl⟩ : ∃ m, fuel = m + 1 := ⟨fuel - 1, by omega⟩
    have hnext : toInt32 (wrap32 ((j : Int) + 1)) = ((j + 1 : Nat) : Int) := by
      rw [toInt32_wrap32_small _ (by omega) (by omega)]
      push_cast
      rfl
    have hz : chunkAt mem chunks ((j + 1 : Nat) : Int) = 0 := hnull (j + 1) (by omega) (by omega)
    unfold firstValidLoop
    simp only [hnext, hz, if_true]
    exact ih (j + 1) fuel1 (by omega) (by omega) (fun k hk1 hk2 => hnull k (by omega) hk2)

/-- The second loop of `ChunkedArrayAccess` stops at the first null chunk pointer. -/
theorem lastValidLoop_spec (mem : Memory) (chunks : Int) (e : Nat) (he : e < 2 ^ 31)
    (hend : chunkAt mem chunks e = 0) :
    ∀ (d : Nat) (j : Nat) (fuel : Nat), j + d = e → d + 1 ≤ fuel →
      (∀ k : Nat, j ≤ k → k < e → chunkAt mem chunks k ≠ 0) →
      lastValidLoop mem chunks fuel j = some (e : Int) := by
  intro d
  induction d with
  | zero =>
    intro j fuel hj hfuel _
    obtain ⟨fuel1, rfl⟩ : ∃ m, fuel = m + 1 := ⟨fuel - 1, by omega⟩
    have hje : j = e := by omega
    subst hje
    unfold lastValidLoop
    simp only [ne_eq, hend, not_true_eq_false, if_false]
  | succ d ih =>
    intro j fuel hj hfuel hvalid
    obtain ⟨fuel1, rfl⟩ : ∃ m, fuel = m + 1 := ⟨fuel - 1, by omega⟩
    have hnext : toInt32 (wrap32 ((j : Int) + 1)) = ((j + 1 : Nat) : Int) := by
      rw [toInt32_wrap32_small _ (by omega) (by omega)]
      push_cast
      rfl
    have hnz : chunkAt mem chunks (j : Int) ≠ 0 := hvalid j (le_refl j) (by omega)
    unfold lastValidLoop
    simp only [hnz, ne_eq, not_false_eq_true, if_true, hnext]
    exact ih (j + 1) fuel1 (by omega) (by omega) (fun k hk1 hk2 => hvalid k (by omega) hk2)

/-- The chunk index `ChunkedArrayAccess` uses for a non-negative index: the quotient by
65535, less one for a nonzero exact multiple of 65535. -/
theorem chunkIdx_eq (index : Int) (h0 : 0 ≤ index) :
    (if 65535 * Int.tdiv index 65535 ≠ 0 ∧ 65535 * Int.tdiv index 65535 = index
        then Int.tdiv index 65535 - 1 else Int.tdiv index 65535)
      = (if index ≠ 0 ∧ index % 65535 = 0 then index / 65535 - 1 else index / 65535) := by
  rw [Int.tdiv_eq_ediv h0 (by decide)]
  have hiff : (65535 * (index / 65535) ≠ 0 ∧ 65535 * (index / 65535) = index)
      ↔ (index ≠ 0 ∧ index % 65535 = 0) := by
    constructor
    · rintro ⟨h1, h2⟩
      constructor <;> omega
    · rintro ⟨h1, h2⟩
      constructor <;> omega
  by_cases hc : index ≠ 0 ∧ index % 65535 = 0
  · rw [if_pos hc, if_pos (hiff.mpr hc)]
  · rw [if_neg hc, if_neg (fun h => hc (hiff.mp h))]

/-- The function `ChunkedArrayAccess` on a chunk pointer array with `f` leading null
pointers followed by `n >= 1` non-null pointers and a null pointer. -/
theorem chunkedArrayAccess_eq (fuel : Nat) (mem : Memory) (arrayBase index : Int) (f n : Nat)
    (hnull : ∀ k : Nat, k < f → chunkAt mem (readI64 mem arrayBase) k = 0)
    (hvalid : ∀ k : Nat, f ≤ k → k < f + n → chunkAt mem (readI64 mem arrayBase) k ≠ 0)
    (hend : chunkAt mem (readI64 mem arrayBase) ((f + n : Nat) : Int) = 0)
    (hn : 1 ≤ n) (hsmall : f + n < 2 ^ 31) (hfuel : f + n + 1 ≤ fuel)
    (h0 : 0 ≤ index) :
    ChunkedArrayAccess fuel mem arrayBase index
      = some (if (n : Int) ≤ (if index ≠ 0 ∧ index % 65535 = 0 then index / 65535 - 1
                                else index / 65535) then 0
          else readI64 mem
            (chunkAt mem (readI64 mem arrayBase)
                ((f : Int) + (if index ≠ 0 ∧ index % 65535 = 0 then index / 65535 - 1
                                else index / 65535))
              + (index - 65535 * (if index ≠ 0 ∧ index % 65535 = 0 then index / 65535 - 1
                                    else index / 65535)) * 24)) := by
  have hfv : chunkAt mem (readI64 mem arrayBase) (f : Int) ≠ 0 := hvalid f (le_refl f) (by omega)
  have hfirst : (if chunkAt mem (readI64 mem arrayBase) 0 = 0
        then firstValidLoop mem (readI64 mem arrayBase) fuel 0 else some 0)
      = some (f : Int) := by
    by_cases hf0 : f = 0
    · subst hf0
      rw [if_neg (by simpa using hfv)]
      rfl
    · have hz : chunkAt mem (readI64 mem arrayBase) 0 = 0 := by
        have := hnull 0 (by omega)
        simpa using this
      rw [if_pos hz]
      have := firstValidLoop_spec mem (readI64 mem arrayBase) f (by omega) hfv (f - 1) 0 fuel
        (by omega) (by omega) (fun k _ hk => hnull k hk)
      simpa using this
  have hlast : lastValidLoop mem (readI64 mem arrayBase) fuel (f : Int)
      = some ((f + n : Nat) : Int) :=
    lastValidLoop_spec mem (readI64 mem arrayBase) (f + n) hsmall hend n f fuel rfl (by omega)
      hvalid
  unfold ChunkedArrayAccess
  simp only [hfirst, Option.some_bind, hlast, Option.map_some', TYPE2_CHUNK_SIZE,
    TYPE1_ELEMENT_STRIDE]
  rw [chunkIdx_eq index h0]
  congr 1
  by_cases hc : (n : Int) ≤ (if index ≠ 0 ∧ index % 65535 = 0 then index / 65535 - 1
      else index / 65535)
  · rw [if_pos hc, if_pos (by push_cast; omega)]
  · rw [if_neg hc, if_neg (by push_cast; omega)]

/-- C23: `ChunkedArrayAccess` on a chunk pointer array with `f` leading null pointers
followed by `n` consecutive non-null pointers and a null pointer, for an `int` index
`>= 0`, given fuel for the two loops over the pointers and `f + n + 32768 < 2^31` (the
`int` sum `firstValid + chunkIdx` does not overflow: `chunkIdx` is at most 32768). With
`chunkIndex = index / 65535`, less one when `index` is a nonzero exact multiple of
65535, the function returns 0 when `chunkIndex` is not below `n`, and otherwise the
8-byte value stored at `chunks[f + chunkIndex] + (index - 65535 * chunkIndex) * 24`. -/
theorem chunkedArrayAccess_rule (fuel : Nat) (mem : Memory) (arrayBase index : Int)
    (f n : Nat)
    (hnull : ∀ k : Nat, k < f → chunkAt mem (readI64 mem arrayBase) k = 0)
    (hvalid : ∀ k : Nat, f ≤ k → k < f + n → chunkAt mem (readI64 mem arrayBase) k ≠ 0)
    (hend : chunkAt mem (readI64 mem arrayBase) ((f + n : Nat) : Int) = 0)
    (hn : 1 ≤ n) (hsmall : f + n + 32768 < 2 ^ 31) (hfuel : f + n + 1 ≤ fuel)
    (h0 : 0 ≤ index) (_hint : index < 2 ^ 31) :
    ChunkedArrayAccess fuel mem arrayBase index
      = some (if (n : Int) ≤ (if index ≠ 0 ∧ index % 65535 = 0 then index / 65535 - 1
                                else index / 65535) then 0
          else readI64 mem
            (chunkAt mem (readI64 mem arrayBase)
                ((f : Int) + (if index ≠ 0 ∧ index % 65535 = 0 then index / 65535 - 1
                                else index / 65535))
              + (index - 65535 * (if index ≠ 0 ∧ index % 65535 = 0 then index / 65535 - 1
                                    else index / 65535)) * 24)) :=
  chunkedArrayAccess_eq fuel mem arrayBase index f n hnull hvalid hend hn (by omega) hfuel h0

/-- C23, on the table of `chunkedMem 0x400000` (two chunks, no leading null pointer):
the index `2 * 65535` is an exact multiple, its chunk index is 1 and it resolves inside
chunk 1, while the index `2 * 65535 + 1` has chunk index 2 and is not found. -/
theorem chunkedArrayAccess_rule_witness :
    ChunkedArrayAccess 3 (chunkedMem 0x400000) 0x2000 65538 = some 0x50000300
      ∧ ChunkedArrayAccess 3 (chunkedMem 0x400000) 0x2000 131071 = some 0 :=
  ⟨(chunkedArrayAccess_rule 3 (chunkedMem 0x400000) 0x2000 65538 0 2
      (by intro k hk; omega)
      (by intro k _ hk; interval_cases k <;> decide!)
      (by decide!) (by decide) (by decide) (by decide) (by decide) (by decide)).trans
      (by decide!),
    (chunkedArrayAccess_rule 3 (chunkedMem 0x400000) 0x2000 131071 0 2
      (by intro k hk; omega)
      (by intro k _ hk; interval_cases k <;> decide!)
      (by decide!) (by decide) (by decide) (by decide) (by decide) (by decide)).trans
      (by decide!)⟩

/-- C24, counterexample: on the table of `chunkedMem 0`, which holds a single chunk of
65535 elements, `ChunkedArrayAccess` at index 65535 does not return 0: the index is
kept in chunk 0 and the value that follows the chunk in memory is returned. -/
theorem single_chunk_access_at_capacity :
    chunkAt (chunkedMem 0) (readI64 (chunkedMem 0) 0x2000) 0 = 0x100000
      ∧ chunkAt (chunkedMem 0) (readI64 (chunkedMem 0) 0x2000) 1 = 0
      ∧ ChunkedArrayAccess 3 (chunkedMem 0) 0x2000 65535 = some 0x7777 := by
  decide!

/-- C24 (amended): on a table with a single chunk (after `f` leading null pointers),
`ChunkedArrayAccess` at index 65535 stays in that chunk and returns the 8-byte value
at `chunk + 65535 * 24`; every greater index is not found. The table satisfies
`f + 1 + 32768 < 2^31`, so that the `int` sum `firstValid + chunkIdx` does not overflow
for an `int` index. -/
theorem single_chunk_boundary (fuel : Nat) (mem : Memory) (arrayBase : Int) (f : Nat)
    (hnull : ∀ k : Nat, k < f → chunkAt mem (readI64 mem arrayBase) k = 0)
    (hvalid : chunkAt mem (readI64 mem arrayBase) (f : Int) ≠ 0)
    (hend : chunkAt mem (readI64 mem arrayBase) ((f + 1 : Nat) : Int) = 0)
    (hsmall : f + 1 + 32768 < 2 ^ 31) (hfuel : f + 2 ≤ fuel) :
    ChunkedArrayAccess fuel mem arrayBase 65535
        = some (readI64 mem (chunkAt mem (readI64 mem arrayBase) (f : Int) + 65535 * 24))
      ∧ ∀ index : Int, 65535 < index →
          ChunkedArrayAccess fuel mem arrayBase index = some 0 := by
  have hv : ∀ k : Nat, f ≤ k → k < f + 1 → chunkAt mem (readI64 mem arrayBase) k ≠ 0 := by
    intro k hk1 hk2
    have : k = f := by omega
    subst this
    exact hvalid
  constructor
  · rw [chunkedArrayAccess_eq fuel mem arrayBase 65535 f 1 hnull hv hend (le_refl 1) (by omega)
      hfuel (by decide)]
    norm_num
  · intro index hidx
    rw [chunkedArrayAccess_eq fuel mem arrayBase index f 1 hnull hv hend (le_refl 1) (by omega)
      hfuel (by omega)]
    congr 1
    rw [if_pos]
    split_ifs with hc
    · push_cast; omega
    · push_cast; omega

/-- C24 (amended), on the single chunk of `chunkedMem 0`: index 65535 returns the
value `0x7777` stored behind the chunk, index 65536 is not found. -/
theorem single_chunk_boundary_witness :
    ChunkedArrayAccess 3 (chunkedMem 0) 0x2000 65535
        = some (readI64 (chunkedMem 0)
            (chunkAt (chunkedMem 0) (readI64 (chunkedMem 0) 0x2000) ((0 : Nat) : Int)
              + 65535 * 24))
      ∧ ChunkedArrayAccess 3 (chunkedMem 0) 0x2000 65536 = some 0 :=
  ⟨(single_chunk_boundary 3 (chunkedMem 0) 0x2000 0 (by intro k hk; omega) (by decide!)
      (by decide!) (by decide) (by decide)).1,
    (single_chunk_boundary 3 (chunkedMem 0) 0x2000 0 (by intro k hk; omega) (by decide!)
      (by decide!) (by decide) (by decide)).2 65536 (by decide)⟩

/-- C25, counterexample: on the table of `chunkedMem 0x400000`, which holds two chunks,
`ChunkedArrayAccess` at index 65535 does not return slot 0 of chunk 1 (the handle
`0x50000000`) but the value at `chunk 0 + 65535 * 24`. -/
theorem two_chunks_access_at_capacity :
    chunkAt (chunkedMem 0x400000) (readI64 (chunkedMem 0x400000) 0x2000) 0 = 0x100000
      ∧ chunkAt (chunkedMem 0x400000) (readI64 (chunkedMem 0x400000) 0x2000) 1 = 0x400000
      ∧ chunkAt (chunkedMem 0x400000) (readI64 (chunkedMem 0x400000) 0x2000) 2 = 0
      ∧ readI64 (chunkedMem 0x400000) (0x400000 + 0 * 24) = 0x50000000
      ∧ ChunkedArrayAccess 3 (chunkedMem 0x400000) 0x2000 65535 = some 0x7777 := by
  decide!

/-- C25 (amended): on a table with two chunks (after `f` leading null pointers),
`ChunkedArrayAccess` at index 65535 resolves in chunk 0, to the 8-byte value at
`chunk0 + 65535 * 24`; chunk 1 is first reached by index 65536, at its slot 1. -/
theorem two_chunks_boundary (fuel : Nat) (mem : Memory) (arrayBase : Int) (f : Nat)
    (hnull : ∀ k : Nat, k < f → chunkAt mem (readI64 mem arrayBase) k = 0)
    (hvalid0 : chunkAt mem (readI64 mem arrayBase) (f : Int) ≠ 0)
    (hvalid1 : chunkAt mem (readI64 mem arrayBase) ((f + 1 : Nat) : Int) ≠ 0)
    (hend : chunkAt mem (readI64 mem arrayBase) ((f + 2 : Nat) : Int) = 0)
    (hsmall : f + 2 < 2 ^ 31) (hfuel : f + 3 ≤ fuel) :
    ChunkedArrayAccess fuel mem arrayBase 65535
        = some (readI64 mem (chunkAt mem (readI64 mem arrayBase) (f : Int) + 65535 * 24))
      ∧ ChunkedArrayAccess fuel mem arrayBase 65536
        = some (readI64 mem
            (chunkAt mem (readI64 mem arrayBase) ((f + 1 : Nat) : Int) + 1 * 24)) := by
  have hv : ∀ k : Nat, f ≤ k → k < f + 2 → chunkAt mem (readI64 mem arrayBase) k ≠ 0 := by
    intro k hk1 hk2
    have hk : k = f ∨ k = f + 1 := by omega
    rcases hk with rfl | rfl
    · exact hvalid0
    · exact hvalid1
  constructor
  · rw [chunkedArrayAccess_eq fuel mem arrayBase 65535 f 2 hnull hv hend (by decide) hsmall
      hfuel (by decide)]
    norm_num
  · rw [chunkedArrayAccess_eq fuel mem arrayBase 65536 f 2 hnull hv hend (by decide) hsmall
      hfuel (by decide)]
    norm_num

/-- C25 (amended), on the two chunks of `chunkedMem 0x400000`: index 65535 returns the
value `0x7777` stored behind chunk 0, index 65536 the handle of slot 1 of chunk 1. -/
theorem two_chunks_boundary_witness :
    ChunkedArrayAccess 3 (chunkedMem 0x400000) 0x2000 65535
        = some (readI64 (chunkedMem 0x400000)
            (chunkAt (chunkedMem 0x400000) (readI64 (chunkedMem 0x400000) 0x2000)
              ((0 : Nat) : Int) + 65535 * 24))
      ∧ ChunkedArrayAccess 3 (chunkedMem 0x400000) 0x2000 65536
        = some (readI64 (chunkedMem 0x400000)
            (chunkAt (chunkedMem 0x400000) (readI64 (chunkedMem 0x400000) 0x2000)
              ((0 + 1 : Nat) : Int) + 1 * 24)) :=
  two_chunks_boundary 3 (chunkedMem 0x400000) 0x2000 0 (by intro k hk; omega) (by decide!)
    (by decide!) (by decide!) (by decide) (by decide)

/-! ## Properties of the property chain walk -/

/-- One step of the chain walk over a node that passes the probe and does not yield an
offset: the walk goes on from its next pointer. -/
theorem walkChain_skip (mem : Memory) (g : Globals) (env : Foreign) (propName : String)
    (fuel : Nat) (x : Int) (hx : x ≠ 0) (hprobe : env.IsBadReadPtr x 8 = false)
    (hmiss : ¬ NodeHit mem g env propName x) :
    walkChain mem g env propName (fuel + 1) x
      = (walkChain mem g env propName fuel (readI64 mem (x + 32))).map
          fun r => (r.1, x :: r.2) := by
  unfold NodeHit at hmiss
  conv_lhs => rw [walkChain]
  simp only [PROP_NEXT_OFFSET, PROP_OFFSET_FIELD_NEW, PROP_NAME_OFFSET_NEW, if_neg hx, hprobe,
    Bool.false_eq_true, if_false]
  split_ifs with h1 h2 h3
  · rfl
  · rfl
  · exfalso
    apply hmiss
    refine ⟨?_, ?_, h2, h3⟩
    · cases hb : env.IsBadReadPtr (readI64 mem (x + 8)) 8
      · rfl
      · exact absurd (Or.inl hb) h1
    · exact fun hz => h1 (Or.inr hz)
  · rfl

/-- The chain walk over a segment of nodes that pass the probe and do not yield an
offset: the walk goes on from the pointer behind the segment. -/
theorem walkChain_segment (mem : Memory) (g : Globals) (env : Foreign) (propName : String) :
    ∀ (pre : List Int) (p q : Int) (fuel : Nat), ChainSeg mem p pre q →
      (∀ x ∈ pre, env.IsBadReadPtr x 8 = false ∧ ¬ NodeHit mem g env propName x) →
      walkChain mem g env propName (fuel + pre.length) p
        = (walkChain mem g env propName fuel q).map fun r => (r.1, pre ++ r.2) := by
  intro pre
  induction pre with
  | nil =>
    intro p q fuel hseg _
    unfold ChainSeg at hseg
    subst hseg
    simp
  | cons x rest ih =>
    intro p q fuel hseg hpre
    unfold ChainSeg at hseg
    obtain ⟨rfl, hx, hrest⟩ := hseg
    have hx' := hpre p (List.mem_cons_self _ _)
    rw [List.length_cons, ← Nat.add_assoc,
      walkChain_skip mem g env propName _ p hx hx'.1 hx'.2,
      ih _ q fuel hrest (fun y hy => hpre y (List.mem_cons_of_mem _ hy))]
    cases walkChain mem g env propName fuel q <;> simp

/-- The chain walk at a node that passes the probe and yields its offset. -/
theorem walkChain_hit (mem : Memory) (g : Globals) (env : Foreign) (propName : String)
    (fuel : Nat) (x : Int) (hx : x ≠ 0) (hprobe : env.IsBadReadPtr x 8 = false)
    (hhit : NodeHit mem g env propName x) :
    walkChain mem g env propName (fuel + 1) x = some (readInt mem (x + 76), [x]) := by
  obtain ⟨h1, h2, h3, h4⟩ := hhit
  unfold walkChain
  simp only [PROP_NEXT_OFFSET, PROP_OFFSET_FIELD_NEW, PROP_NAME_OFFSET_NEW, if_neg hx, hprobe,
    Bool.false_eq_true, if_false, h1, h2, or_self, if_neg h3, h4, if_true]

/-- The newer path of `FindPropertyType2` once the class object is known. -/
theorem findPropertyType2_chain (fuel : Nat) (mem : Memory) (g : Globals) (env : Foreign)
    (gobjectsBase : Int) (className propName : String) (classObj : Int)
    (hver : 11794982 ≤ g.dword_18004FDE0)
    (hclass : FindObjectType2 fuel mem g env gobjectsBase className = some classObj) :
    FindPropertyType2 fuel mem g env gobjectsBase className propName
      = if classObj = 0 then some 0
        else (walkChain mem g env propName fuel (readI64 mem (classObj + 80))).map
          fun r => r.1 := by
  have hv : ¬ g.dword_18004FDE0 < 11794982 := by omega
  unfold FindPropertyType2
  simp only [VERSION_PROPCHAIN, hv, if_false, hclass, Option.some_bind, CLASS_PROPLINK_OFFSET]

/-- C28: the chain walk of `FindPropertyType2` for a version from 11794982 on. When the
class is not located the result is 0. When it is, and the nodes `pre` visited before
`last` pass the probe without yielding an offset (secondary field invalid or null,
offset field zero, or another name), the result is 0 if the chain ends there
(`last = 0`), and the offset field of `last` if `last` passes the probe, has a valid
non-null secondary field, a non-zero offset and the name `propName`. -/
theorem chain_walk_first_hit (fuel : Nat) (mem : Memory) (g : Globals) (env : Foreign)
    (gobjectsBase : Int) (className propName : String)
    (hver : 11794982 ≤ g.dword_18004FDE0) :
    (FindObjectType2 fuel mem g env gobjectsBase className = some 0 →
        FindPropertyType2 fuel mem g env gobjectsBase className propName = some 0)
      ∧ (∀ (classObj : Int) (pre : List Int) (last : Int),
          FindObjectType2 fuel mem g env gobjectsBase className = some classObj →
          classObj ≠ 0 →
          ChainSeg mem (readI64 mem (classObj + 80)) pre last →
          (∀ x ∈ pre, env.IsBadReadPtr x 8 = false ∧ ¬ NodeHit mem g env propName x) →
          pre.length + 1 ≤ fuel →
          (last = 0 →
              FindPropertyType2 fuel mem g env gobjectsBase className propName = some 0)
            ∧ (last ≠ 0 → env.IsBadReadPtr last 8 = false →
                NodeHit mem g env propName last →
                FindPropertyType2 fuel mem g env gobjectsBase className propName
                  = some (readInt mem (last + 76)))) := by
  constructor
  · intro hclass
    rw [findPropertyType2_chain fuel mem g env gobjectsBase className propName 0 hver hclass]
    rfl
  · intro classObj pre last hclass hne hseg hpre hfuel
    rw [findPropertyType2_chain fuel mem g env gobjectsBase className propName classObj hver
      hclass, if_neg hne]
    obtain ⟨fuel1, rfl⟩ : ∃ m, fuel = m + 1 + pre.length := ⟨fuel - 1 - pre.length, by omega⟩
    rw [walkChain_segment mem g env propName pre _ last (fuel1 + 1) hseg hpre]
    constructor
    · intro hlast
      subst hlast
      unfold walkChain
      simp
    · intro hlast hprobe hhit
      rw [walkChain_hit mem g env propName fuel1 last hlast hprobe hhit]
      rfl

/-- C28, on the chain of the class `World` of `objectMem`: the node without data, the
node with offset 0 and the node of another name are skipped, and the offset `0x58` of
the first node named `Health` is returned, not the `0x99` of the node after it; a name
that no node carries is not found, nor is a field of a class that is not in the
table. -/
theorem chain_walk_first_hit_witness :
    FindPropertyType2 9 objectMem (objectGlobals 11794982 2 0x2000) (objectEnv []) 0x2000
        "World" "Health" = some 0x58
      ∧ FindPropertyType2 9 objectMem (objectGlobals 11794982 2 0x2000) (objectEnv []) 0x2000
          "World" "Nope" = some 0
      ∧ FindPropertyType2 9 objectMem (objectGlobals 11794982 2 0x2000) (objectEnv []) 0x2000
          "Actor" "Health" = some 0 :=
  ⟨((((chain_walk_first_hit 9 objectMem (objectGlobals 11794982 2 0x2000) (objectEnv [])
      0x2000 "World" "Health" (by decide)).2 0x5300 [0x7000, 0x7100, 0x7200] 0x7300
      (by decide!) (by decide) (by decide!) (by decide!) (by decide)).2 (by decide)
      (by decide!) (by decide!)).trans (by decide!)),
    ((chain_walk_first_hit 9 objectMem (objectGlobals 11794982 2 0x2000) (objectEnv [])
      0x2000 "World" "Nope" (by decide)).2 0x5300 [0x7000, 0x7100, 0x7200, 0x7300, 0x7400] 0
      (by decide!) (by decide) (by decide!) (by decide!) (by decide)).1 rfl,
    (chain_walk_first_hit 9 objectMem (objectGlobals 11794982 2 0x2000) (objectEnv [])
      0x2000 "Actor" "Health" (by decide)).1 (by decide!)⟩

/-- C29: probe-before-read. In the chain walk of `FindPropertyType2` (version from
11794982 on, class located), when the nodes `pre` visited before the node `bad` pass
the probe without yielding an offset and the probe of `bad` fails, the result is 0,
whatever follows `bad` in the chain and whatever its fields hold; the nodes the walk
dereferenced are those of `pre`, and `bad` is not among them. -/
theorem chain_walk_probe_failure (fuel : Nat) (mem : Memory) (g : Globals) (env : Foreign)
    (gobjectsBase : Int) (className propName : String) (classObj : Int) (pre : List Int)
    (bad : Int)
    (hver : 11794982 ≤ g.dword_18004FDE0)
    (hclass : FindObjectType2 fuel mem g env gobjectsBase className = some classObj)
    (hne : classObj ≠ 0)
    (hseg : ChainSeg mem (readI64 mem (classObj + 80)) pre bad)
    (hpre : ∀ x ∈ pre, env.IsBadReadPtr x 8 = false ∧ ¬ NodeHit mem g env propName x)
    (hbad : env.IsBadReadPtr bad 8 = true)
    (hfuel : pre.length + 1 ≤ fuel) :
    FindPropertyType2 fuel mem g env gobjectsBase className propName = some 0
      ∧ walkChain mem g env propName fuel (readI64 mem (classObj + 80)) = some (0, pre)
      ∧ bad ∉ pre := by
  have hwalk : walkChain mem g env propName fuel (readI64 mem (classObj + 80))
      = some (0, pre) := by
    obtain ⟨fuel1, rfl⟩ : ∃ m, fuel = m + 1 + pre.length := ⟨fuel - 1 - pre.length, by omega⟩
    rw [walkChain_segment mem g env propName pre _ bad (fuel1 + 1) hseg hpre]
    unfold walkChain
    by_cases hz : bad = 0
    · simp [hz]
    · simp [hz, hbad]
  refine ⟨?_, hwalk, ?_⟩
  · rw [findPropertyType2_chain fuel mem g env gobjectsBase className propName classObj hver
      hclass, if_neg hne, hwalk]
    rfl
  · intro hmem
    have := (hpre bad hmem).1
    rw [hbad] at this
    exact absurd this (by decide)

/-- C29, on the chain of the class `World` of `objectMem` with a probe that rejects the
third node `0x7200`: the result is 0 although the fourth node is named `Health` and
has the offset `0x58`, and only the first two nodes are dereferenced. -/
theorem chain_walk_probe_failure_witness :
    FindPropertyType2 9 objectMem (objectGlobals 11794982 2 0x2000) (objectEnv [0x7200])
        0x2000 "World" "Health" = some 0
      ∧ walkChain objectMem (objectGlobals 11794982 2 0x2000) (objectEnv [0x7200]) "Health" 9
          (readI64 objectMem (0x5300 + 80)) = some (0, [0x7000, 0x7100])
      ∧ (0x7200 : Int) ∉ [(0x7000 : Int), 0x7100] :=
  chain_walk_probe_failure 9 objectMem (objectGlobals 11794982 2 0x2000) (objectEnv [0x7200])
    0x2000 "World" "Health" 0x5300 [0x7000, 0x7100] 0x7200 (by decide) (by decide!)
    (by decide) (by decide!) (by decide!) (by decide!) (by decide)

/-! ## Properties of the public lookups -/

/-- C30: the degraded state. When the descriptor pointer `qword_18004FDF0` is null,
`StaticFindObject` and `FindPropertyOffset` return 0 for every name and show no message
box, for every memory and with no fuel at all: no table is read and no loop is
entered. -/
theorem degraded_state_not_found (fuel : Nat) (mem : Memory) (g : Globals) (env : Foreign)
    (hnull : g.qword_18004FDF0 = none) :
    (∀ name : String, StaticFindObject fuel mem g env name = some (0, []))
      ∧ (∀ className propertyName : String,
          FindPropertyOffset fuel mem g env className propertyName = some (0, [])) := by
  constructor
  · intro name
    unfold StaticFindObject
    rw [hnull]
  · intro className propertyName
    unfold FindPropertyOffset
    rw [hnull]

/-- C30, on `objectMem` with the globals of a resolution that set no descriptor, and
without fuel: the object `World` and the field `Health`, both present in the tables of
that memory, are not found. -/
theorem degraded_state_not_found_witness :
    StaticFindObject 0 objectMem ⟨4464155, 0x2000, 1, 1, 1, 1, none⟩ (objectEnv []) "World"
        = some (0, [])
      ∧ FindPropertyOffset 0 objectMem ⟨4464155, 0x2000, 1, 1, 1, 1, none⟩ (objectEnv [])
          "World" "Health" = some (0, []) :=
  ⟨(degraded_state_not_found 0 objectMem ⟨4464155, 0x2000, 1, 1, 1, 1, none⟩ (objectEnv [])
      rfl).1 "World",
    (degraded_state_not_found 0 objectMem ⟨4464155, 0x2000, 1, 1, 1, 1, none⟩ (objectEnv [])
      rfl).2 "World" "Health"⟩

/-! ## Further properties of the pattern matcher -/

/-- The function `FindPattern` with both offsets zero returns what `FindPatternRaw`
returns on the parsed pattern. -/
theorem findPattern_zero_offsets (fuel : Nat) (mem : Memory) (module : Nat)
    (patternStr : String) :
    FindPattern fuel mem module patternStr 0 0
      = FindPatternRaw fuel mem module (ParsePattern patternStr) := by
  unfold FindPattern
  cases h : FindPatternRaw fuel mem module (ParsePattern patternStr) with
  | none => rfl
  | some addr =>
    simp only [Option.map_some', ne_eq, not_true_eq_false, if_false]
    by_cases hz : addr = 0
    · rw [if_pos hz, hz]
    · rw [if_neg hz]

/-- C31, counterexample: on the image `demoImage`, loaded at `0x140000000`, the
pattern `40 53 ? 83 EC 20` matches at offset 4096 and at no smaller offset;
`FindPatternRaw` and `FindPattern` return `0x140001000`, the module base plus 4096,
not the offset 4096. -/
theorem findPatternRaw_returns_base_plus_offset :
    MatchesAt demoImage 0x140000000 [0x40, 0x53, -1, 0x83, 0xEC, 0x20] 4096
      ∧ FindPatternRaw 5000 demoImage 0x140000000 (ParsePattern "40 53 ? 83 EC 20")
          = some 0x140001000
      ∧ FindPattern 5000 demoImage 0x140000000 "40 53 ? 83 EC 20" 0 0 = some 0x140001000
      ∧ (0x140001000 : Nat) ≠ 4096 := by
  refine ⟨by decide!, findPatternRaw_demo, ?_, by decide⟩
  rw [findPattern_zero_offsets]
  exact findPatternRaw_demo

/-- C31 (amended): for a pattern of valid tokens, no longer than the image, a non-null
module base and an image inside the address space, `FindPatternRaw` returns (given
the fuel of the scan) the address of the match, module base plus the least matching
offset of the scan range, a non-zero value, and 0 when no offset of the range matches;
`FindPattern` with both offsets zero returns the same value. -/
theorem findPatternRaw_returns_address (fuel : Nat) (mem : Memory) (module : Nat)
    (pattern : List Int)
    (hvalid : ∀ t ∈ pattern, ValidToken t)
    (hpos : 0 < pattern.length) (hle : pattern.length ≤ sizeOfImage mem module)
    (hbase : 0 < module) (haddr : module + sizeOfImage mem module ≤ 2 ^ 64)
    (hfuel : (sizeOfImage mem module - pattern.length) * pattern.length ≤ fuel) :
    (∃ r, FindPatternRaw fuel mem module pattern = some r
      ∧ ((∃ o, o < sizeOfImage mem module - pattern.length ∧ MatchesAt mem module pattern o
            ∧ (∀ o1, o1 < o → ¬ MatchesAt mem module pattern o1)
            ∧ r = module + o ∧ r ≠ 0)
          ∨ (r = 0 ∧ ∀ o, o < sizeOfImage mem module - pattern.length →
              ¬ MatchesAt mem module pattern o)))
      ∧ ∀ patternStr : String, FindPattern fuel mem module patternStr 0 0
          = FindPatternRaw fuel mem module (ParsePattern patternStr) := by
  refine ⟨?_, findPattern_zero_offsets fuel mem module⟩
  obtain ⟨r, hr, hout⟩ := findPatternRaw_spec fuel mem module pattern hpos hle hfuel
  have heq := codeMatchesAt_iff_matchesAt mem module pattern hvalid
  refine ⟨r, hr, ?_⟩
  rcases hout with ⟨o0, ho0, hm0, hleast0, hr0⟩ | ⟨hr0, hnone⟩
  · have hmod : (module + o0) % 2 ^ 64 = module + o0 := Nat.mod_eq_of_lt (by omega)
    left
    exact ⟨o0, ho0, (heq o0).mp hm0, fun o1 h1 hm1 => hleast0 o1 h1 ((heq o1).mpr hm1),
      by rw [hr0, hmod], by omega⟩
  · right
    exact ⟨hr0, fun o ho hm => hnone o ho ((heq o).mpr hm)⟩

/-- C31 (amended), on the image `demoImage`: the returned value is the address
`0x140000000 + o` of a matching offset. -/
theorem findPatternRaw_returns_address_witness :
    (∃ r, FindPatternRaw 50000 demoImage 0x140000000 [0x40, 0x53, -1, 0x83, 0xEC, 0x20]
        = some r
      ∧ ((∃ o, o < sizeOfImage demoImage 0x140000000
                - [(0x40 : Int), 0x53, -1, 0x83, 0xEC, 0x20].length
            ∧ MatchesAt demoImage 0x140000000 [0x40, 0x53, -1, 0x83, 0xEC, 0x20] o
            ∧ (∀ o1, o1 < o →
                ¬ MatchesAt demoImage 0x140000000 [0x40, 0x53, -1, 0x83, 0xEC, 0x20] o1)
            ∧ r = 0x140000000 + o ∧ r ≠ 0)
          ∨ (r = 0 ∧ ∀ o, o < sizeOfImage demoImage 0x140000000
                - [(0x40 : Int), 0x53, -1, 0x83, 0xEC, 0x20].length →
              ¬ MatchesAt demoImage 0x140000000 [0x40, 0x53, -1, 0x83, 0xEC, 0x20] o)))
      ∧ ∀ patternStr : String, FindPattern 50000 demoImage 0x140000000 patternStr 0 0
          = FindPatternRaw 50000 demoImage 0x140000000 (ParsePattern patternStr) :=
  findPatternRaw_returns_address 50000 demoImage 0x140000000 [0x40, 0x53, -1, 0x83, 0xEC, 0x20]
    (by decide) (by decide) (by decide!) (by decide) (by decide!) (by decide!)

/-- A widened pattern passes the inner-loop comparison wherever the pattern does. -/
theorem codeMatchesAt_widen (mem : Memory) (module : Nat) (p p1 : List Int) (o : Nat)
    (hw : Widens p p1) (hm : CodeMatchesAt mem module p o) : CodeMatchesAt mem module p1 o := by
  intro j hj
  rw [hw.1] at hj
  rcases hw.2 j hj with h | h
  · rw [h]
    exact hm j hj
  · exact Or.inl h

/-- C40: wildcard monotonicity. For a non-null module base, an image inside the address
space and a pattern `p` no longer than the image: if `FindPatternRaw` finds `p` at
offset `o` (it returns `module + o`) and `p1` is `p` with some tokens replaced by
wildcards, then `FindPatternRaw` (given the fuel of the scan) finds `p1` at an offset
`o1 <= o`; its result is not 0. -/
theorem wildcard_monotone (fuel fuel1 : Nat) (mem : Memory) (module : Nat) (p p1 : List Int)
    (o : Nat)
    (hw : Widens p p1)
    (hle : p.length ≤ sizeOfImage mem module)
    (hbase : 0 < module) (haddr : module + sizeOfImage mem module ≤ 2 ^ 64)
    (hfound : FindPatternRaw fuel mem module p = some (module + o))
    (hfuel : (sizeOfImage mem module - p.length) * p.length ≤ fuel1) :
    ∃ o1, o1 ≤ o ∧ FindPatternRaw fuel1 mem module p1 = some (module + o1)
      ∧ module + o1 ≠ 0 := by
  have hpos : 0 < p.length := by
    cases p with
    | nil =>
      simp only [FindPatternRaw, List.isEmpty_nil, if_true, Option.some.injEq] at hfound
      omega
    | cons a l => simp
  -- the scan of `p` with more fuel, characterised by its outcome
  have hbig := findPatternRaw_fuel_mono mem module p fuel
    (fuel + (sizeOfImage mem module - p.length) * p.length) (module + o) (by omega) hfound
  obtain ⟨r, hr, hout⟩ := findPatternRaw_spec
    (fuel + (sizeOfImage mem module - p.length) * p.length) mem module p hpos hle (by omega)
  rw [hbig] at hr
  have hro : r = module + o := (Option.some.inj hr).symm
  have hmatch : o < sizeOfImage mem module - p.length ∧ CodeMatchesAt mem module p o := by
    rcases hout with ⟨o0, ho0, hm0, _, hr0⟩ | ⟨hr0, _⟩
    · have hmod : (module + o0) % 2 ^ 64 = module + o0 := Nat.mod_eq_of_lt (by omega)
      have : o0 = o := by omega
      subst this
      exact ⟨ho0, hm0⟩
    · omega
  -- the scan of the widened pattern
  have hlen : p1.length = p.length := hw.1
  obtain ⟨r1, hr1, hout1⟩ := findPatternRaw_spec fuel1 mem module p1 (by omega) (by omega)
    (by rw [hlen]; exact hfuel)
  rw [hlen] at hout1
  have hm1 := codeMatchesAt_widen mem module p p1 o hw hmatch.2
  rcases hout1 with ⟨o1, ho1, _, hleast1, hr1eq⟩ | ⟨_, hnone⟩
  · have hmod : (module + o1) % 2 ^ 64 = module + o1 := Nat.mod_eq_of_lt (by omega)
    have hle1 : ¬ o < o1 := fun h => hleast1 o h hm1
    exact ⟨o1, by omega, by rw [hr1, hr1eq, hmod], by omega⟩
  · exact absurd hm1 (hnone o hmatch.1)

/-- C40, on the image `demoImage`: the pattern `40 53 48 83 EC 20` is found at offset
4096, and so is the pattern with its first, third and last tokens widened. -/
theorem wildcard_monotone_witness :
    ∃ o1, o1 ≤ 4096
      ∧ FindPatternRaw 50000 demoImage 0x140000000 [-1, 0x53, -1, 0x83, 0xEC, -1]
          = some (0x140000000 + o1)
      ∧ 0x140000000 + o1 ≠ 0 :=
  wildcard_monotone 5000 50000 demoImage 0x140000000 [0x40, 0x53, 0x48, 0x83, 0xEC, 0x20]
    [-1, 0x53, -1, 0x83, 0xEC, -1] 4096 (by decide) (by decide!) (by decide) (by decide!)
    (by decide!) (by decide!)

/-- The recording loops return what `scanLoop` returns. -/
theorem scanLoopReads_fst (mem : Memory) (base : Nat) (pattern : List Int) (n R : Nat) :
    ∀ fuel so mi, (scanLoopReads mem base pattern n R fuel so mi).1
      = scanLoop mem base pattern n R fuel so mi := by
  intro fuel
  induction fuel with
  | zero => intro so mi; rfl
  | succ fuel ih =>
    intro so mi
    unfold scanLoopReads scanLoop
    simp only
    split_ifs
    · rfl
    · exact ih _ _
    · rfl
    · exact ih _ _

/-- The recording function returns what `FindPatternRaw` returns. -/
theorem findPatternRawReads_fst (fuel : Nat) (mem : Memory) (module : Nat)
    (pattern : List Int) :
    (FindPatternRawReads fuel mem module pattern).1 = FindPatternRaw fuel mem module pattern := by
  unfold FindPatternRawReads FindPatternRaw
  simp only
  split_ifs
  · rfl
  · rfl
  · exact scanLoopReads_fst mem module pattern _ _ fuel 0 0
  · rfl

/-- Two memories that agree on the eight header bytes declare the same image size. -/
theorem sizeOfImage_congr (mem mem1 : Memory) (module : Nat)
    (h : ∀ a ∈ headerReads mem module, readU8 mem1 a = readU8 mem a) :
    sizeOfImage mem1 module = sizeOfImage mem module := by
  simp only [headerReads, List.mem_cons, List.mem_singleton, List.not_mem_nil, or_false,
    forall_eq_or_imp, forall_eq] at h
  obtain ⟨h0, h1, h2, h3, h4, h5, h6, h7⟩ := h
  have he : e_lfanew mem1 module = e_lfanew mem module := by
    simp only [e_lfanew, readI32, readU32, h0, h1, h2, h3]
  simp only [sizeOfImage, he, readU32, h4, h5, h6, h7]

/-- Inside the scan range every read of the loops is at an offset at most
`R + n - 2`. -/
theorem scanLoopReads_bound (mem : Memory) (base : Nat) (pattern : List Int) (n R : Nat)
    (hR : R + n ≤ 2 ^ 32) :
    ∀ fuel so mi, so < R → mi < n →
      ∀ off ∈ (scanLoopReads mem base pattern n R fuel so mi).2, off + 2 ≤ R + n := by
  intro fuel
  induction fuel with
  | zero =>
    intro so mi _ _ off hoff
    simp [scanLoopReads] at hoff
  | succ fuel ih =>
    intro so mi hso hmi off hoff
    have hmod : (mi + so) % 2 ^ 32 = mi + so := Nat.mod_eq_of_lt (by omega)
    have hso1 : (so + 1) % 2 ^ 32 = so + 1 := Nat.mod_eq_of_lt (by omega)
    have hmi1 : (mi + 1) % 2 ^ 32 = mi + 1 := Nat.mod_eq_of_lt (by omega)
    unfold scanLoopReads at hoff
    simp only [hmod, hso1, hmi1] at hoff
    split_ifs at hoff with h1 h2 h3
    · simp only [List.mem_singleton] at hoff
      omega
    · simp only [List.mem_cons] at hoff
      rcases hoff with h | h
      · omega
      · exact ih (so + 1) 0 (by omega) (by omega) off h
    · simp only [List.mem_singleton] at hoff
      omega
    · simp only [List.mem_cons] at hoff
      rcases hoff with h | h
      · omega
      · exact ih so (mi + 1) hso (by omega) off h

/-- Inside the scan range the loops return the same value on two memories that agree
on the image bytes at the offsets up to `R + n - 2`. -/
theorem scanLoop_congr (mem mem1 : Memory) (base : Nat) (pattern : List Int) (n R : Nat)
    (hR : R + n ≤ 2 ^ 32)
    (hagree : ∀ off, off + 2 ≤ R + n → imageByte mem1 base off = imageByte mem base off) :
    ∀ fuel so mi, so < R → mi < n →
      scanLoop mem1 base pattern n R fuel so mi = scanLoop mem base pattern n R fuel so mi := by
  intro fuel
  induction fuel with
  | zero => intro so mi _ _; rfl
  | succ fuel ih =>
    intro so mi hso hmi
    have hmod : (mi + so) % 2 ^ 32 = mi + so := Nat.mod_eq_of_lt (by omega)
    have hso1 : (so + 1) % 2 ^ 32 = so + 1 := Nat.mod_eq_of_lt (by omega)
    have hmi1 : (mi + 1) % 2 ^ 32 = mi + 1 := Nat.mod_eq_of_lt (by omega)
    have hbyte : readU8 mem1 (base + (mi + so)) = readU8 mem (base + (mi + so)) :=
      hagree (mi + so) (by omega)
    unfold scanLoop
    simp only [hmod, hso1, hmi1, hbyte]
    split_ifs with h1 h2 h3
    · rfl
    · exact ih (so + 1) 0 (by omega) (by omega)
    · rfl
    · exact ih so (mi + 1) hso (by omega)

/-- C39, counterexample: on `truncatedImage 50` (declared size 50) with a pattern of one
token, `FindPatternRaw` reads the size field at the image offset 80, beyond the declared
image; and `truncatedImage 10`, which has the same bytes at every offset below 50 and
differs at offset 80 only, gives another result. -/
theorem findPatternRaw_reads_header_outside :
    0 < [(0xAB : Int)].length
      ∧ sizeOfImage (truncatedImage 50) 0x10000 = 50
      ∧ [(0xAB : Int)].length ≤ sizeOfImage (truncatedImage 50) 0x10000
      ∧ 0x10000 + 80 ∈ (FindPatternRawReads 100 (truncatedImage 50) 0x10000 [0xAB]).2
      ∧ (∀ off, off < 50 →
          imageByte (truncatedImage 10) 0x10000 off = imageByte (truncatedImage 50) 0x10000 off)
      ∧ [(0xAB : Int)].length ≤ sizeOfImage (truncatedImage 10) 0x10000
      ∧ FindPatternRaw 100 (truncatedImage 50) 0x10000 [0xAB] = some (0x10000 + 20)
      ∧ FindPatternRaw 100 (truncatedImage 10) 0x10000 [0xAB] = some 0 := by
  decide!

/-- C39 (amended): under the precondition `0 < tokenCount <= imageSize`, the bytes
`FindPatternRaw` reads are the eight bytes of the two header fields (`e_lfanew` at
`module + 60`, `SizeOfImage` at `module + e_lfanew + 80`) and bytes of the loops, each of
these at an image offset of at most `imageSize - 2`; and on two memories that agree on
the eight header bytes and on the image bytes at the offsets up to `imageSize - 2` the
function returns the same value (with any fuel). When the two header fields lie in the
image below offset `imageSize - 1`, every byte read lies at an image offset of at most
`imageSize - 2`. -/
theorem findPatternRaw_reads_in_image (fuel : Nat) (mem : Memory) (module : Nat)
    (pattern : List Int)
    (hpos : 0 < pattern.length) (hle : pattern.length ≤ sizeOfImage mem module) :
    (FindPatternRawReads fuel mem module pattern).1 = FindPatternRaw fuel mem module pattern
      ∧ (∀ a ∈ (FindPatternRawReads fuel mem module pattern).2,
          a ∈ headerReads mem module
            ∨ ∃ off, a = module + off ∧ off + 2 ≤ sizeOfImage mem module)
      ∧ (∀ mem1 : Memory,
          (∀ a ∈ headerReads mem module, readU8 mem1 a = readU8 mem a) →
          (∀ off, off + 2 ≤ sizeOfImage mem module →
            imageByte mem1 module off = imageByte mem module off) →
          FindPatternRaw fuel mem1 module pattern = FindPatternRaw fuel mem module pattern)
      ∧ (65 ≤ sizeOfImage mem module → 0 ≤ e_lfanew mem module →
          e_lfanew mem module + 85 ≤ sizeOfImage mem module →
          module + sizeOfImage mem module ≤ 2 ^ 64 →
          ∀ a ∈ (FindPatternRawReads fuel mem module pattern).2,
            ∃ off, a = module + off ∧ off + 2 ≤ sizeOfImage mem module) := by
  have hS := sizeOfImage_lt mem module
  have hwrap := wrap64_sub_of_le hle (by omega : sizeOfImage mem module < 2 ^ 64)
  have hlen : pattern.length ≠ 0 := by omega
  have hne : pattern.isEmpty = false := by
    cases pattern with
    | nil => simp at hpos
    | cons a l => rfl
  have hlog : ∀ a ∈ (FindPatternRawReads fuel mem module pattern).2,
      a ∈ headerReads mem module
        ∨ ∃ off, a = module + off ∧ off + 2 ≤ sizeOfImage mem module := by
    intro a ha
    simp only [FindPatternRawReads, hne, hwrap] at ha
    by_cases hz : sizeOfImage mem module - pattern.length = 0
    · simp only [hz, if_true, Bool.false_eq_true, if_false] at ha
      exact Or.inl ha
    · simp only [hz, hlen, if_false, ne_eq, not_false_eq_true, if_true, Bool.false_eq_true,
        List.mem_append, List.mem_map] at ha
      rcases ha with ha | ⟨off, hoff, rfl⟩
      · exact Or.inl ha
      · have := scanLoopReads_bound mem module pattern pattern.length
          (sizeOfImage mem module - pattern.length) (by omega) fuel 0 0 (by omega) hpos off hoff
        exact Or.inr ⟨off, rfl, by omega⟩
  refine ⟨findPatternRawReads_fst fuel mem module pattern, hlog, ?_, ?_⟩
  · intro mem1 hheader hagree
    have hsize := sizeOfImage_congr mem mem1 module hheader
    simp only [FindPatternRaw, hne, hsize, hwrap]
    by_cases hz : sizeOfImage mem module - pattern.length = 0
    · simp [hz]
    · simp only [hz, hlen, if_false, ne_eq, not_false_eq_true, if_true, Bool.false_eq_true]
      exact scanLoop_congr mem mem1 module pattern pattern.length
        (sizeOfImage mem module - pattern.length) (by omega)
        (fun off hoff => hagree off (by omega)) fuel 0 0 (by omega) hpos
  · intro h65 he0 he85 hmod a ha
    rcases hlog a ha with hh | hh
    · have hp : wrap64 ((module : Int) + e_lfanew mem module + 80)
          = module + ((e_lfanew mem module).toNat + 80) := by
        unfold wrap64
        omega
      simp only [headerReads, hp, List.mem_cons, List.mem_singleton, List.not_mem_nil,
        or_false] at hh
      rcases hh with h | h | h | h | h | h | h | h
      · exact ⟨60, h, by omega⟩
      · exact ⟨61, by omega, by omega⟩
      · exact ⟨62, by omega, by omega⟩
      · exact ⟨63, by omega, by omega⟩
      · exact ⟨(e_lfanew mem module).toNat + 80, h, by omega⟩
      · exact ⟨(e_lfanew mem module).toNat + 81, by omega, by omega⟩
      · exact ⟨(e_lfanew mem module).toNat + 82, by omega, by omega⟩
      · exact ⟨(e_lfanew mem module).toNat + 83, by omega, by omega⟩
    · exact hh

/-- C39 (amended), on the image `tailImage` of 100 bytes with a pattern of 3 tokens: the
header fields lie at the offsets 60 to 63 and 80 to 83, and no read is beyond offset 98,
so the byte `0xAB` at offset 99 is never read. -/
theorem findPatternRaw_reads_in_image_witness :
    (FindPatternRawReads 1000 tailImage 0x10000 [0, 0, 0xAB]).1
        = FindPatternRaw 1000 tailImage 0x10000 [0, 0, 0xAB]
      ∧ (∀ mem1 : Memory,
          (∀ a ∈ headerReads tailImage 0x10000, readU8 mem1 a = readU8 tailImage a) →
          (∀ off, off + 2 ≤ sizeOfImage tailImage 0x10000 →
            imageByte mem1 0x10000 off = imageByte tailImage 0x10000 off) →
          FindPatternRaw 1000 mem1 0x10000 [0, 0, 0xAB]
            = FindPatternRaw 1000 tailImage 0x10000 [0, 0, 0xAB])
      ∧ (∀ a ∈ (FindPatternRawReads 1000 tailImage 0x10000 [0, 0, 0xAB]).2,
          ∃ off, a = 0x10000 + off ∧ off + 2 ≤ sizeOfImage tailImage 0x10000) :=
  ⟨(findPatternRaw_reads_in_image 1000 tailImage 0x10000 [0, 0, 0xAB] (by decide)
      (by decide!)).1,
    (findPatternRaw_reads_in_image 1000 tailImage 0x10000 [0, 0, 0xAB] (by decide)
      (by decide!)).2.2.1,
    (findPatternRaw_reads_in_image 1000 tailImage 0x10000 [0, 0, 0xAB] (by decide)
      (by decide!)).2.2.2 (by decide!) (by decide!) (by decide!) (by decide!)⟩

/-! ## Properties of the encrypted signatures -/

/-- C32: each of the four built-in `InputKey` blobs (87, 75, 82 and 78 bytes) decodes,
byte `i` XOR `(i mod 51) + 52`, to ASCII characters followed by a single NUL, the last
byte of the blob; `DecryptInputKeyBlob` returns the `size - 1` characters before it,
and this text is a non-empty sequence of tokens, each `?` or two hex digits, separated
by single spaces. -/
theorem inputKey_blobs_decode :
    inputKeyBlobs.map (fun b => b.2) = [87, 75, 82, 78]
      ∧ ∀ b ∈ inputKeyBlobs,
          b.1.length = b.2
            ∧ xorBlobFrom b.1 0
                = (DecryptInputKeyBlob b.1 b.2).toList.map (fun c => c.toNat) ++ [0]
            ∧ (∀ c ∈ (DecryptInputKeyBlob b.1 b.2).toList, c.toNat ≠ 0 ∧ c.toNat < 128)
            ∧ (DecryptInputKeyBlob b.1 b.2).length = b.2 - 1
            ∧ splitTokens (DecryptInputKeyBlob b.1 b.2).toList ≠ []
            ∧ (∀ t ∈ splitTokens (DecryptInputKeyBlob b.1 b.2).toList, IsBlobToken t)
            ∧ joinTokens (splitTokens (DecryptInputKeyBlob b.1 b.2).toList)
                = (DecryptInputKeyBlob b.1 b.2).toList := by
  decide!

/-! ## Properties of the chunk index -/

/-- The chunk index and the slot of `ChunkedArrayAccess` are the ones named
`chunkIdxOf` and `withinChunkOf`. -/
theorem chunkedArrayAccess_eq_slots (fuel : Nat) (mem : Memory) (arrayBase index : Int) :
    ChunkedArrayAccess fuel mem arrayBase index
      = (if chunkAt mem (readI64 mem arrayBase) 0 = 0
          then firstValidLoop mem (readI64 mem arrayBase) fuel 0 else some 0).bind
        fun firstValid =>
          (lastValidLoop mem (readI64 mem arrayBase) fuel firstValid).map fun lastValid =>
            if firstValid + chunkIdxOf index ≥ lastValid then 0
            else readI64 mem
              (chunkAt mem (readI64 mem arrayBase) (firstValid + chunkIdxOf index)
                + withinChunkOf index * TYPE1_ELEMENT_STRIDE) := rfl

theorem chunkIdxOf_eq (index : Int) (h0 : 0 ≤ index) :
    chunkIdxOf index
      = if index ≠ 0 ∧ index % 65535 = 0 then index / 65535 - 1 else index / 65535 := by
  unfold chunkIdxOf
  simp only [TYPE2_CHUNK_SIZE]
  exact chunkIdx_eq index h0

/-- C38: for every index `>= 0` the chunk index `c` and the slot `s` computed by
`ChunkedArrayAccess` satisfy `c * 65535 + s = index` with `0 <= c` and
`0 <= s <= 65535`, and `s = 0` only for index 0; hence two indices with the same chunk
index and slot are equal, and no index reaches slot 0 of a chunk after the first. -/
theorem chunk_slot_mapping (index : Int) (h0 : 0 ≤ index) :
    chunkIdxOf index * 65535 + withinChunkOf index = index
      ∧ 0 ≤ chunkIdxOf index
      ∧ 0 ≤ withinChunkOf index ∧ withinChunkOf index ≤ 65535
      ∧ (withinChunkOf index = 0 → index = 0)
      ∧ (1 ≤ chunkIdxOf index → withinChunkOf index ≠ 0)
      ∧ (∀ index1 : Int, 0 ≤ index1 → chunkIdxOf index1 = chunkIdxOf index →
          withinChunkOf index1 = withinChunkOf index → index1 = index)
      ∧ (∀ (fuel : Nat) (mem : Memory) (arrayBase : Int),
          ChunkedArrayAccess fuel mem arrayBase index
            = (if chunkAt mem (readI64 mem arrayBase) 0 = 0
                then firstValidLoop mem (readI64 mem arrayBase) fuel 0 else some 0).bind
              fun firstValid =>
                (lastValidLoop mem (readI64 mem arrayBase) fuel firstValid).map
                  fun lastValid =>
                    if firstValid + chunkIdxOf index ≥ lastValid then 0
                    else readI64 mem
                      (chunkAt mem (readI64 mem arrayBase) (firstValid + chunkIdxOf index)
                        + withinChunkOf index * 24)) := by
  have hc := chunkIdxOf_eq index h0
  have hs : withinChunkOf index = index - 65535 * chunkIdxOf index := rfl
  have key : chunkIdxOf index * 65535 + withinChunkOf index = index
      ∧ 0 ≤ chunkIdxOf index ∧ 0 ≤ withinChunkOf index ∧ withinChunkOf index ≤ 65535
      ∧ (withinChunkOf index = 0 → index = 0) := by
    rw [hs, hc]
    split_ifs with h
    · obtain ⟨h1, h2⟩ := h
      refine ⟨by ring, ?_, ?_, ?_, ?_⟩ <;> omega
    · have hh : index = 0 ∨ index % 65535 ≠ 0 := by
        by_cases hz : index = 0
        · exact Or.inl hz
        · exact Or.inr (fun hm => h ⟨hz, hm⟩)
      refine ⟨by ring, ?_, ?_, ?_, ?_⟩ <;> omega
  obtain ⟨k1, k2, k3, k4, k5⟩ := key
  refine ⟨k1, k2, k3, k4, k5, ?_, ?_, ?_⟩
  · intro hge hz
    have := k5 hz
    rw [this] at hge
    have hzero : chunkIdxOf 0 = 0 := by decide
    omega
  · intro index1 h1 hceq hseq
    have hs1 : withinChunkOf index1 = index1 - 65535 * chunkIdxOf index1 := rfl
    omega
  · intro fuel mem arrayBase
    exact chunkedArrayAccess_eq_slots fuel mem arrayBase index

/-- C38, at the index 65535: chunk index 0 and slot 65535. -/
theorem chunk_slot_mapping_witness :
    chunkIdxOf 65535 = 0 ∧ withinChunkOf 65535 = 65535
      ∧ chunkIdxOf 65535 * 65535 + withinChunkOf 65535 = 65535 :=
  ⟨by decide, by decide, (chunk_slot_mapping 65535 (by decide)).1⟩

/-! ## Properties of the string utilities -/

/-- The loop of `SplitString` from any of its states, followed by the push of the final
token: the tokens pushed so far, then the runs of the rest of the string, the first of
them continuing the current token. -/
theorem splitLoop_runs (s : List Char) (d : Char) :
    ∀ (k current ts : Nat) (res : List (List Char)), current + k = s.length →
      (ts = s.length ∨ ts < current) →
      (if (splitLoop s d k current ts res).1 ≠ s.length then
          (splitLoop s d k current ts res).2
            ++ [(s.drop (splitLoop s d k current ts res).1).take
                  (s.length - (splitLoop s d k current ts res).1)]
        else (splitLoop s d k current ts res).2)
        = res ++ runsFrom d (s.drop current)
            (if ts = s.length then [] else (s.drop ts).take (current - ts)) := by
  intro k
  induction k with
  | zero =>
    intro current ts res hk hts
    have hcur : current = s.length := by omega
    subst hcur
    simp only [splitLoop, List.drop_length, runsFrom]
    by_cases h : ts = s.length
    · simp [h]
    · have hlt : ts < s.length := by omega
      have hne : (s.drop ts).take (s.length - ts) ≠ [] := by
        intro hnil
        have := congrArg List.length hnil
        simp only [List.length_take, List.length_drop, List.length_nil] at this
        omega
      simp [h, hne]
  | succ k ih =>
    intro current ts res hk hts
    have hlt : current < s.length := by omega
    have hdrop : s.drop current = s[current] :: s.drop (current + 1) :=
      List.drop_eq_getElem_cons hlt
    have hget : s.getD current ' ' = s[current] := List.getD_eq_getElem s ' ' hlt
    have hcn : current ≠ s.length := by omega
    unfold splitLoop
    rw [hget, hdrop]
    by_cases hc : s[current] = d
    · by_cases h : ts = s.length
      · simp only [hc, h, if_true, ne_eq, not_true_eq_false, if_false]
        rw [← h]
        have := ih (current + 1) ts res (by omega) (Or.inl h)
        rw [if_pos h] at this
        simp only [runsFrom, if_true]
        rw [h] at this ⊢
        exact this
      · have htl : ts < current := by omega
        have hne : (s.drop ts).take (current - ts) ≠ [] := by
          intro hnil
          have := congrArg List.length hnil
          simp only [List.length_take, List.length_drop, List.length_nil] at this
          omega
        have := ih (current + 1) s.length (res ++ [(s.drop ts).take (current - ts)])
          (by omega) (Or.inl rfl)
        simp only [if_true] at this
        simp only [hc, h, if_true, ne_eq, not_false_eq_true, if_false, runsFrom, hne]
        rw [this]
        simp
    · by_cases h : ts = s.length
      · have := ih (current + 1) current res (by omega) (Or.inr (by omega))
        rw [if_neg hcn] at this
        simp only [hc, h, if_true, if_false, runsFrom, List.nil_append]
        rw [this]
        congr 2
        have hone : current + 1 - current = 1 := by omega
        rw [hone, hdrop]
        rfl
      · have htl : ts < current := by omega
        have := ih (current + 1) ts res (by omega) (Or.inr (by omega))
        rw [if_neg h] at this
        simp only [hc, h, if_false, runsFrom]
        rw [this]
        congr 2
        have hsucc : current + 1 - ts = (current - ts) + 1 := by omega
        rw [hsucc, List.take_succ, List.getElem?_drop]
        have hidx : ts + (current - ts) = current := by omega
        rw [hidx, List.getElem?_eq_getElem hlt]
        rfl

/-- The function `SplitString` on characters returns the runs of the string. -/
theorem splitChars_eq (s : List Char) (d : Char) : splitChars s d = runsFrom d s [] := by
  unfold splitChars
  by_cases h : s.length = 0
  · have hs : s = [] := List.length_eq_zero.mp h
    subst hs
    rfl
  · rw [if_pos h]
    have := splitLoop_runs s d s.length 0 s.length [] (by omega) (Or.inl rfl)
    simpa using this

theorem runsFrom_tokens (d : Char) :
    ∀ (s cur : List Char), d ∉ cur → ∀ t ∈ runsFrom d s cur, t ≠ [] ∧ d ∉ t := by
  intro s
  induction s with
  | nil =>
    intro cur hcur t ht
    unfold runsFrom at ht
    split_ifs at ht with h
    · simp at ht
    · simp only [List.mem_singleton] at ht
      subst ht
      exact ⟨h, hcur⟩
  | cons c cs ih =>
    intro cur hcur t ht
    unfold runsFrom at ht
    split_ifs at ht with h1 h2
    · exact ih [] (by simp) t ht
    · simp only [List.mem_cons] at ht
      rcases ht with ht | ht
      · subst ht
        exact ⟨h2, hcur⟩
      · exact ih [] (by simp) t ht
    · refine ih (cur ++ [c]) ?_ t ht
      simp only [List.mem_append, List.mem_singleton, not_or]
      exact ⟨hcur, fun h => h1 h.symm⟩

theorem runsFrom_flatten (d : Char) :
    ∀ (s cur : List Char),
      (runsFrom d s cur).flatten = cur ++ s.filter (fun c => decide (c ≠ d)) := by
  intro s
  induction s with
  | nil =>
    intro cur
    unfold runsFrom
    split_ifs with h
    · simp [h]
    · simp
  | cons c cs ih =>
    intro cur
    unfold runsFrom
    split_ifs with h1 h2
    · simp [ih, h1, h2]
    · simp [ih, h1]
    · simp [ih, h1]

theorem runsFrom_single (d : Char) :
    ∀ (t cur : List Char), d ∉ t →
      runsFrom d t cur = if cur ++ t = [] then [] else [cur ++ t] := by
  intro t
  induction t with
  | nil =>
    intro cur _
    unfold runsFrom
    simp
  | cons c cs ih =>
    intro cur hd
    simp only [List.mem_cons, not_or] at hd
    unfold runsFrom
    rw [if_neg (fun h => hd.1 h.symm), ih (cur ++ [c]) hd.2]
    simp

theorem runsFrom_splitOn (d : Char) :
    ∀ (s cur : List Char),
      runsFrom d s cur
        = ((s.splitOn d).modifyHead (fun t => cur ++ t)).filter (fun t => !t.isEmpty) := by
  intro s
  induction s with
  | nil =>
    intro cur
    unfold runsFrom
    by_cases h : cur = []
    · simp [h, List.splitOn, List.modifyHead]
    · have : cur.isEmpty = false := by
        cases cur with
        | nil => exact absurd rfl h
        | cons a l => rfl
      simp [h, List.splitOn, List.modifyHead, this]
  | cons c cs ih =>
    intro cur
    unfold runsFrom
    have hsplit : (c :: cs).splitOn d
        = if (c == d) = true then [] :: cs.splitOn d
          else List.modifyHead (List.cons c) (cs.splitOn d) := by
      unfold List.splitOn
      exact List.splitOnP_cons _ c cs
    have hnil : runsFrom d cs []
        = (cs.splitOn d).filter (fun t => !t.isEmpty) := by
      rw [ih []]
      congr 1
      cases cs.splitOn d <;> simp [List.modifyHead]
    rw [hsplit]
    by_cases hc : c = d
    · have hb : (c == d) = true := by simp [hc]
      rw [if_pos hc, if_pos hb, hnil]
      by_cases h : cur = []
      · simp [h, List.modifyHead]
      · have : cur.isEmpty = false := by
          cases cur with
          | nil => exact absurd rfl h
          | cons a l => rfl
        simp [h, List.modifyHead, this]
    · have hb : ¬ (c == d) = true := by simp [hc]
      rw [if_neg hc, if_neg hb, ih (cur ++ [c]), List.modifyHead_modifyHead]
      congr 2
      funext t
      simp

/-- C33: `SplitString(s, d)` returns, in order, the maximal non-empty runs of
non-delimiter characters of `s` (the non-empty pieces of `s` split at every `d`): no
token is empty, none contains `d`, the concatenation of the tokens is `s` with every
`d` removed, and splitting a returned token again yields just that token. -/
theorem splitString_runs (s : String) (d : Char) :
    SplitString s d
        = ((s.toList.splitOn d).filter (fun t => !t.isEmpty)).map String.mk
      ∧ (∀ t ∈ SplitString s d, t ≠ "" ∧ d ∉ t.toList)
      ∧ ((SplitString s d).map String.toList).flatten
          = s.toList.filter (fun c => decide (c ≠ d))
      ∧ (∀ t ∈ SplitString s d, SplitString t d = [t]) := by
  have hruns : splitChars s.toList d = runsFrom d s.toList [] := splitChars_eq s.toList d
  have htok := runsFrom_tokens d s.toList [] (by simp)
  refine ⟨?_, ?_, ?_, ?_⟩
  · unfold SplitString
    rw [hruns, runsFrom_splitOn]
    congr 2
    cases s.toList.splitOn d <;> simp [List.modifyHead]
  · intro t ht
    unfold SplitString at ht
    rw [hruns] at ht
    obtain ⟨l, hl, rfl⟩ := List.mem_map.mp ht
    obtain ⟨h1, h2⟩ := htok l hl
    refine ⟨?_, h2⟩
    intro h
    exact h1 (congrArg String.toList h)
  · unfold SplitString
    rw [hruns, List.map_map]
    have hid : (String.toList ∘ String.mk) = id := by
      funext l
      rfl
    rw [hid, List.map_id, runsFrom_flatten]
    simp
  · intro t ht
    unfold SplitString at ht ⊢
    rw [hruns] at ht
    obtain ⟨l, hl, rfl⟩ := List.mem_map.mp ht
    obtain ⟨h1, h2⟩ := htok l hl
    have : splitChars l d = [l] := by
      rw [splitChars_eq, runsFrom_single d l [] h2]
      simp [h1]
    show List.map String.mk (splitChars l d) = [String.mk l]
    rw [this]
    rfl

/-- C33, on an engine version text split at `-`: the empty piece between the two
adjacent delimiters is dropped, and the second token split again is itself. -/
theorem splitString_runs_witness :
    SplitString "4.21.0-4204761+++Fortnite+Release--4.21" '-'
        = ["4.21.0", "4204761+++Fortnite+Release", "4.21"]
      ∧ SplitString "4204761+++Fortnite+Release" '-' = ["4204761+++Fortnite+Release"] :=
  ⟨(splitString_runs "4.21.0-4204761+++Fortnite+Release--4.21" '-').1.trans (by decide!),
    (splitString_runs "4.21.0-4204761+++Fortnite+Release--4.21" '-').2.2.2
      "4204761+++Fortnite+Release" (by decide!)⟩

/-! ## Properties of the gated step -/

theorem toInt64_wrap64_of_range (x : Int) (h0 : -2 ^ 63 ≤ x) (h1 : x < 2 ^ 63) :
    toInt64 (wrap64 x) = x := by
  unfold toInt64 wrap64
  have hmod : (x % 2 ^ 64).toNat % 2 ^ 64 = (x % 2 ^ 64).toNat := by omega
  rw [hmod]
  split_ifs with h <;> omega

/-- The gated step dispatches on `gateBranch`. -/
theorem gatedStep_eq_branch (fuel : Nat) (mem : Memory) (g : Globals) (v89 : Int) :
    gatedStep fuel mem g v89
      = match gateBranch g.dword_18004FDE0 with
        | some (backoff, type) => adjustGObjects fuel mem g v89 backoff type
        | none => some g := by
  unfold gatedStep gateBranch
  simp only
  split_ifs <;> rfl

/-- The branches of the gated step on `int` versions: the first is taken for
4204761 to 4214610, the second for 4225813 to 4461277, the third for every other
version below 4464155, none from 4464155 on. -/
theorem gateBranch_ranges (v : Int) (hlo : -2 ^ 31 ≤ v) (hhi : v < 2 ^ 31) :
    (gateBranch v = some (24, 1) ↔ 4204761 ≤ v ∧ v ≤ 4214610)
      ∧ (gateBranch v = some (32, 2) ↔ 4225813 ≤ v ∧ v ≤ 4461277)
      ∧ (gateBranch v = some (16, 2) ↔
          v < 4464155 ∧ ¬ (4204761 ≤ v ∧ v ≤ 4214610) ∧ ¬ (4225813 ≤ v ∧ v ≤ 4461277))
      ∧ (gateBranch v = none ↔ 4464155 ≤ v) := by
  have h1 : wrap32 (v - 4204761) ≤ 0x2679 ↔ 4204761 ≤ v ∧ v ≤ 4214610 := by
    unfold wrap32
    omega
  have h2 : wrap32 (v - 4225813) ≤ 0x397C8 ↔ 4225813 ≤ v ∧ v ≤ 4461277 := by
    unfold wrap32
    omega
  by_cases c1 : wrap32 (v - 4204761) ≤ 0x2679
  · have r1 := h1.mp c1
    have hval : gateBranch v = some (24, 1) := by
      unfold gateBranch
      rw [if_pos c1]
    rw [hval]
    refine ⟨?_, ?_, ?_, ?_⟩ <;> simp <;> omega
  · have n1 : ¬ (4204761 ≤ v ∧ v ≤ 4214610) := fun h => c1 (h1.mpr h)
    by_cases c2 : wrap32 (v - 4225813) ≤ 0x397C8
    · have r2 := h2.mp c2
      have hval : gateBranch v = some (32, 2) := by
        unfold gateBranch
        rw [if_neg c1, if_pos c2]
      rw [hval]
      refine ⟨?_, ?_, ?_, ?_⟩ <;> simp <;> omega
    · have n2 : ¬ (4225813 ≤ v ∧ v ≤ 4461277) := fun h => c2 (h2.mpr h)
      by_cases c3 : v < 4464155
      · have hval : gateBranch v = some (16, 2) := by
          unfold gateBranch
          rw [if_neg c1, if_neg c2, if_pos c3]
        rw [hval]
        refine ⟨?_, ?_, ?_, ?_⟩ <;> simp <;> omega
      · have hval : gateBranch v = none := by
          unfold gateBranch
          rw [if_neg c1, if_neg c2, if_neg c3]
        rw [hval]
        refine ⟨?_, ?_, ?_, ?_⟩ <;> simp <;> omega

/-- The body of a gated branch: with `o` the first of the offsets `0 .. 2047` from `a`
whose 4-byte value is `-1`, or 2047 when there is none, the new table address is
`a + o - backoff` in `__int64` arithmetic. -/
theorem adjustGObjects_at (fuel : Nat) (mem : Memory) (g : Globals) (a backoff : Int)
    (type : Nat) (o : Nat) (hfuel : 512 ≤ fuel) (ho : o < 2048)
    (hbefore : ∀ o1 : Nat, o1 < o → gateValue mem a o1 ≠ -1)
    (hat : gateValue mem a o = -1 ∨ o = 2047) :
    adjustGObjects fuel mem g a backoff type
      = some { g with qword_18004FDD8 := toInt64 (wrap64 (a + o - backoff)),
                      qword_18004FDF0 := some ⟨type, toInt64 (wrap64 (a + o - backoff))⟩ } := by
  obtain ⟨o0, hscan, ho0, hb0, hat0⟩ := forwardScan_spec mem a fuel hfuel
  have heq : o0 = o := by
    rcases Nat.lt_trichotomy o0 o with h | h | h
    · have hne := hbefore o0 h
      rcases hat0 with h1 | h1
      · exact absurd h1 hne
      · omega
    · exact h
    · have hne := hb0 o h
      rcases hat with h1 | h1
      · exact absurd h1 hne
      · omega
  subst heq
  have hsub : wrap64 ((wrap64 (a + (o0 : Int)) : Int) - backoff)
      = wrap64 (a + (o0 : Int) - backoff) := by
    rw [sub_eq_add_neg, wrap64_wrap64_add, ← sub_eq_add_neg]
  unfold adjustGObjects
  rw [hscan]
  simp only [Option.map_some', hsub]

/-- The gated step keeps the version and, when it takes no branch, the descriptor. -/
theorem gatedStep_frame (fuel : Nat) (mem : Memory) (g g2 : Globals) (v89 : Int)
    (h : gatedStep fuel mem g v89 = some g2) :
    g2.dword_18004FDE0 = g.dword_18004FDE0
      ∧ (gateBranch g.dword_18004FDE0 = none → g2 = g)
      ∧ (∀ backoff type, gateBranch g.dword_18004FDE0 = some (backoff, type) →
          ∃ base, g2.qword_18004FDF0 = some ⟨type, base⟩ ∧ g2.qword_18004FDD8 = base) := by
  rw [gatedStep_eq_branch] at h
  cases hb : gateBranch g.dword_18004FDE0 with
  | none =>
    rw [hb] at h
    simp only [Option.some.injEq] at h
    subst h
    exact ⟨rfl, fun _ => rfl, fun _ _ hc => by simp at hc⟩
  | some bt =>
    obtain ⟨backoff, type⟩ := bt
    rw [hb] at h
    simp only [adjustGObjects, Option.map_eq_some'] at h
    obtain ⟨found, _, rfl⟩ := h
    refine ⟨rfl, fun hc => by simp at hc, ?_⟩
    intro b t hbt
    simp only [Option.some.injEq, Prod.mk.injEq] at hbt
    obtain ⟨rfl, rfl⟩ := hbt
    exact ⟨_, rfl, rfl⟩

/-- A call of `InitializePatterns` that takes a gated branch: the published table
address and descriptor, and the message boxes, which are those of the lookup, of the
resolution loop and of the validation pass. -/
theorem initializePatterns_gated (fuel : Nat) (mem : Memory) (gameModule : Nat)
    (configs : List VersionConfig) (boxResult : Int) (g : Globals) (cfg : VersionConfig)
    (a1 a2 a3 a4 a5 backoff : Int) (type o : Nat)
    (hcfg : findConfig configs g.dword_18004FDE0 = some cfg)
    (h1 : ScanAndResolve fuel mem gameModule (FindPatternByName cfg "GObjects") = some a1)
    (h2 : ScanAndResolve fuel mem gameModule (FindPatternByName cfg "ProcessEvent") = some a2)
    (h3 : ScanAndResolve fuel mem gameModule (FindPatternByName cfg "FNameToString") = some a3)
    (h4 : ScanAndResolve fuel mem gameModule (FindPatternByName cfg "GWorld") = some a4)
    (h5 : ScanAndResolve fuel mem gameModule (FindPatternByName cfg "InputKey") = some a5)
    (hbranch : gateBranch g.dword_18004FDE0 = some (backoff, type))
    (hfuel : 512 ≤ fuel) (ho : o < 2048)
    (hbefore : ∀ o1 : Nat, o1 < o → gateValue mem a1 o1 ≠ -1)
    (hat : gateValue mem a1 o = -1 ∨ o = 2047) :
    ∃ rr, resolveRoles fuel mem gameModule cfg g = some rr
      ∧ InitializePatterns fuel mem gameModule configs boxResult g
        = some ⟨{ g with qword_18004FDD8 := toInt64 (wrap64 (a1 + o - backoff)),
                         qword_18004FDE8 := a2, qword_18004FDC8 := a3,
                         qword_18004FDB0 := a4, qword_18004FDA8 := a5,
                         qword_18004FDF0 := some ⟨type, toInt64 (wrap64 (a1 + o - backoff))⟩ },
            (if g.dword_18004FDE0 = 0 then ["EngineVersion is NULL"] else []) ++ rr.2
              ++ validationBoxes rr.1,
            toInt32 (wrap64 (toInt64 (wrap64 (a1 + o - backoff))))⟩ := by
  obtain ⟨m, hm⟩ := resolveRoles_of_scans fuel mem gameModule cfg g a1 a2 a3 a4 a5 h1 h2 h3 h4 h5
  have hgate : gatedStep fuel mem
      { g with qword_18004FDD8 := a1, qword_18004FDE8 := a2, qword_18004FDC8 := a3,
               qword_18004FDB0 := a4, qword_18004FDA8 := a5 } a1
      = some { g with qword_18004FDD8 := toInt64 (wrap64 (a1 + o - backoff)),
                      qword_18004FDE8 := a2, qword_18004FDC8 := a3,
                      qword_18004FDB0 := a4, qword_18004FDA8 := a5,
                      qword_18004FDF0 := some ⟨type, toInt64 (wrap64 (a1 + o - backoff))⟩ } := by
    rw [gatedStep_eq_branch]
    simp only [hbranch]
    rw [adjustGObjects_at fuel mem _ a1 backoff type o hfuel ho hbefore hat]
  refine ⟨_, hm, ?_⟩
  simp only [InitializePatterns, hcfg, hm, Option.some_bind, hgate, Option.map_some',
    Option.isNone_some, Bool.false_eq_true, if_false, List.append_nil]

/-- The four scans of profile 4 other than `GObjects` fail on `gateImage`, and
`GObjects` resolves to `0x10100`. -/
theorem profile4_scans (mark : Bool) :
    ScanAndResolve 5000 (gateImage mark) 0x10000 (FindPatternByName profile4 "GObjects")
        = some 65792
      ∧ ScanAndResolve 5000 (gateImage mark) 0x10000 (FindPatternByName profile4 "ProcessEvent")
          = some 0
      ∧ ScanAndResolve 5000 (gateImage mark) 0x10000
          (FindPatternByName profile4 "FNameToString") = some 0
      ∧ ScanAndResolve 5000 (gateImage mark) 0x10000 (FindPatternByName profile4 "GWorld")
          = some 0
      ∧ ScanAndResolve 5000 (gateImage mark) 0x10000 (FindPatternByName profile4 "InputKey")
          = some 0 := by
  have e1 : FindPatternByName profile4 "GObjects"
      = some ⟨"GObjects", PAT_GOBJECTS_V2, 3, 0⟩ := by decide!
  have e2 : FindPatternByName profile4 "ProcessEvent"
      = some ⟨"ProcessEvent", PAT_PROCESSEVENT_V2, 12, 0⟩ := by decide!
  have e3 : FindPatternByName profile4 "FNameToString"
      = some ⟨"FNameToString", PAT_FNAMETOSTRING, 19, 0⟩ := by decide!
  have e4 : FindPatternByName profile4 "GWorld"
      = some ⟨"GWorld", PAT_GWORLD_V2, 3, 0⟩ := by decide!
  have e5 : FindPatternByName profile4 "InputKey"
      = some ⟨"InputKey", DecryptInputKeyBlob g_InputKeyBlob2 75, 0, 0⟩ := by decide!
  rw [e1, e2, e3, e4, e5]
  cases mark
  · exact ⟨scanAndResolve_eval _ _ _ _ 65632 65792 (by decide!) (by decide!) (by decide!)
        (by decide!),
      scanAndResolve_eval _ _ _ _ 0 0 (by decide!) (by decide!) (by decide!) (by decide!),
      scanAndResolve_eval _ _ _ _ 0 0 (by decide!) (by decide!) (by decide!) (by decide!),
      scanAndResolve_eval _ _ _ _ 0 0 (by decide!) (by decide!) (by decide!) (by decide!),
      scanAndResolve_eval _ _ _ _ 0 0 (by decide!) (by decide!) (by decide!) (by decide!)⟩
  · exact ⟨scanAndResolve_eval _ _ _ _ 65632 65792 (by decide!) (by decide!) (by decide!)
        (by decide!),
      scanAndResolve_eval _ _ _ _ 0 0 (by decide!) (by decide!) (by decide!) (by decide!),
      scanAndResolve_eval _ _ _ _ 0 0 (by decide!) (by decide!) (by decide!) (by decide!),
      scanAndResolve_eval _ _ _ _ 0 0 (by decide!) (by decide!) (by decide!) (by decide!),
      scanAndResolve_eval _ _ _ _ 0 0 (by decide!) (by decide!) (by decide!) (by decide!)⟩

/-- C34: the forward scan of the gated branches. For a supported `int` version, the
`GObjects` address `a1` resolved by the loop, and `o` the first of the byte offsets
`0, 1, ..., 2047` from `a1` whose 4-byte value is `-1`, `InitializePatterns` returns
with the table address `a1 + o - backoff` and a descriptor of that base: backoff 24 and
type 1 in the first branch (versions 4204761 to 4214610), backoff 32 and type 2 in the
second (4225813 to 4461277), backoff 16 and type 2 in the third (the other versions
below 4464155). -/
theorem gated_scan_first_marker (fuel : Nat) (mem : Memory) (gameModule : Nat)
    (configs : List VersionConfig) (boxResult : Int) (g : Globals) (cfg : VersionConfig)
    (a1 a2 a3 a4 a5 : Int) (o : Nat)
    (hcfg : findConfig configs g.dword_18004FDE0 = some cfg)
    (h1 : ScanAndResolve fuel mem gameModule (FindPatternByName cfg "GObjects") = some a1)
    (h2 : ScanAndResolve fuel mem gameModule (FindPatternByName cfg "ProcessEvent") = some a2)
    (h3 : ScanAndResolve fuel mem gameModule (FindPatternByName cfg "FNameToString") = some a3)
    (h4 : ScanAndResolve fuel mem gameModule (FindPatternByName cfg "GWorld") = some a4)
    (h5 : ScanAndResolve fuel mem gameModule (FindPatternByName cfg "InputKey") = some a5)
    (hfuel : 512 ≤ fuel)
    (hlo : -2 ^ 31 ≤ g.dword_18004FDE0) (hhi : g.dword_18004FDE0 < 2 ^ 31)
    (ha : -2 ^ 62 ≤ a1) (ha1 : a1 < 2 ^ 62)
    (ho : o < 2048)
    (hbefore : ∀ o1 : Nat, o1 < o → gateValue mem a1 o1 ≠ -1)
    (hat : gateValue mem a1 o = -1) :
    (4204761 ≤ g.dword_18004FDE0 ∧ g.dword_18004FDE0 ≤ 4214610 →
        ∃ r, InitializePatterns fuel mem gameModule configs boxResult g = some r
          ∧ r.globals.qword_18004FDD8 = a1 + o - 24
          ∧ r.globals.qword_18004FDF0 = some ⟨1, a1 + o - 24⟩)
      ∧ (4225813 ≤ g.dword_18004FDE0 ∧ g.dword_18004FDE0 ≤ 4461277 →
          ∃ r, InitializePatterns fuel mem gameModule configs boxResult g = some r
            ∧ r.globals.qword_18004FDD8 = a1 + o - 32
            ∧ r.globals.qword_18004FDF0 = some ⟨2, a1 + o - 32⟩)
      ∧ (g.dword_18004FDE0 < 4464155 →
          ¬ (4204761 ≤ g.dword_18004FDE0 ∧ g.dword_18004FDE0 ≤ 4214610) →
          ¬ (4225813 ≤ g.dword_18004FDE0 ∧ g.dword_18004FDE0 ≤ 4461277) →
          ∃ r, InitializePatterns fuel mem gameModule configs boxResult g = some r
            ∧ r.globals.qword_18004FDD8 = a1 + o - 16
            ∧ r.globals.qword_18004FDF0 = some ⟨2, a1 + o - 16⟩) := by
  obtain ⟨r1, r2, r3, _⟩ := gateBranch_ranges g.dword_18004FDE0 hlo hhi
  have hbase : ∀ backoff : Int, 0 ≤ backoff → backoff ≤ 32 →
      toInt64 (wrap64 (a1 + o - backoff)) = a1 + o - backoff := by
    intro backoff hb0 hb1
    exact toInt64_wrap64_of_range _ (by omega) (by omega)
  refine ⟨fun hv => ?_, fun hv => ?_, fun hv n1 n2 => ?_⟩
  · obtain ⟨rr, _, hinit⟩ := initializePatterns_gated fuel mem gameModule configs boxResult g
      cfg a1 a2 a3 a4 a5 24 1 o hcfg h1 h2 h3 h4 h5 (r1.mpr hv) hfuel ho hbefore (Or.inl hat)
    rw [hbase 24 (by decide) (by decide)] at hinit
    exact ⟨_, hinit, rfl, rfl⟩
  · obtain ⟨rr, _, hinit⟩ := initializePatterns_gated fuel mem gameModule configs boxResult g
      cfg a1 a2 a3 a4 a5 32 2 o hcfg h1 h2 h3 h4 h5 (r2.mpr hv) hfuel ho hbefore (Or.inl hat)
    rw [hbase 32 (by decide) (by decide)] at hinit
    exact ⟨_, hinit, rfl, rfl⟩
  · obtain ⟨rr, _, hinit⟩ := initializePatterns_gated fuel mem gameModule configs boxResult g
      cfg a1 a2 a3 a4 a5 16 2 o hcfg h1 h2 h3 h4 h5 (r3.mpr ⟨hv, n1, n2⟩) hfuel ho hbefore
      (Or.inl hat)
    rw [hbase 16 (by decide) (by decide)] at hinit
    exact ⟨_, hinit, rfl, rfl⟩

/-- C34, at version 4204761 of the built-in registry on the image `gateImage true`:
`GObjects` resolves to `0x10100`, the first `-1` is at offset 37, and the published
base is `0x10100 + 37 - 24`. -/
theorem gated_scan_first_marker_witness :
    ∃ r, InitializePatterns 5000 (gateImage true) 0x10000 InitVersionConfigs 1
          ⟨4204761, 0, 0, 0, 0, 0, none⟩ = some r
      ∧ r.globals.qword_18004FDD8 = 65792 + (37 : Nat) - 24
      ∧ r.globals.qword_18004FDF0 = some ⟨1, 65792 + (37 : Nat) - 24⟩ :=
  (gated_scan_first_marker 5000 (gateImage true) 0x10000 InitVersionConfigs 1
    ⟨4204761, 0, 0, 0, 0, 0, none⟩ profile4 65792 0 0 0 0 37 (by decide!)
    (profile4_scans true).1 (profile4_scans true).2.1 (profile4_scans true).2.2.1
    (profile4_scans true).2.2.2.1 (profile4_scans true).2.2.2.2
    (by decide) (by decide) (by decide) (by decide) (by decide) (by decide) (by decide!)
    (by decide!)).1 ⟨by decide, by decide⟩

/-- The call for version 4214615 of the built-in registry on `gateImage true`: the
third branch is taken, with the first `-1` at offset 37 from `0x10100`. -/
theorem gateImage_run_third_branch :
    ∃ msgs, InitializePatterns 5000 (gateImage true) 0x10000 InitVersionConfigs 1
        ⟨4214615, 0, 0, 0, 0, 0, none⟩
      = some ⟨⟨4214615, 65813, 0, 0, 0, 0, some ⟨2, 65813⟩⟩, msgs, toInt32 (wrap64 65813)⟩ := by
  obtain ⟨rr, _, hinit⟩ := initializePatterns_gated 5000 (gateImage true) 0x10000
    InitVersionConfigs 1 ⟨4214615, 0, 0, 0, 0, 0, none⟩ profile4 65792 0 0 0 0 16 2 37
    (by decide!) (profile4_scans true).1 (profile4_scans true).2.1
    (profile4_scans true).2.2.1 (profile4_scans true).2.2.2.1 (profile4_scans true).2.2.2.2
    (by decide) (by decide) (by decide) (by decide!) (Or.inl (by decide!))
  have hb : toInt64 (wrap64 ((65792 : Int) + ((37 : Nat) : Int) - 16)) = 65813 := by decide
  rw [hb] at hinit
  exact ⟨_, hinit⟩

/-- The four scans of profile 1 other than `GObjects` fail on `lowImage`, and `GObjects`
resolves to `0x10100`. -/
theorem profile1_scans :
    ScanAndResolve 5000 lowImage 0x10000 (FindPatternByName profile1 "GObjects") = some 65792
      ∧ ScanAndResolve 5000 lowImage 0x10000 (FindPatternByName profile1 "ProcessEvent")
          = some 0
      ∧ ScanAndResolve 5000 lowImage 0x10000 (FindPatternByName profile1 "FNameToString")
          = some 0
      ∧ ScanAndResolve 5000 lowImage 0x10000 (FindPatternByName profile1 "GWorld") = some 0
      ∧ ScanAndResolve 5000 lowImage 0x10000 (FindPatternByName profile1 "InputKey")
          = some 0 := by
  have e1 : FindPatternByName profile1 "GObjects"
      = some ⟨"GObjects", PAT_GOBJECTS_V1, 3, 0⟩ := by decide!
  have e2 : FindPatternByName profile1 "ProcessEvent"
      = some ⟨"ProcessEvent", PAT_PROCESSEVENT_V1, 0, 0⟩ := by decide!
  have e3 : FindPatternByName profile1 "FNameToString"
      = some ⟨"FNameToString", PAT_FNAMETOSTRING, 19, 0⟩ := by decide!
  have e4 : FindPatternByName profile1 "GWorld"
      = some ⟨"GWorld", PAT_GWORLD_V1, 3, 0⟩ := by decide!
  have e5 : FindPatternByName profile1 "InputKey"
      = some ⟨"InputKey", DecryptInputKeyBlob g_InputKeyBlob1 87, 0, 0⟩ := by decide!
  rw [e1, e2, e3, e4, e5]
  exact ⟨scanAndResolve_eval _ _ _ _ 65632 65792 (by decide!) (by decide!) (by decide!)
      (by decide!),
    scanAndResolve_eval _ _ _ _ 0 0 (by decide!) (by decide!) (by decide!) (by decide!),
    scanAndResolve_eval _ _ _ _ 0 0 (by decide!) (by decide!) (by decide!) (by decide!),
    scanAndResolve_eval _ _ _ _ 0 0 (by decide!) (by decide!) (by decide!) (by decide!),
    scanAndResolve_eval _ _ _ _ 0 0 (by decide!) (by decide!) (by decide!) (by decide!)⟩

/-- The call for version 3700114 of the built-in registry on `lowImage`: the third
branch is taken, with the first `-1` at offset 37 from `0x10100`. -/
theorem lowImage_run_third_branch :
    ∃ msgs, InitializePatterns 5000 lowImage 0x10000 InitVersionConfigs 1
        ⟨3700114, 0, 0, 0, 0, 0, none⟩
      = some ⟨⟨3700114, 65813, 0, 0, 0, 0, some ⟨2, 65813⟩⟩, msgs, toInt32 (wrap64 65813)⟩ := by
  obtain ⟨rr, _, hinit⟩ := initializePatterns_gated 5000 lowImage 0x10000
    InitVersionConfigs 1 ⟨3700114, 0, 0, 0, 0, 0, none⟩ profile1 65792 0 0 0 0 16 2 37
    (by decide!) profile1_scans.1 profile1_scans.2.1
    profile1_scans.2.2.1 profile1_scans.2.2.2.1 profile1_scans.2.2.2.2
    (by decide) (by decide) (by decide) (by decide!) (Or.inl (by decide!))
  have hb : toInt64 (wrap64 ((65792 : Int) + ((37 : Nat) : Int) - 16)) = 65813 := by decide
  rw [hb] at hinit
  exact ⟨_, hinit⟩

/-- The call for version 4204761 of the built-in registry on `gateImage true`: the
first branch is taken, with the first `-1` at offset 37 from `0x10100`. -/
theorem gateImage_run_first_branch :
    ∃ msgs, InitializePatterns 5000 (gateImage true) 0x10000 InitVersionConfigs 1
        ⟨4204761, 0, 0, 0, 0, 0, none⟩
      = some ⟨⟨4204761, 65805, 0, 0, 0, 0, some ⟨1, 65805⟩⟩, msgs, toInt32 (wrap64 65805)⟩ := by
  obtain ⟨rr, _, hinit⟩ := initializePatterns_gated 5000 (gateImage true) 0x10000
    InitVersionConfigs 1 ⟨4204761, 0, 0, 0, 0, 0, none⟩ profile4 65792 0 0 0 0 24 1 37
    (by decide!) (profile4_scans true).1 (profile4_scans true).2.1
    (profile4_scans true).2.2.1 (profile4_scans true).2.2.2.1 (profile4_scans true).2.2.2.2
    (by decide) (by decide) (by decide) (by decide!) (Or.inl (by decide!))
  have hb : toInt64 (wrap64 ((65792 : Int) + ((37 : Nat) : Int) - 24)) = 65805 := by decide
  rw [hb] at hinit
  exact ⟨_, hinit⟩

/-- C19, counterexample: a version that receives Chunked is lower than a version that
receives Flat. For the supported version 3700114 (the `version_min` of profile 1) on
`lowImage`, where `GObjects` resolves to `0x10100`, the call takes the third branch,
`engineVer < 4464155`, and publishes a descriptor of type 2; for the supported version
4204761 on `gateImage true` the call publishes a descriptor of type 1. -/
theorem low_version_receives_chunked :
    (findConfig InitVersionConfigs 3700114).isSome = true
      ∧ ScanAndResolve 5000 lowImage 0x10000 (FindPatternByName profile1 "GObjects")
          = some 65792
      ∧ (InitializePatterns 5000 lowImage 0x10000 InitVersionConfigs 1
            ⟨3700114, 0, 0, 0, 0, 0, none⟩).map (fun r => r.globals)
          = some ⟨3700114, 65813, 0, 0, 0, 0, some ⟨2, 65813⟩⟩
      ∧ (InitializePatterns 5000 (gateImage true) 0x10000 InitVersionConfigs 1
            ⟨4204761, 0, 0, 0, 0, 0, none⟩).map (fun r => r.globals)
          = some ⟨4204761, 65805, 0, 0, 0, 0, some ⟨1, 65805⟩⟩
      ∧ (3700114 : Int) < 4204761 := by
  refine ⟨by decide!, profile1_scans.1, ?_, ?_, by decide⟩
  · obtain ⟨msgs, hinit⟩ := lowImage_run_third_branch
    rw [hinit]
    rfl
  · obtain ⟨msgs, hinit⟩ := gateImage_run_first_branch
    rw [hinit]
    rfl

/-- C19 (amended): the branches of the gated step are mutually exclusive and, for an
`int` version whose five scans return, `InitializePatterns` returns with a descriptor
of type 1 (Flat) exactly for the versions 4204761 to 4214610, with a descriptor of type
2 (Chunked) for every other version below 4464155 (the second range, 4225813 to
4461277, and the third branch, which takes all the remaining versions, those below the
Flat range included), and with the descriptor as it was before the call from 4464155
on. -/
theorem gated_discriminant_by_version (fuel : Nat) (mem : Memory) (gameModule : Nat)
    (configs : List VersionConfig) (boxResult : Int) (g : Globals) (cfg : VersionConfig)
    (a1 a2 a3 a4 a5 : Int)
    (hcfg : findConfig configs g.dword_18004FDE0 = some cfg)
    (h1 : ScanAndResolve fuel mem gameModule (FindPatternByName cfg "GObjects") = some a1)
    (h2 : ScanAndResolve fuel mem gameModule (FindPatternByName cfg "ProcessEvent") = some a2)
    (h3 : ScanAndResolve fuel mem gameModule (FindPatternByName cfg "FNameToString") = some a3)
    (h4 : ScanAndResolve fuel mem gameModule (FindPatternByName cfg "GWorld") = some a4)
    (h5 : ScanAndResolve fuel mem gameModule (FindPatternByName cfg "InputKey") = some a5)
    (hfuel : 512 ≤ fuel)
    (hlo : -2 ^ 31 ≤ g.dword_18004FDE0) (hhi : g.dword_18004FDE0 < 2 ^ 31) :
    ∃ r, InitializePatterns fuel mem gameModule configs boxResult g = some r
      ∧ (4204761 ≤ g.dword_18004FDE0 ∧ g.dword_18004FDE0 ≤ 4214610 →
          ∃ base, r.globals.qword_18004FDF0 = some ⟨1, base⟩)
      ∧ (g.dword_18004FDE0 < 4464155 →
          ¬ (4204761 ≤ g.dword_18004FDE0 ∧ g.dword_18004FDE0 ≤ 4214610) →
          ∃ base, r.globals.qword_18004FDF0 = some ⟨2, base⟩)
      ∧ (4464155 ≤ g.dword_18004FDE0 → r.globals.qword_18004FDF0 = g.qword_18004FDF0) := by
  obtain ⟨g2, hgate, _⟩ := gatedStep_isSome fuel mem
    { g with qword_18004FDD8 := a1, qword_18004FDE8 := a2, qword_18004FDC8 := a3,
             qword_18004FDB0 := a4, qword_18004FDA8 := a5 } a1 hfuel
  obtain ⟨msgs, hinit⟩ := initializePatterns_of_scans fuel mem gameModule configs boxResult g g2
    cfg a1 a2 a3 a4 a5 hcfg h1 h2 h3 h4 h5 hgate
  obtain ⟨_, hkeep, htype⟩ := gatedStep_frame fuel mem _ g2 a1 hgate
  obtain ⟨r1, r2, r3, r4⟩ := gateBranch_ranges g.dword_18004FDE0 hlo hhi
  simp only at hkeep htype
  refine ⟨_, hinit, fun hv => ?_, fun hv n1 => ?_, fun hv => ?_⟩
  · obtain ⟨base, hb, _⟩ := htype 24 1 (r1.mpr hv)
    exact ⟨base, hb⟩
  · by_cases c2 : 4225813 ≤ g.dword_18004FDE0 ∧ g.dword_18004FDE0 ≤ 4461277
    · obtain ⟨base, hb, _⟩ := htype 32 2 (r2.mpr c2)
      exact ⟨base, hb⟩
    · obtain ⟨base, hb, _⟩ := htype 16 2 (r3.mpr ⟨hv, n1, c2⟩)
      exact ⟨base, hb⟩
  · have := hkeep (r4.mpr hv)
    rw [this]

/-- C19 (amended), at version 3700114 of the built-in registry on `lowImage`: below the
Flat range, the call publishes a descriptor of type 2. -/
theorem gated_discriminant_by_version_witness :
    ∃ r, InitializePatterns 5000 lowImage 0x10000 InitVersionConfigs 1
          ⟨3700114, 0, 0, 0, 0, 0, none⟩ = some r
      ∧ ∃ base, r.globals.qword_18004FDF0 = some ⟨2, base⟩ := by
  obtain ⟨r, hr, _, h2, _⟩ := gated_discriminant_by_version 5000 lowImage 0x10000
    InitVersionConfigs 1 ⟨3700114, 0, 0, 0, 0, 0, none⟩ profile1 65792 0 0 0 0 (by decide!)
    profile1_scans.1 profile1_scans.2.1 profile1_scans.2.2.1 profile1_scans.2.2.2.1
    profile1_scans.2.2.2.2 (by decide) (by decide) (by decide)
  exact ⟨r, hr, h2 (by decide) (by decide)⟩

/-- C35, counterexample: the ranges of the gated branches are not those of their
comments. The first branch ends at 4214610 (comment: 4214617) and the second at 4461277
(comment: 4461513); the third branch is taken for the versions between them and for
every version below 4204761, such as 3700114 (comment: 4461514 to 4464154). For the
supported version 4214615, inside the first range of the comments, the call on
`gateImage true`, where `GObjects` resolves to `0x10100`, publishes a descriptor of type
2 with backoff 16. -/
theorem gate_ranges_differ_from_comments :
    gateBranch 4214610 = some (24, 1) ∧ gateBranch 4214611 = some (16, 2)
      ∧ gateBranch 4214617 = some (16, 2)
      ∧ gateBranch 4461277 = some (32, 2) ∧ gateBranch 4461278 = some (16, 2)
      ∧ gateBranch 4461513 = some (16, 2)
      ∧ gateBranch 3700114 = some (16, 2)
      ∧ (∀ (fuel : Nat) (mem : Memory) (g : Globals) (v89 : Int),
          gatedStep fuel mem { g with dword_18004FDE0 := 3700114 } v89
            = adjustGObjects fuel mem { g with dword_18004FDE0 := 3700114 } v89 16 2)
      ∧ (findConfig InitVersionConfigs 3700114).isSome = true
      ∧ (findConfig InitVersionConfigs 4214615).isSome = true
      ∧ (InitializePatterns 5000 (gateImage true) 0x10000 InitVersionConfigs 1
            ⟨4214615, 0, 0, 0, 0, 0, none⟩).map (fun r => r.globals.qword_18004FDF0)
          = some (some ⟨2, 65813⟩) := by
  refine ⟨by decide, by decide, by decide, by decide, by decide, by decide, by decide, ?_,
    by decide!, by decide!, ?_⟩
  · intro fuel mem g v89
    rw [gatedStep_eq_branch]
    have hb : gateBranch 3700114 = some (16, 2) := by decide
    simp only [hb]
  · obtain ⟨msgs, hinit⟩ := gateImage_run_third_branch
    rw [hinit]
    rfl

/-- C35 (amended): the branches of the gated step on an `int` version. The first
(backoff 24, type 1) is taken exactly for 4204761 to 4214610 and the second (backoff 32,
type 2) exactly for 4225813 to 4461277; the third (backoff 16, type 2) is taken exactly
for the versions below 4464155 that are in neither range, and no branch from 4464155
on. -/
theorem gate_branches_by_version (fuel : Nat) (mem : Memory) (g : Globals) (v89 : Int)
    (hlo : -2 ^ 31 ≤ g.dword_18004FDE0) (hhi : g.dword_18004FDE0 < 2 ^ 31) :
    (4204761 ≤ g.dword_18004FDE0 ∧ g.dword_18004FDE0 ≤ 4214610 →
        gatedStep fuel mem g v89 = adjustGObjects fuel mem g v89 24 1)
      ∧ (4225813 ≤ g.dword_18004FDE0 ∧ g.dword_18004FDE0 ≤ 4461277 →
          gatedStep fuel mem g v89 = adjustGObjects fuel mem g v89 32 2)
      ∧ (g.dword_18004FDE0 < 4464155
            ∧ ¬ (4204761 ≤ g.dword_18004FDE0 ∧ g.dword_18004FDE0 ≤ 4214610)
            ∧ ¬ (4225813 ≤ g.dword_18004FDE0 ∧ g.dword_18004FDE0 ≤ 4461277) →
          gatedStep fuel mem g v89 = adjustGObjects fuel mem g v89 16 2)
      ∧ (4464155 ≤ g.dword_18004FDE0 → gatedStep fuel mem g v89 = some g)
      ∧ (gateBranch g.dword_18004FDE0 = some (24, 1) ↔
          4204761 ≤ g.dword_18004FDE0 ∧ g.dword_18004FDE0 ≤ 4214610)
      ∧ (gateBranch g.dword_18004FDE0 = some (32, 2) ↔
          4225813 ≤ g.dword_18004FDE0 ∧ g.dword_18004FDE0 ≤ 4461277)
      ∧ (gateBranch g.dword_18004FDE0 = some (16, 2) ↔
          g.dword_18004FDE0 < 4464155
            ∧ ¬ (4204761 ≤ g.dword_18004FDE0 ∧ g.dword_18004FDE0 ≤ 4214610)
            ∧ ¬ (4225813 ≤ g.dword_18004FDE0 ∧ g.dword_18004FDE0 ≤ 4461277)) := by
  obtain ⟨r1, r2, r3, r4⟩ := gateBranch_ranges g.dword_18004FDE0 hlo hhi
  refine ⟨fun hv => ?_, fun hv => ?_, fun hv => ?_, fun hv => ?_, r1, r2, r3⟩
  · rw [gatedStep_eq_branch, r1.mpr hv]
  · rw [gatedStep_eq_branch, r2.mpr hv]
  · rw [gatedStep_eq_branch, r3.mpr hv]
  · rw [gatedStep_eq_branch, r4.mpr hv]

/-- C35 (amended), at version 4214615 on `gateImage true`, from the address `0x10100`:
inside the first range of the comments and outside the first range of the code, the
gated step is the third branch. -/
theorem gate_branches_by_version_witness :
    gatedStep 5000 (gateImage true) ⟨4214615, 65792, 0, 0, 0, 0, none⟩ 65792
      = adjustGObjects 5000 (gateImage true) ⟨4214615, 65792, 0, 0, 0, 0, none⟩ 65792 16 2 :=
  (gate_branches_by_version 5000 (gateImage true) ⟨4214615, 65792, 0, 0, 0, 0, none⟩ 65792
    (by decide) (by decide)).2.2.1 ⟨by decide, by decide, by decide⟩

/-- C36: when `InitializePatterns`, called for an `int` version with no descriptor
set, returns with a descriptor of type 2, the version is below 4464155, hence below the
chain-walk threshold 11794982; and `FindPropertyOffset` on the globals it returns is
the legacy scan of the table, for every memory, class and field: the chain walk is not
taken. -/
theorem chunked_descriptor_below_threshold (fuel : Nat) (mem : Memory) (gameModule : Nat)
    (configs : List VersionConfig) (boxResult : Int) (g : Globals) (r : InitResult)
    (base : Int)
    (hlo : -2 ^ 31 ≤ g.dword_18004FDE0) (hhi : g.dword_18004FDE0 < 2 ^ 31)
    (hnone : g.qword_18004FDF0 = none)
    (hrun : InitializePatterns fuel mem gameModule configs boxResult g = some r)
    (htype : r.globals.qword_18004FDF0 = some ⟨2, base⟩) :
    r.globals.dword_18004FDE0 = g.dword_18004FDE0
      ∧ r.globals.dword_18004FDE0 < 4464155
      ∧ r.globals.dword_18004FDE0 < VERSION_PROPCHAIN
      ∧ ∀ (fuel1 : Nat) (mem1 : Memory) (env : Foreign) (className propertyName : String),
          FindPropertyOffset fuel1 mem1 r.globals env className propertyName
            = (if readInt mem1 (base + 20) ≤ 0 then some 0
                else findPropertyLoop2 fuel1 mem1 r.globals env base className propertyName
                  (readInt mem1 (base + 20)).toNat 0).map
              fun result => (result, if result = 0 then [valueIsNull] else []) := by
  have hfacts : r.globals.dword_18004FDE0 = g.dword_18004FDE0
      ∧ r.globals.dword_18004FDE0 < 4464155 := by
    unfold InitializePatterns at hrun
    simp only at hrun
    cases hc : findConfig configs g.dword_18004FDE0 with
    | none =>
      rw [hc] at hrun
      simp only [Option.some.injEq] at hrun
      subst hrun
      rw [hnone] at htype
      exact absurd htype (by simp)
    | some cfg =>
      rw [hc] at hrun
      simp only [Option.bind_eq_some, Option.map_eq_some'] at hrun
      obtain ⟨rr, hrr, g2, hgate, rfl⟩ := hrun
      obtain ⟨a1, a2, a3, a4, a5, m1, m2, m3, m4, m5, _, _, _, _, _, _, _, _, _, _, hrreq⟩ :=
        resolveRoles_some fuel mem gameModule cfg g rr hrr
      subst hrreq
      obtain ⟨hdw, hkeep, _⟩ := gatedStep_frame fuel mem _ g2 _ hgate
      simp only at hdw hkeep htype
      refine ⟨hdw, ?_⟩
      rw [hdw]
      by_contra hge
      have hnb : gateBranch g.dword_18004FDE0 = none :=
        (gateBranch_ranges g.dword_18004FDE0 hlo hhi).2.2.2.mpr (by omega)
      have := hkeep hnb
      rw [this] at htype
      simp only [hnone] at htype
      exact absurd htype (by simp)
  obtain ⟨hdw, hlt⟩ := hfacts
  refine ⟨hdw, hlt, ?_, ?_⟩
  · unfold VERSION_PROPCHAIN
    omega
  · intro fuel1 mem1 env className propertyName
    have hver : r.globals.dword_18004FDE0 < VERSION_PROPCHAIN := by
      unfold VERSION_PROPCHAIN
      omega
    unfold FindPropertyOffset
    rw [htype]
    simp only [OfNat.ofNat_ne_one, if_false, if_true, FindPropertyType2, hver,
      TYPE2_COUNT_OFFSET]

/-- C36, at version 4214615 of the built-in registry on the image `gateImage true`:
the call publishes a descriptor of type 2, and a lookup through it is the legacy
scan. -/
theorem chunked_descriptor_below_threshold_witness :
    ∃ r, InitializePatterns 5000 (gateImage true) 0x10000 InitVersionConfigs 1
          ⟨4214615, 0, 0, 0, 0, 0, none⟩ = some r
      ∧ r.globals.qword_18004FDF0 = some ⟨2, 65813⟩
      ∧ r.globals.dword_18004FDE0 < 4464155
      ∧ ∀ (fuel1 : Nat) (mem1 : Memory) (env : Foreign) (className propertyName : String),
          FindPropertyOffset fuel1 mem1 r.globals env className propertyName
            = (if readInt mem1 (65813 + 20) ≤ 0 then some 0
                else findPropertyLoop2 fuel1 mem1 r.globals env 65813 className propertyName
                  (readInt mem1 (65813 + 20)).toNat 0).map
              fun result => (result, if result = 0 then [valueIsNull] else []) := by
  obtain ⟨msgs, hinit⟩ := gateImage_run_third_branch
  have hthm := chunked_descriptor_below_threshold 5000 (gateImage true) 0x10000
    InitVersionConfigs 1 ⟨4214615, 0, 0, 0, 0, 0, none⟩ _ 65813 (by decide) (by decide) rfl
    hinit rfl
  exact ⟨_, hinit, rfl, hthm.2.1, hthm.2.2.2⟩

/-- C37: the missed search. For a supported version below 4464155, when none of
the byte offsets `0 .. 2047` from the resolved `GObjects` address `a1` holds the 4-byte
value `-1`, `InitializePatterns` still returns with a descriptor, of the type of the
branch taken and with base `a1 + 2047 - backoff`, which is also the published table
address. Its message boxes are those of the lookup, of the resolution loop and of the
validation pass: none is shown for the missed search, and none at all when the five
roles resolved to non-null addresses. -/
theorem gated_scan_missed (fuel : Nat) (mem : Memory) (gameModule : Nat)
    (configs : List VersionConfig) (boxResult : Int) (g : Globals) (cfg : VersionConfig)
    (a1 a2 a3 a4 a5 : Int)
    (hcfg : findConfig configs g.dword_18004FDE0 = some cfg)
    (h1 : ScanAndResolve fuel mem gameModule (FindPatternByName cfg "GObjects") = some a1)
    (h2 : ScanAndResolve fuel mem gameModule (FindPatternByName cfg "ProcessEvent") = some a2)
    (h3 : ScanAndResolve fuel mem gameModule (FindPatternByName cfg "FNameToString") = some a3)
    (h4 : ScanAndResolve fuel mem gameModule (FindPatternByName cfg "GWorld") = some a4)
    (h5 : ScanAndResolve fuel mem gameModule (FindPatternByName cfg "InputKey") = some a5)
    (hfuel : 512 ≤ fuel)
    (hv : g.dword_18004FDE0 < 4464155)
    (ha : -2 ^ 62 ≤ a1) (ha1 : a1 < 2 ^ 62)
    (hnone : ∀ o : Nat, o < 2048 → gateValue mem a1 o ≠ -1) :
    ∃ (r : InitResult) (rr : Globals × List String) (backoff : Int) (type : Nat),
      InitializePatterns fuel mem gameModule configs boxResult g = some r
        ∧ resolveRoles fuel mem gameModule cfg g = some rr
        ∧ gateBranch g.dword_18004FDE0 = some (backoff, type)
        ∧ (backoff = 24 ∨ backoff = 32 ∨ backoff = 16)
        ∧ r.globals.qword_18004FDF0 = some ⟨type, a1 + 2047 - backoff⟩
        ∧ r.globals.qword_18004FDD8 = a1 + 2047 - backoff
        ∧ r.messages
            = (if g.dword_18004FDE0 = 0 then ["EngineVersion is NULL"] else []) ++ rr.2
              ++ validationBoxes rr.1
        ∧ (g.dword_18004FDE0 ≠ 0 → a1 ≠ 0 → a2 ≠ 0 → a3 ≠ 0 → a4 ≠ 0 → a5 ≠ 0 →
            r.messages = []) := by
  have hbranch : ∃ backoff type, gateBranch g.dword_18004FDE0 = some (backoff, type)
      ∧ (backoff = 24 ∨ backoff = 32 ∨ backoff = 16) := by
    unfold gateBranch
    split_ifs with c1 c2
    · exact ⟨24, 1, rfl, Or.inl rfl⟩
    · exact ⟨32, 2, rfl, Or.inr (Or.inl rfl)⟩
    · exact ⟨16, 2, rfl, Or.inr (Or.inr rfl)⟩
  obtain ⟨backoff, type, hb, hbo⟩ := hbranch
  obtain ⟨rr, hrr, hinit⟩ := initializePatterns_gated fuel mem gameModule configs boxResult g
    cfg a1 a2 a3 a4 a5 backoff type 2047 hcfg h1 h2 h3 h4 h5 hb hfuel (by decide)
    (fun o1 ho1 => hnone o1 (by omega)) (Or.inr rfl)
  have hbase : toInt64 (wrap64 (a1 + ((2047 : Nat) : Int) - backoff)) = a1 + 2047 - backoff := by
    rw [toInt64_wrap64_of_range _ (by push_cast; omega) (by push_cast; omega)]
    push_cast
    rfl
  rw [hbase] at hinit
  refine ⟨_, rr, backoff, type, hinit, hrr, hb, hbo, rfl, rfl, rfl, ?_⟩
  intro hv0 n1 n2 n3 n4 n5
  obtain ⟨q1, b1⟩ := scanAndResolve_quiet _ _ _ _ _ h1 n1
  obtain ⟨q2, b2⟩ := scanAndResolve_quiet _ _ _ _ _ h2 n2
  obtain ⟨q3, b3⟩ := scanAndResolve_quiet _ _ _ _ _ h3 n3
  obtain ⟨q4, b4⟩ := scanAndResolve_quiet _ _ _ _ _ h4 n4
  obtain ⟨q5, b5⟩ := scanAndResolve_quiet _ _ _ _ _ h5 n5
  simp only [resolveRoles, h1, h2, h3, h4, h5, b1, b2, b3, b4, b5, q1, q2, q3, q4, q5,
    Option.some_bind, List.append_nil, Option.some.injEq] at hrr
  subst hrr
  simp only [validationBoxes, if_neg n1, if_neg n2, if_neg n3, if_neg n4, if_neg n5,
    if_neg hv0, List.append_nil]

/-- C37, at version 4204761 of the built-in registry on the image `gateImage false`,
which holds no `-1` in the 2048 bytes from the resolved address `0x10100`: the
descriptor has type 1 and base `0x10100 + 2047 - 24`. -/
theorem gated_scan_missed_witness :
    ∃ (r : InitResult) (rr : Globals × List String) (backoff : Int) (type : Nat),
      InitializePatterns 5000 (gateImage false) 0x10000 InitVersionConfigs 1
          ⟨4204761, 0, 0, 0, 0, 0, none⟩ = some r
        ∧ resolveRoles 5000 (gateImage false) 0x10000 profile4 ⟨4204761, 0, 0, 0, 0, 0, none⟩
            = some rr
        ∧ gateBranch 4204761 = some (backoff, type)
        ∧ (backoff = 24 ∨ backoff = 32 ∨ backoff = 16)
        ∧ r.globals.qword_18004FDF0 = some ⟨type, 65792 + 2047 - backoff⟩
        ∧ r.globals.qword_18004FDD8 = 65792 + 2047 - backoff
        ∧ r.messages
            = (if (4204761 : Int) = 0 then ["EngineVersion is NULL"] else []) ++ rr.2
              ++ validationBoxes rr.1
        ∧ ((4204761 : Int) ≠ 0 → (65792 : Int) ≠ 0 → (0 : Int) ≠ 0 → (0 : Int) ≠ 0 →
            (0 : Int) ≠ 0 → (0 : Int) ≠ 0 → r.messages = []) :=
  gated_scan_missed 5000 (gateImage false) 0x10000 InitVersionConfigs 1
    ⟨4204761, 0, 0, 0, 0, 0, none⟩ profile4 65792 0 0 0 0 (by decide!)
    (profile4_scans false).1 (profile4_scans false).2.1 (profile4_scans false).2.2.1
    (profile4_scans false).2.2.2.1 (profile4_scans false).2.2.2.2
    (by decide) (by decide) (by decide) (by decide) (by decide!)


end Rift
